import Mathlib

/-!
# XPI signer (`signer/xpi`): JAR manifests, archive repacking, PKCS7 and COSE signatures

A shallow embedding of `signer/xpi/jar.go`, `signer/xpi/xpi.go` and of the
validation part of `signer/xpi/cose.go`.

Conventions of the embedding

* A Go `string` and a Go `[]byte` are both byte sequences: `Bytes = List UInt8`.
  The source's string literals are ASCII, `lit` gives their bytes.
* The packages the source imports (`archive/zip`, `crypto/sha1`, `crypto/sha256`,
  `crypto/x509`, `encoding/json`, `go.mozilla.org/pkcs7`, `go.mozilla.org/cose`) and
  the functions of this repository outside these three files (`signer.ParsePrivateKey`,
  `s.MakeEndEntity`) are parameters of the embedding (`ZipLib`, `HashLib`, `X509Lib`,
  `JSONLib`, `PKCS7Lib`, `SignLib`, `COSELib`, `KeyLib`): every result below holds for
  any behaviour of them. `encoding/base64` (`StdEncoding`) and `pem.Encode` are
  embedded concretely, because the transport forms of a signature depend on them.
* `makeJARManifests`, which `SignFile` calls and `jar.go` does not define, is
  modelled from the specification; it is `makeJARManifestAndSignature` of `jar.go`.
* A Go function returning `(value, error)` becomes a function into `Except Error _`
  when the value is the zero value on every error path, and into a pair
  `_ × Option Error` when the source returns data next to the error.
* A Go `panic` is the constructor `Outcome.panicked`.
* `time.Now()` is an argument: `New` reads the clock twice.
-/

namespace Xpi

/-! ## Byte strings -/

/-- A Go `string` or `[]byte`. -/
abbrev Bytes := List UInt8

/-- The bytes of an ASCII string literal of the source. -/
def lit (s : String) : Bytes := s.toList.map (fun c => UInt8.ofNat c.toNat)

/-- Go: `strings.HasPrefix(s, prefix)`. -/
def HasPrefix (s pre : Bytes) : Bool := pre.isPrefixOf s

/-- Go: `strings.HasSuffix(s, suffix)`. -/
def HasSuffix (s suf : Bytes) : Bool := suf.isSuffixOf s

/-- Go: `strings.TrimPrefix(s, prefix)`. -/
def TrimPrefix (s pre : Bytes) : Bytes :=
  if HasPrefix s pre then s.drop pre.length else s

/-! ## Header values of a COSE message -/

/-- An element of an array header value, a Go `interface{}`: a `[]byte`, or a
value of any other dynamic type. -/
inductive Item where
  | bytes (b : Bytes)
  | other (desc : String)
  deriving DecidableEq, Repr

/-- A header key or header value of a COSE message, a Go `interface{}`: an `int`,
a `[]byte`, a `[]interface{}`, or a value of any other dynamic type. -/
inductive Value where
  | int (n : Int)
  | bytes (b : Bytes)
  | array (items : List Item)
  | other (desc : String)
  deriving DecidableEq, Repr

/-- An argument of a format string (`%d`, `%s`, `%q`, `%+v`, `%T`). -/
inductive FmtArg where
  | int (n : Int)
  | bytes (b : Bytes)
  | value (v : Value)
  | item (v : Item)
  | headers (m : List (Value × Value))
  deriving DecidableEq, Repr

/-! ## Errors and panics -/

/-- Go `error` values, kept structured: what built the error and from what. -/
inductive Error where
  /-- an error value returned by an imported package -/
  | lib (detail : String)
  /-- `base64.CorruptInputError(offset)` -/
  | corruptInput (offset : Int)
  /-- `errors.New(msg)` -/
  | new (msg : String)
  /-- `errors.Wrap(cause, msg)` and `errors.Wrapf(cause, msg)` -/
  | wrap (cause : Error) (msg : String)
  /-- `fmt.Errorf(format, cause)` with one `%v` verb -/
  | errorf (format : String) (cause : Error)
  /-- `fmt.Errorf(format, a, b)` with two `%q` verbs -/
  | errorfQ (format : String) (a b : Bytes)
  /-- `fmt.Errorf(format, args...)` and `errors.Errorf(format, args...)` -/
  | formatted (format : String) (args : List FmtArg)
  /-- `errors.Wrapf(cause, format, args...)` -/
  | wrapf (cause : Error) (format : String) (args : List FmtArg)
  deriving DecidableEq, Repr

/-- The result of running Go code that may panic. -/
inductive Outcome (α : Type) where
  | returned (a : α)
  | panicked (msg : String) (cause : Option Error)
  deriving DecidableEq, Repr

/-! ## `archive/zip`, `crypto/sha1`, `crypto/sha256` as parameters -/

/-- What `f.Open()` followed by `ioutil.ReadAll(rc)` gives for one archive entry. -/
inductive FileBody where
  /-- `f.Open()` returns an error -/
  | openErr (e : Error)
  /-- `f.Open()` succeeds, `ioutil.ReadAll` returns an error -/
  | readErr (e : Error)
  /-- both succeed: the decompressed content -/
  | data (b : Bytes)
  deriving DecidableEq, Repr

/-- A `*zip.File` as this package uses it: `f.Name`, `f.FileInfo().IsDir()`,
and the outcome of opening and reading it. -/
structure File where
  Name : Bytes
  IsDir : Bool
  body : FileBody
  deriving DecidableEq, Repr

/-- Metafile is a file to pack into a JAR at `.Name` with contents `.Body`
(`.Name` should begin with `META-INF/` but this is not checked). -/
structure Metafile where
  Name : Bytes
  Body : Bytes
  deriving DecidableEq, Repr

/-- The package `archive/zip`. The state of a `zip.Writer` is the list of entries
(name and uncompressed content) written to it so far, in order. -/
structure ZipLib where
  /-- `zip.NewReader(bytes.NewReader(input), len(input))`: an error, or `r.File` -/
  NewReader : Bytes → Except Error (List File)
  /-- the error, if any, of `w.CreateHeader(&zip.FileHeader{Name: name, Method: zip.Deflate})` -/
  CreateHeader : List Metafile → Bytes → Option Error
  /-- the error, if any, of `fw.Write(data)` on the entry `name` just created -/
  Write : List Metafile → Bytes → Bytes → Option Error
  /-- the error, if any, of `w.Close()` -/
  Close : List Metafile → Option Error
  /-- `buf.Bytes()` once the writer is closed: the archive holding these entries -/
  Archive : List Metafile → Bytes

/-- The packages `crypto/sha1` and `crypto/sha256`: `h := New(); h.Write(data); h.Sum(nil)`. -/
structure HashLib where
  sha1 : Bytes → Bytes
  sha256 : Bytes → Bytes

/-! ## `encoding/base64`, `StdEncoding` -/

/-- The alphabet `encodeStd` of `base64.StdEncoding`. -/
def encodeStd : Bytes :=
  lit "ABCDEFGHIJKLMNOPQRSTUVWXYZabcdefghijklmnopqrstuvwxyz0123456789+/"

/-- The padding character of `StdEncoding`, `=`. -/
def padChar : UInt8 := 61

/-- Go: `enc.encode[v]`, for a 6 bit value `v`. -/
def encodeChar (v : Nat) : UInt8 := encodeStd.getD v 0

/-- Go: `(*Encoding).EncodeToString` of `StdEncoding`: three source bytes give
`val = b0<<16 | b1<<8 | b2` and the four characters `encode[val>>18&0x3F]`,
`encode[val>>12&0x3F]`, `encode[val>>6&0x3F]`, `encode[val&0x3F]`; a remaining
block of one or two bytes is padded with `=`. -/
def EncodeToString : Bytes → Bytes
  | [] => []
  | [a] =>
    let val := a.toNat * 65536
    [encodeChar (val / 262144 % 64), encodeChar (val / 4096 % 64), padChar, padChar]
  | [a, b] =>
    let val := a.toNat * 65536 + b.toNat * 256
    [encodeChar (val / 262144 % 64), encodeChar (val / 4096 % 64),
      encodeChar (val / 64 % 64), padChar]
  | a :: b :: c :: rest =>
    let val := a.toNat * 65536 + b.toNat * 256 + c.toNat
    encodeChar (val / 262144 % 64) :: encodeChar (val / 4096 % 64) ::
      encodeChar (val / 64 % 64) :: encodeChar (val % 64) :: EncodeToString rest

/-- Go: `enc.decodeMap[c]`: the 6 bit value of an alphabet character, `none` for `0xff`. -/
def decodeMap (c : UInt8) : Option Nat :=
  let i := encodeStd.indexOf c
  if i < 64 then some i else none

/-- Go: `in == '\n' || in == '\r'`. -/
def isNewline (c : UInt8) : Bool := c == 10 || c == 13

/-- The bytes a quantum of `dlen` characters yields: Go's
`val := dbuf[0]<<18 | dbuf[1]<<12 | dbuf[2]<<6 | dbuf[3]`, of which the first
`dlen - 1` bytes `val>>16, val>>8, val>>0` are stored (decoding is not strict). -/
def quantumBytes (dbuf : List Nat) : Bytes :=
  let val := dbuf.getD 0 0 * 262144 + dbuf.getD 1 0 * 4096 + dbuf.getD 2 0 * 64 + dbuf.getD 3 0
  ([UInt8.ofNat (val / 65536 % 256), UInt8.ofNat (val / 256 % 256),
    UInt8.ofNat (val % 256)] : Bytes).take (dbuf.length - 1)

/-- After the padding of a quantum: newlines are skipped, anything left is
trailing garbage (`CorruptInputError(si)`); the quantum's bytes are stored either way. -/
def decodeAfterPadding (src : Bytes) (si : Nat) (dbuf : List Nat) (dst : Bytes) :
    Bytes × Option Error :=
  let skipped := src.takeWhile isNewline
  let rest := src.dropWhile isNewline
  (dst ++ quantumBytes dbuf,
    if rest = [] then none else some (Error.corruptInput (si + skipped.length)))

/-- Go: `(*Encoding).Decode` of `StdEncoding`, the loop over `decodeQuantum`.
`src` is what is left of the input, `si` the offset of its first byte, `dbuf` the
values of the current quantum read so far (`j = dbuf.length`), `dst` the bytes
decoded so far. Returns the decoded bytes and the error, if any. -/
def decodeLoop : Bytes → Nat → List Nat → Bytes → Bytes × Option Error
  | [], si, dbuf, dst =>
    -- `len(src) == si`: fine between quanta, corrupt inside one
    if dbuf.length = 0 then (dst, none)
    else (dst, some (Error.corruptInput ((si : Int) - dbuf.length)))
  | c :: src, si, dbuf, dst =>
    match decodeMap c with
    | some out =>
      if dbuf.length = 3 then decodeLoop src (si + 1) [] (dst ++ quantumBytes (dbuf ++ [out]))
      else decodeLoop src (si + 1) (dbuf ++ [out]) dst
    | none =>
      if isNewline c then decodeLoop src (si + 1) dbuf dst
      else if c ≠ padChar then (dst, some (Error.corruptInput si))
      else
        -- we have reached the end and there is padding
        match dbuf.length with
        | 0 => (dst, some (Error.corruptInput si))
        | 1 => (dst, some (Error.corruptInput si))
        | 2 =>
          -- "==" is expected, the first "=" is already consumed
          let skipped := src.takeWhile isNewline
          match src.dropWhile isNewline with
          | [] => (dst, some (Error.corruptInput (si + 1 + skipped.length)))
          | c2 :: rest =>
            if c2 ≠ padChar then
              (dst, some (Error.corruptInput ((si : Int) + skipped.length)))
            else decodeAfterPadding rest (si + 1 + skipped.length + 1) dbuf dst
        | _ => decodeAfterPadding src (si + 1) dbuf dst

/-- Go: `base64.StdEncoding.DecodeString(s)`: the decoded bytes (partial when the
input is malformed) and the error. New line characters are ignored. -/
def DecodeString (s : Bytes) : Bytes × Option Error := decodeLoop s 0 [] []

/-! ## `jar.go` -/

/-- The JAR format defines a number of signature files stored under the META-INF
directory: `META-INF/MANIFEST.MF`, `META-INF/*.SF`, `META-INF/*.DSA`,
`META-INF/*.RSA`, `META-INF/SIG-*` and their lowercase variants. -/
def isSignatureFile (name : Bytes) : Bool :=
  if HasPrefix name (lit "META-INF/") then
    let name := TrimPrefix name (lit "META-INF/")
    if name == lit "MANIFEST.MF" || name == lit "manifest.mf" ||
        HasSuffix name (lit ".SF") || HasSuffix name (lit ".sf") ||
        HasSuffix name (lit ".RSA") || HasSuffix name (lit ".rsa") ||
        HasSuffix name (lit ".DSA") || HasSuffix name (lit ".dsa") ||
        HasPrefix name (lit "SIG-") || HasPrefix name (lit "sig-") then
      true
    else false
  else false

/-- The body of the loop of `makeJARManifest` over `r.File`: `mw` is the buffer
written so far. An entry that cannot be opened or read ends the loop with its error. -/
def manifestLoop (h : HashLib) : List File → Bytes → Except Error Bytes
  | [], mw => .ok mw
  | f :: fs, mw =>
    if isSignatureFile f.Name then
      -- reserved signature files do not get included in the manifest
      manifestLoop h fs mw
    else if f.IsDir then
      -- directories do not get included
      manifestLoop h fs mw
    else
      match f.body with
      | .openErr e => .error e
      | .readErr e => .error e
      | .data data =>
        let mw := mw ++ (lit "Name: " ++ f.Name ++ lit "\nDigest-Algorithms: SHA1 SHA256\n")
        let mw := mw ++ (lit "SHA1-Digest: " ++ EncodeToString (h.sha1 data) ++ lit "\n")
        let mw := mw ++ (lit "SHA256-Digest: " ++ EncodeToString (h.sha256 data) ++ lit "\n\n")
        manifestLoop h fs mw

/-- Calculates a sha1 and sha256 hash for each zip entry and writes them to a
manifest file. Returns the pair `(manifest, err)` of the source: nothing when the
archive does not open, the version header alone when an entry cannot be read. -/
def makeJARManifest (zip : ZipLib) (h : HashLib) (input : Bytes) : Bytes × Option Error :=
  match zip.NewReader input with
  | .error err => ([], some err)
  | .ok files =>
    let manifest := lit "Manifest-Version: 1.0\n\n"
    match manifestLoop h files [] with
    | .error err => (manifest, some err)
    | .ok manifestBody => (manifest ++ manifestBody, none)

/-- Calculates a signature file by hashing the manifest with sha1 and sha256.
Returns the pair `(sigfile, err)` of the source. -/
def makeJARSignature (h : HashLib) (manifest : Bytes) : Bytes × Option Error :=
  let sw : Bytes := []
  let sw := sw ++ lit "Signature-Version: 1.0\n"
  let sw := sw ++ (lit "SHA1-Digest-Manifest: " ++ EncodeToString (h.sha1 manifest) ++ lit "\n")
  let sw := sw ++
    (lit "SHA256-Digest-Manifest: " ++ EncodeToString (h.sha256 manifest) ++ lit "\n\n")
  (sw, none)

/-- The first loop of `repackJARWithMetafiles`, over `r.File`: `w` holds the
entries written so far. Signature files are skipped; every other entry is opened,
created in the new archive, read and written. -/
def copyLoop (zip : ZipLib) : List File → List Metafile → Except Error (List Metafile)
  | [], w => .ok w
  | f :: fs, w =>
    if isSignatureFile f.Name then
      -- skip signature files, we have new ones we will add at the end
      copyLoop zip fs w
    else
      match f.body with
      | .openErr err => .error err
      | body =>
        match zip.CreateHeader w f.Name with
        | some err => .error err
        | none =>
          match body with
          | .openErr err => .error err
          | .readErr err => .error err
          | .data data =>
            match zip.Write w f.Name data with
            | some err => .error err
            | none => copyLoop zip fs (w ++ [⟨f.Name, data⟩])

/-- The second loop of `repackJARWithMetafiles`: inserts the signature files. -/
def metaLoop (zip : ZipLib) : List Metafile → List Metafile → Except Error (List Metafile)
  | [], w => .ok w
  | meta :: metas, w =>
    match zip.CreateHeader w meta.Name with
    | some err => .error err
    | none =>
      match zip.Write w meta.Name meta.Body with
      | some err => .error err
      | none => metaLoop zip metas (w ++ [⟨meta.Name, meta.Body⟩])

/-- The entries `repackJARWithMetafiles` has written to the new archive when it
closes the writer: an error of any step ends the function with that error. -/
def repackEntries (zip : ZipLib) (input : Bytes) (metafiles : List Metafile) :
    Except Error (List Metafile) :=
  match zip.NewReader input with
  | .error err => .error err
  | .ok files =>
    match copyLoop zip files [] with
    | .error err => .error err
    | .ok w =>
      match metaLoop zip metafiles w with
      | .error err => .error err
      | .ok w =>
        -- make sure to check the error on Close
        match zip.Close w with
        | some err => .error err
        | none => .ok w

/-- Inserts metafiles in the input JAR file and returns a JAR ZIP archive. -/
def repackJARWithMetafiles (zip : ZipLib) (input : Bytes) (metafiles : List Metafile) :
    Except Error Bytes :=
  match repackEntries zip input metafiles with
  | .error err => .error err
  | .ok w => .ok (zip.Archive w)

/-- The three metafiles `repackJAR` inserts, in this order. -/
def jarMetas (manifest sigfile signature : Bytes) : List Metafile :=
  [⟨lit "META-INF/manifest.mf", manifest⟩,
   ⟨lit "META-INF/mozilla.sf", sigfile⟩,
   ⟨lit "META-INF/mozilla.rsa", signature⟩]

/-- Inserts the manifest, signature file and pkcs7 signature in the input JAR
file, and returns a JAR ZIP archive. -/
def repackJAR (zip : ZipLib) (input manifest sigfile signature : Bytes) : Except Error Bytes :=
  repackJARWithMetafiles zip input (jarMetas manifest sigfile signature)

/-- Go: the `for _, f := range r.File` of `mustReadFileFromZIP`: the first entry
named `filename` decides. When `f.Open()` fails `rc` is nil, and the statement
`defer rc.Close()`, which comes before the check of the error, panics with a
nil pointer dereference. -/
def readLoop (filename : Bytes) : List File → Outcome Bytes
  | [] => .panicked "failed to find %s in ZIP" none
  | f :: fs =>
    if f.Name = filename then
      match f.body with
      | .openErr _ =>
        .panicked "runtime error: invalid memory address or nil pointer dereference" none
      | .readErr err => .panicked "Error reading file %s in ZIP %s" (some err)
      | .data data => .returned data
    else readLoop filename fs

/-- Reads a given filename out of a ZIP and returns it or panics. -/
def mustReadFileFromZIP (zip : ZipLib) (signedXPI : Bytes) (filename : Bytes) : Outcome Bytes :=
  match zip.NewReader signedXPI with
  | .error err => .panicked "Error reading ZIP %s" (some err)
  | .ok files => readLoop filename files

/-! ## `xpi.go`: the signature and its transport form -/

/-- The package `go.mozilla.org/pkcs7`, for a type `P7` of parsed signatures
(`*pkcs7.PKCS7`) and a type `Pool` of trust stores (`*x509.CertPool`). -/
structure PKCS7Lib (P7 Pool : Type) where
  /-- `pkcs7.Parse(data)` -/
  Parse : Bytes → Except Error P7
  /-- the parsed signature after the assignment `p7.Content = content` -/
  setContent : P7 → Bytes → P7
  /-- `p7.VerifyWithChain(truststore)`, `none` for a nil trust store: the error, if any -/
  VerifyWithChain : P7 → Option Pool → Option Error

/-- Signature is a PKCS7 detached signature. -/
structure Signature (P7 : Type) where
  /-- `nil` until the raw bytes are parsed -/
  p7 : Option P7
  Data : Bytes
  Finished : Bool

/-- Marshal returns the base64 representation of a PKCS7 detached signature. -/
def Signature.Marshal {P7 : Type} (sig : Signature P7) : Except Error Bytes :=
  if !sig.Finished then
    .error (.new "xpi: cannot marshal unfinished signature")
  else if sig.Data.length = 0 then
    .error (.new "xpi: cannot marshal empty signature data")
  else .ok (EncodeToString sig.Data)

/-- Unmarshal takes the base64 representation of a PKCS7 detached signature and
the content of the signed data, and returns a PKCS7 struct. Returns the pair
`(sig, err)` of the source: the signature built so far is returned next to an error. -/
def Unmarshal {P7 Pool : Type} (pk : PKCS7Lib P7 Pool) (signature content : Bytes) :
    Signature P7 × Option Error :=
  match DecodeString signature with
  | (data, some err) =>
    (⟨none, data, false⟩, some (.wrap err "xpi.Unmarshal: failed to decode base64 signature"))
  | (data, none) =>
    match pk.Parse data with
    | .error err =>
      (⟨none, data, false⟩, some (.wrap err "xpi.Unmarshal: failed to parse pkcs7 signature"))
    | .ok p7 => (⟨some (pk.setContent p7 content), data, true⟩, none)

/-- VerifyWithChain verifies an xpi signature using the provided truststore.
The call `sig.p7.VerifyWithChain` on a nil `p7` is a nil pointer dereference. -/
def Signature.VerifyWithChain {P7 Pool : Type} (pk : PKCS7Lib P7 Pool) (sig : Signature P7)
    (truststore : Option Pool) : Outcome (Option Error) :=
  if !sig.Finished then
    .returned (some (.new "xpi.VerifyWithChain: cannot verify unfinished signature"))
  else
    match sig.p7 with
    | none => .panicked "runtime error: invalid memory address or nil pointer dereference" none
    | some p7 => .returned (pk.VerifyWithChain p7 truststore)

/-- Sequencing of Go statements: a panic ends the function. -/
def Outcome.andThen {α β : Type} (x : Outcome α) (k : α → Outcome β) : Outcome β :=
  match x with
  | .returned a => k a
  | .panicked msg cause => .panicked msg cause

/-- Checks that (1) the signed XPI includes a PKCS7 signature and signature data,
(2) the signature serializes and deserializes properly, (3) the signature cert
chain verifies. -/
def verifyPKCS7SignatureRoundTrip {P7 Pool : Type} (zip : ZipLib) (pk : PKCS7Lib P7 Pool)
    (signedFile : Bytes) : Outcome (Option Error) :=
  (mustReadFileFromZIP zip signedFile (lit "META-INF/mozilla.rsa")).andThen fun rsa =>
  let sigStr := EncodeToString rsa
  (mustReadFileFromZIP zip signedFile (lit "META-INF/mozilla.sf")).andThen fun sigData =>
  -- convert string format back to signature
  match Unmarshal pk sigStr sigData with
  | (_, some err) => .returned (some (.wrap err "failed to unmarshal PKCS7 signature"))
  | (sig, none) =>
    -- verify signature on input data
    (sig.VerifyWithChain pk none).andThen fun verr =>
    match verr with
    | some _ =>
      (sig.VerifyWithChain pk none).andThen fun verr2 =>
      .returned (some (match verr2 with
        | some e => .errorf "failed to verify xpi signature: %v" e
        | none => .new "failed to verify xpi signature: <nil>"))
    | none =>
      -- make sure we still have the same string representation
      match sig.Marshal with
      | .error err => .returned (some (.errorf "failed to re-marshal signature: %v" err))
      | .ok sigStr2 =>
        if sigStr ≠ sigStr2 then
          .returned (some (.errorfQ
            "marshalling signature changed its format.\nexpected\t%q\nreceived\t%q"
            sigStr sigStr2))
        else
          -- verify signature on input data
          (sig.VerifyWithChain pk none).andThen fun verr3 =>
          match verr3 with
          | some _ =>
            (sig.VerifyWithChain pk none).andThen fun verr4 =>
            .returned (some (match verr4 with
              | some e => .errorf "failed to verify xpi signature: %v" e
              | none => .new "failed to verify xpi signature: <nil>"))
          | none => .returned none

/-- VerifySignedFile checks the XPI's PKCS7 signature (the options are not used). -/
def VerifySignedFile {P7 Pool : Type} (zip : ZipLib) (pk : PKCS7Lib P7 Pool)
    (signedFile : Bytes) : Outcome (Option Error) :=
  (verifyPKCS7SignatureRoundTrip zip pk signedFile).andThen fun err =>
  match err with
  | some err => .returned (some (.wrap err "xpi: error verifying PKCS7 signature for signed file"))
  | none => .returned none

/-! ## `encoding/pem`: `Encode` of a block without headers -/

/-- Go: the `lineBreaker` of `encoding/pem`: a new line after every 64 characters
(`pemLineLength`) and after a last shorter line; `used` is the length of the
current line. -/
def breakLines : Bytes → Nat → Bytes
  | [], used => if 0 < used then [10] else []
  | c :: rest, used =>
    if used + 1 = 64 then c :: 10 :: breakLines rest 0 else c :: breakLines rest (used + 1)

/-- Go: what `pem.Encode(&buf, &pem.Block{Type: typ, Bytes: bytes})` writes to
`buf`: the `BEGIN` line, the standard base64 encoding of the bytes in lines of 64
characters, the `END` line. -/
def pemEncode (typ bytes : Bytes) : Bytes :=
  lit "-----BEGIN " ++ (typ ++ lit "-----\n") ++ breakLines (EncodeToString bytes) 0 ++
    lit "-----END " ++ (typ ++ lit "-----\n")

/-! ## `xpi.go`: the signer -/

/-- String returns a PEM encoded PKCS7 block. -/
def Signature.String {P7 : Type} (sig : Signature P7) : Bytes :=
  pemEncode (lit "PKCS7") sig.Data

/-- Type of this signer is "xpi". -/
def Type' : Bytes := lit "xpi"

/-- ModeAddOn represents a signer that issues signatures for regular firefox
add-ons and web extensions developed by anyone. -/
def ModeAddOn : Bytes := lit "add-on"

/-- ModeExtension represents a signer that issues signatures for internal
extensions developed by Mozilla. -/
def ModeExtension : Bytes := lit "extension"

/-- ModeSystemAddOn represents a signer that issues signatures for System
Add-Ons developed by Mozilla. -/
def ModeSystemAddOn : Bytes := lit "system add-on"

/-- ModeHotFix represents a signer that issues signatures for Firefox HotFixes. -/
def ModeHotFix : Bytes := lit "hotfix"

/-- The fields of `signer.Configuration` this package uses (the field `Type` of
the source is `Type'` here). -/
structure Configuration where
  ID : Bytes
  Type' : Bytes
  Mode : Bytes
  PrivateKey : Bytes
  Certificate : Bytes
  deriving DecidableEq, Repr

/-- The fields of an `x509.Certificate` this package reads, and its DER bytes.
Times are instants on one time line. -/
structure Certificate where
  Raw : Bytes
  IsCA : Bool
  NotBefore : Int
  NotAfter : Int
  KeyUsage : Nat
  ExtKeyUsage : List Nat
  deriving DecidableEq, Repr

/-- Go: `x509.KeyUsageCertSign`, the bit `1 << 5` of a key usage. -/
def KeyUsageCertSign : Nat := 32

/-- Go: `x509.ExtKeyUsageCodeSigning`. -/
def ExtKeyUsageCodeSigning : Nat := 3

/-- The package `crypto/x509`. -/
structure X509Lib where
  /-- `x509.ParseCertificate(der)` -/
  ParseCertificate : Bytes → Except Error Certificate

/-- What `New` needs besides `crypto/x509`, for a type `K` of private keys
(`crypto.PrivateKey`). -/
structure KeyLib (K : Type) where
  /-- `signer.ParsePrivateKey(pem)` -/
  ParsePrivateKey : Bytes → Except Error K
  /-- `block.Bytes` for the block of `pem.Decode(data)`, `none` for a nil block -/
  pemDecode : Bytes → Option Bytes
  /-- `N.BitLen()` when the key is an `*rsa.PrivateKey`, `none` for any other key -/
  rsaBitLen : K → Option Nat

/-- A PKCS7Signer is configured to issue PKCS7 detached signatures for Firefox
Add-ons of various types. `rsaCache` is the capacity of the channel of
pre-generated keys, `none` for a nil channel. -/
structure PKCS7Signer (K : Type) extends Configuration where
  issuerKey : Option K
  issuerCert : Option Xpi.Certificate
  /-- OU is the organizational unit of the end-entity certificate generated for
  each operation performed by this signer -/
  OU : Bytes
  /-- EndEntityCN is the subject CN of the end-entity certificate generated for
  each operation performed by this signer -/
  EndEntityCN : Bytes
  rsaCache : Option Nat

/-- Go: `new(PKCS7Signer)`, every field at its zero value. -/
def PKCS7Signer.zero (K : Type) : PKCS7Signer K :=
  { ID := [], Type' := [], Mode := [], PrivateKey := [], Certificate := [],
    issuerKey := none, issuerCert := none, OU := [], EndEntityCN := [], rsaCache := none }

/-- The `switch conf.Mode` of `New`: the signer with its OU (and EndEntityCN for
hotfix) set, or the error of the default case. -/
def setMode {K : Type} (s : PKCS7Signer K) (mode : Bytes) : Except Error (PKCS7Signer K) :=
  if mode = ModeAddOn then .ok { s with OU := lit "Production" }
  else if mode = ModeExtension then .ok { s with OU := lit "Mozilla Extensions" }
  else if mode = ModeSystemAddOn then .ok { s with OU := lit "Mozilla Components" }
  else if mode = ModeHotFix then
    .ok { s with OU := lit "Production", EndEntityCN := lit "firefox-hotfix@mozilla.org" }
  else
    .error (.formatted
      "xpi: unknown signer mode %q, must be 'add-on', 'extension', 'system add-on' or 'hotfix'"
      [.bytes mode])

/-- New initializes an XPI signer using a configuration. `now₁` and `now₂` are
the two readings of `time.Now()`. The background routine that fills the rsa
cache is not part of the value returned. -/
def New {K : Type} (kl : KeyLib K) (x : X509Lib) (now₁ now₂ : Int) (conf : Configuration) :
    Except Error (PKCS7Signer K) :=
  let s := PKCS7Signer.zero K
  if conf.Type' ≠ Type' then
    .error (.errorfQ "xpi: invalid type %q, must be %q" conf.Type' Type')
  else
  let s := { s with Type' := conf.Type' }
  if conf.ID = [] then .error (.new "xpi: missing signer ID in signer configuration") else
  let s := { s with ID := conf.ID }
  if conf.PrivateKey = [] then
    .error (.new "xpi: missing private key in signer configuration")
  else
  let s := { s with PrivateKey := conf.PrivateKey }
  match kl.ParsePrivateKey conf.PrivateKey with
  | .error err => .error (.wrap err "xpi: failed to parse private key")
  | .ok issuerKey =>
  let s := { s with issuerKey := some issuerKey }
  match kl.pemDecode conf.Certificate with
  | none => .error (.new "xpi: failed to parse certificate PEM")
  | some block =>
  match x.ParseCertificate block with
  | .error err => .error (.wrap err "xpi: could not parse X.509 certificate")
  | .ok issuerCert =>
  let s := { s with issuerCert := some issuerCert }
  -- some sanity checks for the signer cert
  if !issuerCert.IsCA then
    .error (.new "xpi: signer certificate must have CA constraint set to true")
  else if now₁ < issuerCert.NotBefore || now₂ > issuerCert.NotAfter then
    .error (.new "xpi: signer certificate is not currently valid")
  else if issuerCert.KeyUsage &&& KeyUsageCertSign = 0 then
    .error (.new "xpi: signer certificate is missing certificate signing key usage")
  else
  let hasCodeSigning := issuerCert.ExtKeyUsage.any fun eku => eku = ExtKeyUsageCodeSigning
  if !hasCodeSigning then
    .error (.new "xpi: signer certificate does not have code signing EKU")
  else
  match setMode s conf.Mode with
  | .error err => .error err
  | .ok s =>
  let s := { s with Mode := conf.Mode }
  -- if the private key is rsa, the rsa cache is made
  match kl.rsaBitLen issuerKey with
  | some _ => .ok { s with rsaCache := some 100 }
  | none => .ok s

/-- Config returns the configuration of the current signer. -/
def PKCS7Signer.Config {K : Type} (s : PKCS7Signer K) : Configuration :=
  { ID := s.ID, Type' := s.Type', Mode := s.Mode, PrivateKey := s.PrivateKey,
    Certificate := s.Certificate }

/-- Options contains specific parameters used to sign XPIs. -/
structure Options where
  /-- ID is the add-on ID which is stored in the end-entity subject CN -/
  ID : Bytes
  /-- Modelled from the spec: the field `COSEAlgorithms`, which
  `verifyCOSESignatures` reads, is not declared in `xpi.go`; it holds the
  algorithms requested for the operation -/
  COSEAlgorithms : List Bytes
  deriving DecidableEq, Repr

/-- The package `encoding/json` as `GetOptions` uses it, for a type `I` of
inputs (`interface{}`). -/
structure JSONLib (I : Type) where
  /-- `json.Marshal(input)` -/
  Marshal : I → Except Error Bytes
  /-- `json.Unmarshal(buf, &options)` on zero options: the options and the error, if any -/
  Unmarshal : Bytes → Options × Option Error

/-- GetOptions takes a input interface and reflects it into a struct of options. -/
def GetOptions {I : Type} (js : JSONLib I) (input : I) : Options × Option Error :=
  match js.Marshal input with
  | .error err => (⟨[], []⟩, some err)
  | .ok buf => js.Unmarshal buf

/-- Go: `pkcs7.OIDDigestAlgorithmSHA1`, 1.3.14.3.2.26. -/
def OIDDigestAlgorithmSHA1 : List Nat := [1, 3, 14, 3, 2, 26]

/-- What `signData` calls: `s.MakeEndEntity` (of this package, in another file)
and the signing half of the pkcs7 package, for a type `K` of private keys and a
type `SD` of signed data under construction (`*pkcs7.SignedData`). -/
structure SignLib (K SD : Type) where
  /-- `s.MakeEndEntity(cn)`: the end-entity certificate and its key -/
  MakeEndEntity : PKCS7Signer K → Bytes → Except Error (Certificate × K)
  /-- `pkcs7.NewSignedData(data)` -/
  NewSignedData : Bytes → Except Error SD
  /-- `sd.SetDigestAlgorithm(oid)` -/
  SetDigestAlgorithm : SD → List Nat → SD
  /-- `sd.AddSignerChain(cert, key, parents, pkcs7.SignerInfoConfig{})` -/
  AddSignerChain : SD → Certificate → K → List (Option Certificate) → Except Error SD
  /-- `sd.Detach()` -/
  Detach : SD → SD
  /-- `sd.Finish()` -/
  Finish : SD → Except Error Bytes

/-- Go: `signData`. Returns the result of the source and, next to it, the common
names passed to `s.MakeEndEntity`, in the order of the calls. -/
def PKCS7Signer.signData {K SD I : Type} (js : JSONLib I) (sl : SignLib K SD)
    (s : PKCS7Signer K) (sigfile : Bytes) (options : I) : Except Error Bytes × List Bytes :=
  match GetOptions js options with
  | (_, some err) => (.error (.wrap err "xpi: cannot get options"), [])
  | (opt, none) =>
    let cn := opt.ID
    let cn := if s.EndEntityCN ≠ [] then s.EndEntityCN else cn
    if cn = [] then (.error (.new "xpi: missing common name"), []) else
    match sl.MakeEndEntity s cn with
    | .error err => (.error err, [cn])
    | .ok (eeCert, eeKey) =>
      match sl.NewSignedData sigfile with
      | .error err => (.error (.wrap err "xpi: cannot initialize signed data"), [cn])
      | .ok toBeSigned =>
        -- XPIs are signed with SHA1
        let toBeSigned := sl.SetDigestAlgorithm toBeSigned OIDDigestAlgorithmSHA1
        match sl.AddSignerChain toBeSigned eeCert eeKey [s.issuerCert] with
        | .error err => (.error (.wrap err "xpi: cannot sign"), [cn])
        | .ok toBeSigned =>
          let toBeSigned := sl.Detach toBeSigned
          match sl.Finish toBeSigned with
          | .error err => (.error (.wrap err "xpi: cannot finish signing data"), [cn])
          | .ok p7sig => (.ok p7sig, [cn])

/-- SignData takes an input signature file and returns a PKCS7 detached
signature. -/
def PKCS7Signer.SignData {K SD I P7 : Type} (js : JSONLib I) (sl : SignLib K SD)
    (s : PKCS7Signer K) (sigfile : Bytes) (options : I) : Except Error (Signature P7) :=
  match (s.signData js sl sigfile options).1 with
  | .error err => .error err
  | .ok p7sig => .ok ⟨none, p7sig, true⟩

/-! ## `cose.go` -/

/-- Go: `strings.Contains(s, substr)`. -/
def Contains : Bytes → Bytes → Bool
  | [], substr => HasPrefix [] substr
  | c :: s, substr => HasPrefix (c :: s) substr || Contains s substr

/-- A Go `map[interface{}]interface{}` of headers: entries with distinct keys. -/
structure HeaderMap where
  entries : List (Value × Value)
  nodup : (entries.map Prod.fst).Nodup

/-- Go: `len(m)`. -/
def HeaderMap.len (m : HeaderMap) : Nat := m.entries.length

/-- The keys of a map. -/
def HeaderMap.keys (m : HeaderMap) : List Value := m.entries.map Prod.fst

/-- Go: `v, ok := m[k]`: `none` when `ok` is false. -/
def HeaderMap.get (m : HeaderMap) (k : Value) : Option Value :=
  (m.entries.find? fun e => e.1 = k).map Prod.snd

/-- Go: `cose.Algorithm`, its name and its integer value. -/
structure cose.Algorithm where
  Name : Bytes
  Value : Int
  deriving DecidableEq, Repr

/-- Go: `cose.PS256` (RSASSA-PSS w/ SHA-256). -/
def cose.PS256 : cose.Algorithm := ⟨lit "PS256", -37⟩

/-- Go: `cose.ES256` (ECDSA w/ SHA-256). -/
def cose.ES256 : cose.Algorithm := ⟨lit "ES256", -7⟩

/-- Go: `cose.ES384` (ECDSA w/ SHA-384). -/
def cose.ES384 : cose.Algorithm := ⟨lit "ES384", -35⟩

/-- Go: `cose.ES512` (ECDSA w/ SHA-512). -/
def cose.ES512 : cose.Algorithm := ⟨lit "ES512", -36⟩

/-- Go: `cose.Headers`. -/
structure cose.Headers where
  Protected : HeaderMap
  Unprotected : HeaderMap

/-- Go: `cose.Signature`, one signer record of a message. -/
structure cose.Signature where
  Headers : cose.Headers
  SignatureBytes : Bytes

/-- Go: `cose.SignMessage`; a nil payload is `none`. -/
structure cose.SignMessage where
  Headers : cose.Headers
  Payload : Option Bytes
  Signatures : List cose.Signature

/-- What `cose.Unmarshal` returns without error, an `interface{}`: a
`cose.SignMessage`, or a value of another type. -/
inductive cose.Object where
  | signMessage (msg : cose.SignMessage)
  | other (desc : String)

/-- The package `go.mozilla.org/cose`. -/
structure COSELib where
  /-- `cose.Unmarshal(bytes)` -/
  Unmarshal : Bytes → Except Error cose.Object

/-- Returns whether the COSE alg value is supported or not. -/
def isSupportedCOSEAlgValue (algValue : Value) : Bool :=
  algValue = .int cose.PS256.Value || algValue = .int cose.ES256.Value ||
    algValue = .int cose.ES384.Value || algValue = .int cose.ES512.Value

/-- Checks whether a COSE signature is a valid for XPIs. -/
def isValidCOSESignature (x : X509Lib) (sig : cose.Signature) : Except Error Certificate :=
  if sig.Headers.Unprotected.len ≠ 0 then
    .error (.formatted "XPI COSE Signature must have an empty Unprotected Header" [])
  else if sig.Headers.Protected.len ≠ 2 then
    .error (.formatted "XPI COSE Signature must have exactly two Protected Headers" [])
  else
    -- 1 is the compressed key for "alg"
    match sig.Headers.Protected.get (.int 1) with
    | none => .error (.formatted "XPI COSE Signature must have alg in Protected Headers" [])
    | some algValue =>
      if !isSupportedCOSEAlgValue algValue then
        .error (.formatted "XPI COSE Signature must have alg %+v is not supported"
          [.value algValue])
      else
        -- 4 is the compressed key for "kid"
        match sig.Headers.Protected.get (.int 4) with
        | none => .error (.formatted "XPI COSE Signature must have kid in Protected Headers" [])
        | some (.bytes kidBytes) =>
          match x.ParseCertificate kidBytes with
          | .error err =>
            .error (.wrapf err "XPI COSE Signature kid must decode to a parseable X509 cert" [])
          | .ok eeCert => .ok eeCert
        | some _ => .error (.formatted "XPI COSE Signature kid value is not bytes" [])

/-- The loop of `isValidCOSEMessage` over `kidArray`, from the index `i` on:
`certs` are the intermediate certificates appended so far. -/
def kidLoop (x : X509Lib) : List Item → Nat → List Certificate →
    List Certificate × Option Error
  | [], _, certs => (certs, none)
  | .bytes certBytes :: rest, i, certs =>
    match x.ParseCertificate certBytes with
    | .error err =>
      (certs, some (.wrapf err
        "SignMessage Signature Protected Headers kid value %d does not decode to a parseable X509 cert"
        [.int i]))
    | .ok intermediateCert => kidLoop x rest (i + 1) (certs ++ [intermediateCert])
  | cert :: _, i, certs =>
    (certs, some (.formatted
      "Expected SignMessage Protected Headers kid value %d to be a byte slice got %+v with type %T"
      [.int i, .item cert, .item cert]))

/-- The loop of `isValidCOSEMessage` over `msg.Signatures`, from the index `i`
on: `certs` are the end entity certificates appended so far. -/
def signatureLoop (x : X509Lib) : List cose.Signature → Nat → List Certificate →
    List Certificate × Option Error
  | [], _, certs => (certs, none)
  | sig :: rest, i, certs =>
    match isValidCOSESignature x sig with
    | .error err => (certs, some (.wrapf err "cose signature %d is invalid" [.int i]))
    | .ok eeCert => signatureLoop x rest (i + 1) (certs ++ [eeCert])

/-- Checks whether a COSE SignMessage is a valid for XPIs and returns parsed
intermediate and end entity certs: the triple
`(intermediateCerts, eeCerts, resultErr)` of the source. -/
def isValidCOSEMessage (x : X509Lib) (msg : cose.SignMessage) :
    List Certificate × List Certificate × Option Error :=
  match msg.Payload with
  | some payload =>
    ([], [], some (.formatted "Expected SignMessage payload to be nil, but got %+v"
      [.bytes payload]))
  | none =>
    if msg.Headers.Unprotected.len ≠ 0 then
      ([], [], some (.formatted
        "Expected SignMessage Unprotected headers to be empty, but got %+v"
        [.headers msg.Headers.Unprotected.entries]))
    else if msg.Headers.Protected.len ≠ 1 then
      ([], [], some (.formatted
        "Expected SignMessage Protected headers must contain one value, but got %d"
        [.int msg.Headers.Protected.len]))
    else
      -- 4 is the compressed key for "kid"
      match msg.Headers.Protected.get (.int 4) with
      | none =>
        ([], [], some (.formatted "Expected SignMessage must have kid in Protected Headers" []))
      | some (.array kidArray) =>
        -- check that all kid values are bytes and decode into certs
        match kidLoop x kidArray 0 [] with
        | (intermediateCerts, some err) => (intermediateCerts, [], some err)
        | (intermediateCerts, none) =>
          match signatureLoop x msg.Signatures 0 [] with
          | (eeCerts, some err) => (intermediateCerts, eeCerts, some err)
          | (eeCerts, none) => (intermediateCerts, eeCerts, none)
      | some kidValue =>
        ([], [], some (.formatted
          "Expected SignMessage Protected Headers kid value to be an array got %+v with type %T"
          [.value kidValue, .value kidValue]))

/-- Checks that (1) COSE manifest and signature files are present, (2) the PKCS7
manifest is present, (3) the COSE and PKCS7 manifests do not include COSE files,
(4) we can decode the COSE signature and it has the right format for an XPI,
(5) the right number of signatures are present and all intermediate and end
entity certs parse properly. -/
def verifyCOSESignatures (zip : ZipLib) (cl : COSELib) (x : X509Lib) (signedFile : Bytes)
    (signOptions : Options) : Outcome (Option Error) :=
  (mustReadFileFromZIP zip signedFile (lit "META-INF/cose.manifest")).andThen fun coseManifest =>
  (mustReadFileFromZIP zip signedFile (lit "META-INF/cose.sig")).andThen fun coseMsgBytes =>
  (mustReadFileFromZIP zip signedFile (lit "META-INF/manifest.mf")).andThen fun pkcs7Manifest =>
  if !Contains pkcs7Manifest (lit "cose") then
    .returned (some (.formatted "pkcs7 manifest does not contain cose files: %s"
      [.bytes pkcs7Manifest]))
  else if Contains coseManifest (lit "cose") then
    .returned (some (.formatted "cose manifest contains cose files: %s" [.bytes coseManifest]))
  else
    match cl.Unmarshal coseMsgBytes with
    | .error err => .returned (some (.wrap err "error unmarshaling cose.sig"))
    | .ok (.other _) => .returned (some (.formatted "cose.sig not a SignMessage" []))
    | .ok (.signMessage coseMsg) =>
      if coseMsg.Signatures.length ≠ signOptions.COSEAlgorithms.length then
        .returned (some (.formatted "cose.sig contains %d signatures, but expected %d"
          [.int coseMsg.Signatures.length, .int signOptions.COSEAlgorithms.length]))
      else
        match (isValidCOSEMessage x coseMsg).2.2 with
        | some err => .returned (some (.wrap err "cose.sig is not a valid COSE SignMessage"))
        | none => .returned none

/-! ## `SignFile` -/

/-- Writes hashes for all entries in a zip to a manifest file then hashes the
manifest file to write a signature file and returns both: the triple
`(manifest, sigfile, err)` of the source. -/
def makeJARManifestAndSignature (zip : ZipLib) (h : HashLib) (input : Bytes) :
    Bytes × Bytes × Option Error :=
  match makeJARManifest zip h input with
  | (manifest, some err) => (manifest, [], some err)
  | (manifest, none) =>
    match makeJARSignature h manifest with
    | (sigfile, some err) => (manifest, sigfile, some err)
    | (sigfile, none) => (manifest, sigfile, none)

/-- Modelled from the spec: `makeJARManifests`, which `SignFile` calls, is not
defined in `jar.go`. The specification has the digest codec produce the manifest
of the archive and hash the manifest again to produce the signature file, a
failure of a stage aborting: this is `makeJARManifestAndSignature` of `jar.go`. -/
def makeJARManifests (zip : ZipLib) (h : HashLib) (input : Bytes) :
    Bytes × Bytes × Option Error :=
  makeJARManifestAndSignature zip h input

/-- SignFile takes an unsigned zipped XPI file and returned a signed XPI file. -/
def PKCS7Signer.SignFile {K SD I : Type} (zip : ZipLib) (h : HashLib) (js : JSONLib I)
    (sl : SignLib K SD) (s : PKCS7Signer K) (input : Bytes) (options : I) :
    Except Error Bytes :=
  match makeJARManifests zip h input with
  | (_, _, some err) => .error (.wrap err "xpi: cannot make JAR manifests from XPI")
  | (manifest, sigfile, none) =>
    match (s.signData js sl sigfile options).1 with
    | .error err => .error (.wrap err "xpi: failed to sign XPI")
    | .ok p7sig =>
      match repackJAR zip input manifest sigfile p7sig with
      | .error err => .error (.wrap err "xpi: failed to repack XPI")
      | .ok signedFile => .ok signedFile

/-! ## Definitions used to state the properties -/

/-- The decompressed content of an entry that can be read (empty otherwise). -/
def File.content (f : File) : Bytes :=
  match f.body with
  | .data b => b
  | _ => []

/-- The remainders after `META-INF/` that `isSignatureFile` tests for: exactly
`MANIFEST.MF` or `manifest.mf`, or ending with `.SF`, `.sf`, `.RSA`, `.rsa`, `.DSA`,
`.dsa`, or beginning with `SIG-` or `sig-`. -/
def reservedRemainder (name : Bytes) : Prop :=
  name = lit "MANIFEST.MF" ∨ name = lit "manifest.mf" ∨
  (∃ t, name = t ++ lit ".SF") ∨ (∃ t, name = t ++ lit ".sf") ∨
  (∃ t, name = t ++ lit ".RSA") ∨ (∃ t, name = t ++ lit ".rsa") ∨
  (∃ t, name = t ++ lit ".DSA") ∨ (∃ t, name = t ++ lit ".dsa") ∨
  (∃ t, name = lit "SIG-" ++ t) ∨ (∃ t, name = lit "sig-" ++ t)

/-- ASCII lower-casing of one byte. -/
def toLowerByte (b : UInt8) : UInt8 := if 65 ≤ b ∧ b ≤ 90 then b + 32 else b

/-- The signature-area naming convention in the words of the specification: under
the prefix `META-INF/`, the remainder compared case-insensitively is exactly
`manifest.mf`, or ends with `.sf`, `.rsa` or `.dsa`, or begins with `sig-`. -/
def signatureAreaName (name : Bytes) : Bool :=
  HasPrefix name (lit "META-INF/") &&
    (let rem := (TrimPrefix name (lit "META-INF/")).map toLowerByte
     rem == lit "manifest.mf" || HasSuffix rem (lit ".sf") || HasSuffix rem (lit ".rsa") ||
       HasSuffix rem (lit ".dsa") || HasPrefix rem (lit "sig-"))

/-- The manifest block of one entry in the words of the specification. -/
def manifestBlock (h : HashLib) (name content : Bytes) : Bytes :=
  lit "Name: " ++ name ++ lit "\nDigest-Algorithms: SHA1 SHA256\nSHA1-Digest: " ++
    EncodeToString (h.sha1 content) ++ lit "\nSHA256-Digest: " ++
    EncodeToString (h.sha256 content) ++ lit "\n\n"

/-- The signature file of a manifest in the words of the specification. -/
def signatureFileText (h : HashLib) (manifest : Bytes) : Bytes :=
  lit "Signature-Version: 1.0\nSHA1-Digest-Manifest: " ++ EncodeToString (h.sha1 manifest) ++
    lit "\nSHA256-Digest-Manifest: " ++ EncodeToString (h.sha256 manifest) ++ lit "\n\n"

/-- The configurations the specification lets `New` accept at the time `now`:
the type is `xpi`, the ID is not empty, the private key is not empty and parses,
the certificate PEM decodes and parses as X.509, the certificate has IsCA set,
`now` is within `[NotBefore, NotAfter]`, the key usage includes CertSign (bit 5),
the extended key usages include CodeSigning, and the mode is one of add-on,
extension, system add-on, hotfix. -/
def validConfiguration {K : Type} (kl : KeyLib K) (x : X509Lib) (now : Int)
    (conf : Configuration) : Prop :=
  conf.Type' = lit "xpi" ∧ conf.ID ≠ [] ∧ conf.PrivateKey ≠ [] ∧
  (∃ key, kl.ParsePrivateKey conf.PrivateKey = .ok key) ∧
  (∃ block cert, kl.pemDecode conf.Certificate = some block ∧
    x.ParseCertificate block = .ok cert ∧ cert.IsCA = true ∧
    cert.NotBefore ≤ now ∧ now ≤ cert.NotAfter ∧
    cert.KeyUsage.testBit 5 = true ∧ ExtKeyUsageCodeSigning ∈ cert.ExtKeyUsage) ∧
  (conf.Mode = lit "add-on" ∨ conf.Mode = lit "extension" ∨
    conf.Mode = lit "system add-on" ∨ conf.Mode = lit "hotfix")

/-- The rule of the specification for a signer record, with the certificate it
carries: the unprotected header map is empty, the protected header map has
exactly two keys, which are alg (key 1) and kid (key 4), the alg value is one of
the values of PS256, ES256, ES384, ES512, and the kid value is a byte blob that
decodes as the X.509 certificate `cert`. -/
def signerRecordRule (x : X509Lib) (sig : cose.Signature) (cert : Certificate) : Prop :=
  sig.Headers.Unprotected.len = 0 ∧ sig.Headers.Protected.len = 2 ∧
  (∀ k, k ∈ sig.Headers.Protected.keys ↔ (k = .int 1 ∨ k = .int 4)) ∧
  (∃ alg, sig.Headers.Protected.get (.int 1) = some (.int alg) ∧
    (alg = cose.PS256.Value ∨ alg = cose.ES256.Value ∨ alg = cose.ES384.Value ∨
      alg = cose.ES512.Value)) ∧
  ∃ kid, sig.Headers.Protected.get (.int 4) = some (.bytes kid) ∧
    x.ParseCertificate kid = .ok cert

/-- A manifest references the alternate-format artifacts by name, in the words
of the specification: the name `META-INF/cose.manifest` or the name
`META-INF/cose.sig` occurs in its text. -/
def referencesCOSEArtifacts (manifest : Bytes) : Bool :=
  Contains manifest (lit "META-INF/cose.manifest") || Contains manifest (lit "META-INF/cose.sig")

/-- An instance of `archive/zip` for the examples: the one byte input `[i]` is
the archive number `i` of a table, every other input is not an archive; writing
never fails; the archive written is the concatenation of its names and contents,
each ended by a zero byte. -/
def exampleZip (archives : List (List File)) : ZipLib where
  NewReader input :=
    match input with
    | [i] =>
      match archives.get? i.toNat with
      | some files => .ok files
      | none => .error (.lib "zip: not a valid zip file")
    | _ => .error (.lib "zip: not a valid zip file")
  CreateHeader _ _ := none
  Write _ _ _ := none
  Close _ := none
  Archive w := w.flatMap fun m => m.Name ++ [0] ++ m.Body ++ [0]

/-- An instance of the hash packages for the examples: the "digests" are the
length of the data and the data reversed. -/
def exampleHash : HashLib where
  sha1 data := [UInt8.ofNat data.length]
  sha256 data := data.reverse

/-- An archive for the examples: a file, a directory and an old signature. -/
def sampleFiles : List File :=
  [⟨lit "a.txt", false, .data (lit "hello")⟩,
   ⟨lit "dir/", true, .data []⟩,
   ⟨lit "META-INF/old.rsa", false, .data (lit "x")⟩]

/-- An instance of the pkcs7 package for the examples: a parsed signature is
the pair of its raw bytes and its content, empty input does not parse, and
verification has nothing to object to. -/
def examplePKCS7 : PKCS7Lib (Bytes × Bytes) Unit where
  Parse data := if data = [] then .error (.lib "pkcs7: input data is empty") else .ok (data, [])
  setContent p7 content := (p7.1, content)
  VerifyWithChain _ _ := none

/-- A signed archive for the examples. -/
def sampleSigned : List File :=
  [⟨lit "a.txt", false, .data (lit "hello")⟩,
   ⟨lit "META-INF/manifest.mf", false, .data (lit "m")⟩,
   ⟨lit "META-INF/mozilla.sf", false, .data (lit "s")⟩,
   ⟨lit "META-INF/mozilla.rsa", false, .data (lit "ABC")⟩]

/-- An instance of the json package for the examples: the input is the `id`
of the options, or nothing that can be marshalled. -/
def exampleJSON : JSONLib (Option Bytes) where
  Marshal input :=
    match input with
    | some id => .ok id
    | none => .error (.lib "json: unsupported type")
  Unmarshal buf := (⟨buf, []⟩, none)

/-- An instance of the signing packages for the examples: the end-entity key
is the common name, and the signature is the signed data followed by the key. -/
def exampleSign : SignLib Bytes Bytes where
  MakeEndEntity _ cn := .ok (⟨cn, false, 0, 0, 0, []⟩, cn)
  NewSignedData data := .ok data
  SetDigestAlgorithm sd _ := sd
  AddSignerChain sd _ key _ := .ok (sd ++ key)
  Detach sd := sd
  Finish sd := .ok sd

/-- A signer for the examples, in add-on mode. -/
def sampleSigner : PKCS7Signer Bytes :=
  { PKCS7Signer.zero Bytes with
    ID := lit "signer1", Type' := lit "xpi", Mode := lit "add-on", PrivateKey := lit "key",
    issuerKey := some (lit "key"), OU := lit "Production" }

/-- A signer for the examples, in hotfix mode: its common name is fixed. -/
def sampleHotfixSigner : PKCS7Signer Bytes :=
  { sampleSigner with Mode := lit "hotfix", EndEntityCN := lit "firefox-hotfix@mozilla.org" }

/-- An instance of the key and PEM functions for the examples: any non-empty
key parses as an rsa key of 2048 bits, any non-empty PEM decodes to itself. -/
def exampleKeys : KeyLib Bytes where
  ParsePrivateKey pem := if pem = [] then .error (.lib "no private key") else .ok pem
  pemDecode data := if data = [] then none else some data
  rsaBitLen _ := some 2048

/-- An instance of `crypto/x509` for the examples: `ca-cert` is a CA certificate
valid from 0 to 100 with the usages digital signature and cert sign, and the
extended usage code signing; `leaf-cert` is no CA; nothing else parses. -/
def exampleX509 : X509Lib where
  ParseCertificate der :=
    if der = lit "ca-cert" then .ok ⟨der, true, 0, 100, 33, [3]⟩
    else if der = lit "leaf-cert" then .ok ⟨der, false, 0, 100, 1, [1]⟩
    else .error (.lib "x509: malformed certificate")

/-- A configuration for the examples. -/
def sampleConf : Configuration :=
  ⟨lit "signer1", lit "xpi", lit "add-on", lit "key", lit "ca-cert"⟩

/-- The signer `New` builds from the sample configuration at the time 50. -/
def sampleBuilt : PKCS7Signer Bytes :=
  { PKCS7Signer.zero Bytes with
    ID := lit "signer1", Type' := lit "xpi", Mode := lit "add-on", PrivateKey := lit "key",
    issuerKey := some (lit "key"),
    issuerCert := some ⟨lit "ca-cert", true, 0, 100, 33, [3]⟩,
    OU := lit "Production", rsaCache := some 100 }

/-- A signer record for the examples: alg ES256 and the kid `leaf-cert`. -/
def sampleSignature : cose.Signature :=
  { Headers :=
      { Protected := ⟨[(.int 1, .int (-7)), (.int 4, .bytes (lit "leaf-cert"))], by decide⟩,
        Unprotected := ⟨[], by decide⟩ },
    SignatureBytes := lit "sig" }

/-- A message for the examples, valid for XPIs: one intermediate certificate
and one signer record. -/
def sampleMessage : cose.SignMessage :=
  { Headers :=
      { Protected := ⟨[(.int 4, .array [.bytes (lit "ca-cert")])], by decide⟩,
        Unprotected := ⟨[], by decide⟩ },
    Payload := none,
    Signatures := [sampleSignature] }

/-- A message for the examples that breaks three rules: it has a payload, an
unprotected header, and no protected header. It has no signer record. -/
def badMessage : cose.SignMessage :=
  { Headers :=
      { Protected := ⟨[], by decide⟩,
        Unprotected := ⟨[(.int 5, .int 1)], by decide⟩ },
    Payload := some (lit "x"),
    Signatures := [] }

/-- An instance of the cose package for the examples: `msg1` is the sample
message, `bad` the bad message, `sign1` a message of another type. -/
def exampleCOSE : COSELib where
  Unmarshal bytes :=
    if bytes = lit "msg1" then .ok (.signMessage sampleMessage)
    else if bytes = lit "bad" then .ok (.signMessage badMessage)
    else if bytes = lit "sign1" then .ok (.other "cose.Sign1Message")
    else .error (.lib "cbor decoding failed")

/-- Signed archives for the examples. Number 0 is consistent; in number 1 the
PKCS7 manifest lists `glucose.txt` and no COSE file; in number 2 the COSE manifest
lists `glucose.txt`; number 3 holds the bad message. -/
def coseArchives : List (List File) :=
  [[⟨lit "META-INF/cose.manifest", false, .data (lit "Name: a.txt\n")⟩,
    ⟨lit "META-INF/cose.sig", false, .data (lit "msg1")⟩,
    ⟨lit "META-INF/manifest.mf", false,
      .data (lit "Name: a.txt\nName: META-INF/cose.manifest\nName: META-INF/cose.sig\n")⟩],
   [⟨lit "META-INF/cose.manifest", false, .data (lit "Name: a.txt\n")⟩,
    ⟨lit "META-INF/cose.sig", false, .data (lit "msg1")⟩,
    ⟨lit "META-INF/manifest.mf", false, .data (lit "Name: glucose.txt\n")⟩],
   [⟨lit "META-INF/cose.manifest", false, .data (lit "Name: glucose.txt\n")⟩,
    ⟨lit "META-INF/cose.sig", false, .data (lit "msg1")⟩,
    ⟨lit "META-INF/manifest.mf", false,
      .data (lit "Name: glucose.txt\nName: META-INF/cose.manifest\nName: META-INF/cose.sig\n")⟩],
   [⟨lit "META-INF/cose.manifest", false, .data (lit "Name: a.txt\n")⟩,
    ⟨lit "META-INF/cose.sig", false, .data (lit "bad")⟩,
    ⟨lit "META-INF/manifest.mf", false,
      .data (lit "Name: a.txt\nName: META-INF/cose.manifest\nName: META-INF/cose.sig\n")⟩]]

/-- The sample archive as it reads after `repackJAR` with the manifest `m`, the
signature file `s` and the signature `r`. -/
def sampleRepacked : List File :=
  [⟨lit "a.txt", false, .data (lit "hello")⟩,
   ⟨lit "dir/", true, .data []⟩,
   ⟨lit "META-INF/manifest.mf", false, .data (lit "m")⟩,
   ⟨lit "META-INF/mozilla.sf", false, .data (lit "s")⟩,
   ⟨lit "META-INF/mozilla.rsa", false, .data (lit "r")⟩]

/-- An instance of `archive/zip` for the examples that reads back what it
writes: the input `[0]` is the sample archive, writing never fails, and the
archive written is `[1]`, which reads as the repacked sample archive. -/
def readBackZip : ZipLib where
  NewReader input :=
    if input = [0] then .ok sampleFiles
    else if input = [1] then .ok sampleRepacked
    else .error (.lib "zip: not a valid zip file")
  CreateHeader _ _ := none
  Write _ _ _ := none
  Close _ := none
  Archive _ := [1]

/-- The DER bytes of a PKCS7 SignedData without certificates, revocation lists
or signers (what `openssl crl2pkcs7 -nocrl` writes): a ContentInfo of type
signedData (1.2.840.113549.1.7.2) holding version 1, no digest algorithm, a
content of type data (1.2.840.113549.1.7.1), an empty certificate set, an empty
revocation list set and no signer info. `pkcs7.Parse` accepts them. -/
def emptySignedData : Bytes :=
  [48, 39, 6, 9, 42, 134, 72, 134, 247, 13, 1, 7, 2, 160, 26, 48, 24, 2, 1, 1, 49, 0,
   48, 11, 6, 9, 42, 134, 72, 134, 247, 13, 1, 7, 1, 160, 0, 161, 0, 49, 0]

/-! # Properties -/

/-! ## Strings -/

theorem hasPrefix_iff (s pre : Bytes) : HasPrefix s pre = true ↔ ∃ t, s = pre ++ t := by
  unfold HasPrefix
  rw [List.isPrefixOf_iff_prefix]
  constructor
  · rintro ⟨t, rfl⟩; exact ⟨t, rfl⟩
  · rintro ⟨t, rfl⟩; exact ⟨t, rfl⟩

theorem hasSuffix_iff (s suf : Bytes) : HasSuffix s suf = true ↔ ∃ t, s = t ++ suf := by
  unfold HasSuffix
  rw [List.isSuffixOf_iff_suffix]
  constructor
  · rintro ⟨t, rfl⟩; exact ⟨t, rfl⟩
  · rintro ⟨t, rfl⟩; exact ⟨t, rfl⟩

theorem trimPrefix_append (pre t : Bytes) : TrimPrefix (pre ++ t) pre = t := by
  have h : HasPrefix (pre ++ t) pre = true := (hasPrefix_iff _ _).2 ⟨t, rfl⟩
  simp [TrimPrefix, h]

/-! ## `isSignatureFile` -/

theorem isSignatureFile_append (t : Bytes) :
    isSignatureFile (lit "META-INF/" ++ t) = true ↔ reservedRemainder t := by
  have h : HasPrefix (lit "META-INF/" ++ t) (lit "META-INF/") = true :=
    (hasPrefix_iff _ _).2 ⟨t, rfl⟩
  unfold isSignatureFile reservedRemainder
  rw [if_pos h]
  simp only [trimPrefix_append]
  simp only [← hasPrefix_iff, ← hasSuffix_iff]
  simp [or_assoc]

theorem isSignatureFile_iff (name : Bytes) :
    isSignatureFile name = true ↔ ∃ t, name = lit "META-INF/" ++ t ∧ reservedRemainder t := by
  constructor
  · intro h
    have hp : HasPrefix name (lit "META-INF/") = true := by
      by_contra hn
      simp [isSignatureFile, hn] at h
    obtain ⟨t, rfl⟩ := (hasPrefix_iff _ _).1 hp
    exact ⟨t, rfl, (isSignatureFile_append t).1 h⟩
  · rintro ⟨t, rfl, ht⟩
    exact (isSignatureFile_append t).2 ht

/-! ## `makeJARManifest` -/

theorem manifestLoop_skip (h : HashLib) (f : File) (hf : isSignatureFile f.Name = true)
    (pre post : List File) (mw : Bytes) :
    manifestLoop h (pre ++ f :: post) mw = manifestLoop h (pre ++ post) mw := by
  induction pre generalizing mw with
  | nil => simp [manifestLoop, hf]
  | cons g gs ih =>
    simp only [List.cons_append, manifestLoop]
    split
    · exact ih mw
    · split
      · exact ih mw
      · split
        · rfl
        · rfl
        · exact ih _

theorem manifestLoop_readable (h : HashLib) (files : List File)
    (hread : ∀ f ∈ files, ∃ d, f.body = .data d) (mw : Bytes) :
    manifestLoop h files mw = .ok (mw ++
      (files.filter fun f => !f.IsDir && !isSignatureFile f.Name).flatMap
        fun f => manifestBlock h f.Name f.content) := by
  induction files generalizing mw with
  | nil => simp [manifestLoop]
  | cons g gs ih =>
    have hgs : ∀ f ∈ gs, ∃ d, f.body = .data d := fun f hf => hread f (List.mem_cons_of_mem _ hf)
    obtain ⟨d, hd⟩ := hread g (List.mem_cons_self _ _)
    have e1 : lit "\nDigest-Algorithms: SHA1 SHA256\n" ++ lit "SHA1-Digest: " =
        lit "\nDigest-Algorithms: SHA1 SHA256\nSHA1-Digest: " := by decide
    have e2 : lit "\n" ++ lit "SHA256-Digest: " = lit "\nSHA256-Digest: " := by decide
    unfold manifestLoop
    by_cases hs : isSignatureFile g.Name = true
    · simp [hs, ih hgs]
    · by_cases hdir : g.IsDir = true
      · simp [hs, hdir, ih hgs]
      · simp only [hs, hdir, hd, if_false, Bool.false_eq_true]
        rw [ih hgs]
        simp [manifestBlock, File.content, hd, hs, hdir, List.append_assoc, ← e1, ← e2]

/-- C1 (as the claim states it, refuted): `META-INF/Manifest.mf` is under the
`META-INF/` prefix and its remainder is `manifest.mf` up to case, yet
`isSignatureFile` returns false for it and `makeJARManifest` writes the block of
that entry: the manifest of the archive holding this one entry is the version
header followed by the entry's block. -/
theorem isSignatureFile_mixed_case_counterexample :
    signatureAreaName (lit "META-INF/Manifest.mf") = true ∧
    isSignatureFile (lit "META-INF/Manifest.mf") = false ∧
    makeJARManifest (exampleZip [[⟨lit "META-INF/Manifest.mf", false, .data (lit "hello")⟩]])
        exampleHash [0] =
      (lit "Manifest-Version: 1.0\n\n" ++
        manifestBlock exampleHash (lit "META-INF/Manifest.mf") (lit "hello"), none) := by
  refine ⟨by decide, by decide, by decide⟩

/-- C1 (amended): for every archive and every entry whose name is `META-INF/`
followed by a remainder that is exactly `MANIFEST.MF` or `manifest.mf`, or ends
with `.SF`, `.sf`, `.RSA`, `.rsa`, `.DSA` or `.dsa`, or begins with `SIG-` or
`sig-`, `isSignatureFile` returns true for that name and `makeJARManifest` writes
no block for that entry: its result is the one for the archive without the entry. -/
theorem isSignatureFile_reserved_excluded (zip : ZipLib) (h : HashLib) (input input' : Bytes)
    (pre post : List File) (f : File) (rem : Bytes)
    (hname : f.Name = lit "META-INF/" ++ rem) (hrem : reservedRemainder rem)
    (hin : zip.NewReader input = .ok (pre ++ f :: post))
    (hin' : zip.NewReader input' = .ok (pre ++ post)) :
    isSignatureFile f.Name = true ∧
      makeJARManifest zip h input = makeJARManifest zip h input' := by
  have hf : isSignatureFile f.Name = true := by
    rw [hname]; exact (isSignatureFile_append rem).2 hrem
  refine ⟨hf, ?_⟩
  simp only [makeJARManifest, hin, hin', manifestLoop_skip h f hf]

/-- Witness of C1 (amended), at an archive holding `a.txt` and `META-INF/foo.SF`. -/
theorem isSignatureFile_reserved_excluded_witness :
    isSignatureFile (lit "META-INF/foo.SF") = true ∧
      makeJARManifest
          (exampleZip [[⟨lit "a.txt", false, .data (lit "hello")⟩,
                        ⟨lit "META-INF/foo.SF", false, .data (lit "x")⟩],
                       [⟨lit "a.txt", false, .data (lit "hello")⟩]])
          exampleHash [0] =
        makeJARManifest
          (exampleZip [[⟨lit "a.txt", false, .data (lit "hello")⟩,
                        ⟨lit "META-INF/foo.SF", false, .data (lit "x")⟩],
                       [⟨lit "a.txt", false, .data (lit "hello")⟩]])
          exampleHash [1] :=
  isSignatureFile_reserved_excluded _ exampleHash [0] [1]
    [⟨lit "a.txt", false, .data (lit "hello")⟩] [] ⟨lit "META-INF/foo.SF", false, .data (lit "x")⟩
    (lit "foo.SF") (by decide) (Or.inr (Or.inr (Or.inl ⟨lit "foo", by decide⟩))) rfl rfl

/-- C2: for every archive that opens and whose entries can all be read,
`makeJARManifest` returns without error exactly `Manifest-Version: 1.0\n\n`
followed, for each entry in archive order that is neither a directory nor a
signature file, by the block `Name: <name>\nDigest-Algorithms: SHA1 SHA256\n`
`SHA1-Digest: <base64(SHA1(content))>\nSHA256-Digest: <base64(SHA256(content))>\n\n`
over the entry's decompressed content, and nothing else. -/
theorem makeJARManifest_format (zip : ZipLib) (h : HashLib) (input : Bytes) (files : List File)
    (hopen : zip.NewReader input = .ok files)
    (hread : ∀ f ∈ files, ∃ d, f.body = .data d) :
    makeJARManifest zip h input =
      (lit "Manifest-Version: 1.0\n\n" ++
        (files.filter fun f => !f.IsDir && !isSignatureFile f.Name).flatMap
          (fun f => lit "Name: " ++ f.Name ++
            lit "\nDigest-Algorithms: SHA1 SHA256\nSHA1-Digest: " ++
            EncodeToString (h.sha1 f.content) ++ lit "\nSHA256-Digest: " ++
            EncodeToString (h.sha256 f.content) ++ lit "\n\n"),
       none) := by
  simp only [makeJARManifest, hopen, manifestLoop_readable h files hread, List.nil_append]
  rfl

/-- Witness of C2, at an archive holding a file, a directory and a signature file. -/
theorem makeJARManifest_format_witness :
    makeJARManifest
        (exampleZip [[⟨lit "a.txt", false, .data (lit "hello")⟩,
                      ⟨lit "dir/", true, .data []⟩,
                      ⟨lit "META-INF/foo.SF", false, .data (lit "x")⟩]])
        exampleHash [0] =
      (lit "Manifest-Version: 1.0\n\nName: a.txt\nDigest-Algorithms: SHA1 SHA256\nSHA1-Digest: BQ==\nSHA256-Digest: b2xsZWg=\n\n",
       none) := by
  have h := makeJARManifest_format
    (exampleZip [[⟨lit "a.txt", false, .data (lit "hello")⟩,
                      ⟨lit "dir/", true, .data []⟩,
                      ⟨lit "META-INF/foo.SF", false, .data (lit "x")⟩]])
    exampleHash [0] _ rfl
    (by intro f hf; simp at hf; rcases hf with rfl | rfl | rfl <;> exact ⟨_, rfl⟩)
  rw [h]
  decide

/-- C3: for every byte string `manifest`, `makeJARSignature` never returns an
error and returns exactly `Signature-Version: 1.0\nSHA1-Digest-Manifest: `
`<base64(SHA1(manifest))>\nSHA256-Digest-Manifest: <base64(SHA256(manifest))>\n\n`,
both digests taken over the entire manifest bytes. -/
theorem makeJARSignature_format (h : HashLib) (manifest : Bytes) :
    makeJARSignature h manifest =
      (lit "Signature-Version: 1.0\nSHA1-Digest-Manifest: " ++
        EncodeToString (h.sha1 manifest) ++ lit "\nSHA256-Digest-Manifest: " ++
        EncodeToString (h.sha256 manifest) ++ lit "\n\n", none) := by
  have e1 : lit "Signature-Version: 1.0\n" ++ lit "SHA1-Digest-Manifest: " =
      lit "Signature-Version: 1.0\nSHA1-Digest-Manifest: " := by decide
  have e2 : lit "\n" ++ lit "SHA256-Digest-Manifest: " = lit "\nSHA256-Digest-Manifest: " := by
    decide
  simp [makeJARSignature, List.append_assoc, ← e1, ← e2]

/-! ## `repackJARWithMetafiles` -/

theorem copyLoop_ok (zip : ZipLib) (files : List File) (w w' : List Metafile)
    (h : copyLoop zip files w = .ok w') :
    ∃ copied, w' = w ++ copied ∧
      copied.map (fun m => (m.Name, FileBody.data m.Body)) =
        (files.filter fun f => !isSignatureFile f.Name).map (fun f => (f.Name, f.body)) := by
  induction files generalizing w with
  | nil =>
    simp only [copyLoop, Except.ok.injEq] at h
    exact ⟨[], by simp [h]⟩
  | cons f fs ih =>
    unfold copyLoop at h
    by_cases hs : isSignatureFile f.Name = true
    · rw [if_pos hs] at h
      obtain ⟨copied, h1, h2⟩ := ih w h
      exact ⟨copied, h1, by simp [hs, h2]⟩
    · rw [if_neg hs] at h
      cases hb : f.body with
      | openErr e => simp [hb] at h
      | readErr e =>
        simp only [hb] at h
        cases hc : zip.CreateHeader w f.Name <;> simp [hc] at h
      | data d =>
        simp only [hb] at h
        cases hc : zip.CreateHeader w f.Name with
        | some e => simp [hc] at h
        | none =>
          simp only [hc] at h
          cases hw : zip.Write w f.Name d with
          | some e => simp [hw] at h
          | none =>
            simp only [hw] at h
            obtain ⟨copied, h1, h2⟩ := ih _ h
            refine ⟨⟨f.Name, d⟩ :: copied, by simp [h1], ?_⟩
            simp [hs, h2, hb]

theorem metaLoop_ok (zip : ZipLib) (metas : List Metafile) (w w' : List Metafile)
    (h : metaLoop zip metas w = .ok w') : w' = w ++ metas := by
  induction metas generalizing w with
  | nil => simpa [metaLoop] using h.symm
  | cons m ms ih =>
    unfold metaLoop at h
    cases hc : zip.CreateHeader w m.Name with
    | some e => simp [hc] at h
    | none =>
      simp only [hc] at h
      cases hw : zip.Write w m.Name m.Body with
      | some e => simp [hw] at h
      | none =>
        simp only [hw] at h
        rw [ih _ h]
        simp

theorem repackEntries_ok (zip : ZipLib) (input : Bytes) (metafiles w : List Metafile)
    (h : repackEntries zip input metafiles = .ok w) :
    ∃ files copied, zip.NewReader input = .ok files ∧ w = copied ++ metafiles ∧
      copied.map (fun m => (m.Name, FileBody.data m.Body)) =
        (files.filter fun f => !isSignatureFile f.Name).map (fun f => (f.Name, f.body)) := by
  unfold repackEntries at h
  cases hr : zip.NewReader input with
  | error e => simp [hr] at h
  | ok files =>
    simp only [hr] at h
    cases hc : copyLoop zip files [] with
    | error e => simp [hc] at h
    | ok w1 =>
      simp only [hc] at h
      cases hm : metaLoop zip metafiles w1 with
      | error e => simp [hm] at h
      | ok w2 =>
        simp only [hm] at h
        cases hz : zip.Close w2 with
        | some e => simp [hz] at h
        | none =>
          simp only [hz, Except.ok.injEq] at h
          obtain ⟨copied, h1, h2⟩ := copyLoop_ok zip files [] w1 hc
          have h3 := metaLoop_ok zip metafiles w1 w2 hm
          refine ⟨files, copied, rfl, ?_, h2⟩
          rw [← h, h3, h1, List.nil_append]

theorem repackJARWithMetafiles_ok (zip : ZipLib) (input : Bytes) (metafiles : List Metafile)
    (output : Bytes) (h : repackJARWithMetafiles zip input metafiles = .ok output) :
    ∃ w, repackEntries zip input metafiles = .ok w ∧ output = zip.Archive w := by
  unfold repackJARWithMetafiles at h
  cases hr : repackEntries zip input metafiles with
  | error e => simp [hr] at h
  | ok w =>
    simp only [hr, Except.ok.injEq] at h
    exact ⟨w, rfl, h.symm⟩

/-- C4: for every archive and every list of metafiles on which
`repackJARWithMetafiles` succeeds, the output is the archive of the entries `w`
written, and the sequence of (name, content) pairs of `w` is that of the original
entries that are not signature files, in their original order and with unchanged
content, followed by the supplied metafiles as (Name, Body) in the order given. -/
theorem repackJARWithMetafiles_entries (zip : ZipLib) (input : Bytes)
    (metafiles : List Metafile) (output : Bytes)
    (h : repackJARWithMetafiles zip input metafiles = .ok output) :
    ∃ files w, zip.NewReader input = .ok files ∧
      repackEntries zip input metafiles = .ok w ∧ output = zip.Archive w ∧
      w.map (fun m => (m.Name, FileBody.data m.Body)) =
        (files.filter fun f => !isSignatureFile f.Name).map (fun f => (f.Name, f.body)) ++
          metafiles.map (fun m => (m.Name, FileBody.data m.Body)) := by
  obtain ⟨w, hw, hout⟩ := repackJARWithMetafiles_ok zip input metafiles output h
  obtain ⟨files, copied, hr, hwc, hc⟩ := repackEntries_ok zip input metafiles w hw
  refine ⟨files, w, hr, hw, hout, ?_⟩
  rw [hwc, List.map_append, hc]

/-- Witness of C4, at the sample archive and one metafile. -/
theorem repackJARWithMetafiles_entries_witness :
    ∃ files w,
      (exampleZip [sampleFiles]).NewReader [0] = .ok files ∧
      repackEntries (exampleZip [sampleFiles]) [0] [⟨lit "META-INF/new.rsa", lit "y"⟩] = .ok w ∧
      lit "a.txt" ++ [0] ++ lit "hello" ++ [0] ++ lit "dir/" ++ [0] ++ [0] ++
          lit "META-INF/new.rsa" ++ [0] ++ lit "y" ++ [0] =
        (exampleZip [sampleFiles]).Archive w ∧
      w.map (fun m => (m.Name, FileBody.data m.Body)) =
        (files.filter fun f => !isSignatureFile f.Name).map (fun f => (f.Name, f.body)) ++
          ([⟨lit "META-INF/new.rsa", lit "y"⟩] : List Metafile).map
            (fun m => (m.Name, FileBody.data m.Body)) :=
  repackJARWithMetafiles_entries (exampleZip [sampleFiles]) [0]
    [⟨lit "META-INF/new.rsa", lit "y"⟩]
    (lit "a.txt" ++ [0] ++ lit "hello" ++ [0] ++ lit "dir/" ++ [0] ++ [0] ++
      lit "META-INF/new.rsa" ++ [0] ++ lit "y" ++ [0]) (by rfl)
/-- C5 (as the claim states it, refuted): repacking the archive holding the one
entry `a.txt` with a metafile that is also named `a.txt` succeeds, and the output
holds two entries named `a.txt`: names are not checked for duplicates. -/
theorem repackJARWithMetafiles_duplicate_counterexample :
    repackJARWithMetafiles (exampleZip [[⟨lit "a.txt", false, .data (lit "x")⟩]]) [0]
        [⟨lit "a.txt", lit "y"⟩] =
      .ok (lit "a.txt" ++ [0] ++ lit "x" ++ [0] ++ lit "a.txt" ++ [0] ++ lit "y" ++ [0]) ∧
    repackEntries (exampleZip [[⟨lit "a.txt", false, .data (lit "x")⟩]]) [0]
        [⟨lit "a.txt", lit "y"⟩] =
      .ok [⟨lit "a.txt", lit "x"⟩, ⟨lit "a.txt", lit "y"⟩] ∧
    ¬ (([⟨lit "a.txt", lit "x"⟩, ⟨lit "a.txt", lit "y"⟩] : List Metafile).map
        fun m => m.Name).Nodup := by
  refine ⟨by rfl, by rfl, by decide⟩

/-- C5 (amended): for every archive and every list of metafiles on which
`repackJARWithMetafiles` succeeds, the entries `w` of the output are exactly the
original non-signature entries and the supplied metafiles, each as often as it
occurs there: an entry is in `w` iff it is a metafile or an original entry that
is not a signature file, with its content; `w` has as many entries as both
together; every entry of `w` that is named as a signature file is one of the
metafiles (no signature entry of the original is copied); and the names of `w`
are free of duplicates iff the names of the original non-signature entries
together with the names of the metafiles are. -/
theorem repackJARWithMetafiles_union (zip : ZipLib) (input : Bytes)
    (metafiles : List Metafile) (output : Bytes)
    (h : repackJARWithMetafiles zip input metafiles = .ok output) :
    ∃ files w, zip.NewReader input = .ok files ∧
      repackEntries zip input metafiles = .ok w ∧ output = zip.Archive w ∧
      (∀ m, m ∈ w ↔ m ∈ metafiles ∨
        ∃ f ∈ files, isSignatureFile f.Name = false ∧ f.Name = m.Name ∧ f.body = .data m.Body) ∧
      w.length = (files.filter fun f => !isSignatureFile f.Name).length + metafiles.length ∧
      (∀ m ∈ w, isSignatureFile m.Name = true → m ∈ metafiles) ∧
      ((w.map fun m => m.Name).Nodup ↔
        (((files.filter fun f => !isSignatureFile f.Name).map fun f => f.Name) ++
          metafiles.map fun m => m.Name).Nodup) := by
  obtain ⟨w, hw, hout⟩ := repackJARWithMetafiles_ok zip input metafiles output h
  obtain ⟨files, copied, hr, hwc, hc⟩ := repackEntries_ok zip input metafiles w hw
  have hmem : ∀ m, m ∈ copied ↔
      ∃ f ∈ files, isSignatureFile f.Name = false ∧ f.Name = m.Name ∧ f.body = .data m.Body := by
    intro m
    constructor
    · intro hm
      have : (m.Name, FileBody.data m.Body) ∈
          copied.map (fun m => (m.Name, FileBody.data m.Body)) :=
        List.mem_map.2 ⟨m, hm, rfl⟩
      rw [hc] at this
      obtain ⟨f, hf, hfe⟩ := List.mem_map.1 this
      simp only [List.mem_filter, Bool.not_eq_eq_eq_not, Bool.not_true] at hf
      simp only [Prod.mk.injEq] at hfe
      exact ⟨f, hf.1, hf.2, hfe.1, hfe.2⟩
    · rintro ⟨f, hf, hs, hn, hb⟩
      have : (f.Name, f.body) ∈
          (files.filter fun f => !isSignatureFile f.Name).map (fun f => (f.Name, f.body)) :=
        List.mem_map.2 ⟨f, by simp [List.mem_filter, hf, hs], rfl⟩
      rw [← hc] at this
      obtain ⟨m', hm', hme⟩ := List.mem_map.1 this
      simp only [Prod.mk.injEq, hn, hb, FileBody.data.injEq] at hme
      have : m' = m := by
        cases m'; cases m; simp_all
      exact this ▸ hm'
  have hnames : copied.map (fun m => m.Name) =
      (files.filter fun f => !isSignatureFile f.Name).map fun f => f.Name := by
    have := congrArg (List.map Prod.fst) hc
    simpa [List.map_map, Function.comp_def] using this
  refine ⟨files, w, hr, hw, hout, ?_, ?_, ?_, ?_⟩
  · intro m
    rw [hwc, List.mem_append, hmem m, or_comm]
  · have := congrArg List.length hc
    simp only [List.length_map] at this
    rw [hwc, List.length_append, this]
  · intro m hm hs
    rw [hwc, List.mem_append] at hm
    rcases hm with hm | hm
    · obtain ⟨f, _, hfs, hn, _⟩ := (hmem m).1 hm
      rw [hn, hs] at hfs
      exact absurd hfs (by simp)
    · exact hm
  · rw [hwc, List.map_append, hnames]

/-- Witness of C5 (amended), at the sample archive and one metafile. -/
theorem repackJARWithMetafiles_union_witness :
    ∃ files w, (exampleZip [sampleFiles]).NewReader [0] = .ok files ∧
      repackEntries (exampleZip [sampleFiles]) [0] [⟨lit "META-INF/new.rsa", lit "y"⟩] = .ok w ∧
      lit "a.txt" ++ [0] ++ lit "hello" ++ [0] ++ lit "dir/" ++ [0] ++ [0] ++
          lit "META-INF/new.rsa" ++ [0] ++ lit "y" ++ [0] =
        (exampleZip [sampleFiles]).Archive w ∧
      (∀ m, m ∈ w ↔ m ∈ ([⟨lit "META-INF/new.rsa", lit "y"⟩] : List Metafile) ∨
        ∃ f ∈ files, isSignatureFile f.Name = false ∧ f.Name = m.Name ∧ f.body = .data m.Body) ∧
      w.length = (files.filter fun f => !isSignatureFile f.Name).length +
        ([⟨lit "META-INF/new.rsa", lit "y"⟩] : List Metafile).length ∧
      (∀ m ∈ w, isSignatureFile m.Name = true →
        m ∈ ([⟨lit "META-INF/new.rsa", lit "y"⟩] : List Metafile)) ∧
      ((w.map fun m => m.Name).Nodup ↔
        (((files.filter fun f => !isSignatureFile f.Name).map fun f => f.Name) ++
          ([⟨lit "META-INF/new.rsa", lit "y"⟩] : List Metafile).map fun m => m.Name).Nodup) :=
  repackJARWithMetafiles_union (exampleZip [sampleFiles]) [0]
    [⟨lit "META-INF/new.rsa", lit "y"⟩]
    (lit "a.txt" ++ [0] ++ lit "hello" ++ [0] ++ lit "dir/" ++ [0] ++ [0] ++
      lit "META-INF/new.rsa" ++ [0] ++ lit "y" ++ [0]) (by rfl)

/-! ## `repackJAR` -/

/-- C6: for every archive on which `repackJAR` succeeds, with `w` the entries of
the output, every entry of `w` that is not a signature file stands before every
entry that is one, and the last three entries of `w` are, in this order,
`META-INF/manifest.mf` with the manifest bytes, `META-INF/mozilla.sf` with the
signature file bytes and `META-INF/mozilla.rsa` with the signature bytes. -/
theorem repackJAR_order (zip : ZipLib) (input manifest sigfile signature output : Bytes)
    (h : repackJAR zip input manifest sigfile signature = .ok output) :
    ∃ w, repackEntries zip input (jarMetas manifest sigfile signature) = .ok w ∧
      output = zip.Archive w ∧
      (∀ (i j : Nat) (a b : Metafile), w[i]? = some a → w[j]? = some b →
        isSignatureFile a.Name = false → isSignatureFile b.Name = true → i < j) ∧
      3 ≤ w.length ∧
      w.drop (w.length - 3) =
        [⟨lit "META-INF/manifest.mf", manifest⟩, ⟨lit "META-INF/mozilla.sf", sigfile⟩,
         ⟨lit "META-INF/mozilla.rsa", signature⟩] := by
  obtain ⟨w, hw, hout⟩ := repackJARWithMetafiles_ok zip input _ output h
  obtain ⟨files, copied, hr, hwc, hc⟩ := repackEntries_ok zip input _ w hw
  have hcopied : ∀ m ∈ copied, isSignatureFile m.Name = false := by
    intro m hm
    have : (m.Name, FileBody.data m.Body) ∈
        copied.map (fun m => (m.Name, FileBody.data m.Body)) :=
      List.mem_map.2 ⟨m, hm, rfl⟩
    rw [hc] at this
    obtain ⟨f, hf, hfe⟩ := List.mem_map.1 this
    simp only [List.mem_filter, Bool.not_eq_eq_eq_not, Bool.not_true] at hf
    simp only [Prod.mk.injEq] at hfe
    rw [← hfe.1]; exact hf.2
  have hmetas : ∀ m ∈ jarMetas manifest sigfile signature, isSignatureFile m.Name = true := by
    intro m hm
    simp only [jarMetas, List.mem_cons, List.mem_singleton, List.not_mem_nil, or_false] at hm
    rcases hm with rfl | rfl | rfl
    · show isSignatureFile (lit "META-INF/manifest.mf") = true; decide
    · show isSignatureFile (lit "META-INF/mozilla.sf") = true; decide
    · show isSignatureFile (lit "META-INF/mozilla.rsa") = true; decide
  refine ⟨w, hw, hout, ?_, ?_, ?_⟩
  · intro i j a b hi hj ha hb
    rw [hwc] at hi hj
    have hi' : i < copied.length := by
      by_contra hge
      rw [List.getElem?_append_right (not_lt.1 hge)] at hi
      have := hmetas a (List.getElem?_mem hi)
      rw [ha] at this
      exact absurd this (by simp)
    have hj' : copied.length ≤ j := by
      by_contra hlt
      rw [List.getElem?_append_left (not_le.1 hlt)] at hj
      have := hcopied b (List.getElem?_mem hj)
      rw [hb] at this
      exact absurd this (by simp)
    omega
  · rw [hwc]; simp [jarMetas]
  · rw [hwc]
    have : (copied ++ jarMetas manifest sigfile signature).length - 3 = copied.length := by
      simp [jarMetas]
    rw [this, List.drop_left]
    rfl

/-- Witness of C6, at the sample archive. -/
theorem repackJAR_order_witness :
    ∃ w, repackEntries (exampleZip [sampleFiles]) [0]
        (jarMetas (lit "m") (lit "s") (lit "r")) = .ok w ∧
      lit "a.txt" ++ [0] ++ lit "hello" ++ [0] ++ lit "dir/" ++ [0] ++ [0] ++
          lit "META-INF/manifest.mf" ++ [0] ++ lit "m" ++ [0] ++
          lit "META-INF/mozilla.sf" ++ [0] ++ lit "s" ++ [0] ++
          lit "META-INF/mozilla.rsa" ++ [0] ++ lit "r" ++ [0] =
        (exampleZip [sampleFiles]).Archive w ∧
      (∀ (i j : Nat) (a b : Metafile), w[i]? = some a → w[j]? = some b →
        isSignatureFile a.Name = false → isSignatureFile b.Name = true → i < j) ∧
      3 ≤ w.length ∧
      w.drop (w.length - 3) =
        [⟨lit "META-INF/manifest.mf", lit "m"⟩, ⟨lit "META-INF/mozilla.sf", lit "s"⟩,
         ⟨lit "META-INF/mozilla.rsa", lit "r"⟩] :=
  repackJAR_order (exampleZip [sampleFiles]) [0] (lit "m") (lit "s") (lit "r")
    (lit "a.txt" ++ [0] ++ lit "hello" ++ [0] ++ lit "dir/" ++ [0] ++ [0] ++
          lit "META-INF/manifest.mf" ++ [0] ++ lit "m" ++ [0] ++
          lit "META-INF/mozilla.sf" ++ [0] ++ lit "s" ++ [0] ++
          lit "META-INF/mozilla.rsa" ++ [0] ++ lit "r" ++ [0]) (by rfl)

/-! ## `encoding/base64`: decoding what was encoded -/

theorem uint8_ofNat_toNat (a : UInt8) : UInt8.ofNat a.toNat = a := by
  apply UInt8.eq_of_toBitVec_eq
  apply BitVec.eq_of_toNat_eq
  have h := UInt8.toNat_lt_size a
  simp only [UInt8.size] at h
  show (UInt8.ofNat a.toNat).toNat = a.toNat
  exact UInt8.toNat_ofNat_of_lt h

theorem uint8_toNat_lt (a : UInt8) : a.toNat < 256 := UInt8.toNat_lt_size a

theorem decodeMap_encodeChar (v : Nat) (hv : v < 64) : decodeMap (encodeChar v) = some v := by
  interval_cases v <;> decide

theorem quantumBytes_four (a b c : UInt8) :
    quantumBytes
      [(a.toNat * 65536 + b.toNat * 256 + c.toNat) / 262144 % 64,
       (a.toNat * 65536 + b.toNat * 256 + c.toNat) / 4096 % 64,
       (a.toNat * 65536 + b.toNat * 256 + c.toNat) / 64 % 64,
       (a.toNat * 65536 + b.toNat * 256 + c.toNat) % 64] = [a, b, c] := by
  have ha := uint8_toNat_lt a
  have hb := uint8_toNat_lt b
  have hc := uint8_toNat_lt c
  simp only [quantumBytes, List.getD_cons_zero, List.getD_cons_succ, List.length_cons,
    List.length_nil]
  have e1 : ((a.toNat * 65536 + b.toNat * 256 + c.toNat) / 262144 % 64 * 262144 +
      (a.toNat * 65536 + b.toNat * 256 + c.toNat) / 4096 % 64 * 4096 +
      (a.toNat * 65536 + b.toNat * 256 + c.toNat) / 64 % 64 * 64 +
      (a.toNat * 65536 + b.toNat * 256 + c.toNat) % 64) =
      a.toNat * 65536 + b.toNat * 256 + c.toNat := by omega
  rw [e1]
  have e2 : (a.toNat * 65536 + b.toNat * 256 + c.toNat) / 65536 % 256 = a.toNat := by omega
  have e3 : (a.toNat * 65536 + b.toNat * 256 + c.toNat) / 256 % 256 = b.toNat := by omega
  have e4 : (a.toNat * 65536 + b.toNat * 256 + c.toNat) % 256 = c.toNat := by omega
  rw [e2, e3, e4]
  simp [uint8_ofNat_toNat]
theorem quantumBytes_two (a : UInt8) :
    quantumBytes [a.toNat * 65536 / 262144 % 64, a.toNat * 65536 / 4096 % 64] = [a] := by
  have ha := uint8_toNat_lt a
  simp only [quantumBytes, List.getD_cons_zero, List.getD_cons_succ, List.length_cons,
    List.length_nil, List.getD_nil]
  have e2 : (a.toNat * 65536 / 262144 % 64 * 262144 + a.toNat * 65536 / 4096 % 64 * 4096 +
      0 * 64 + 0) / 65536 % 256 = a.toNat := by omega
  rw [e2]
  simp [uint8_ofNat_toNat]

theorem quantumBytes_three (a b : UInt8) :
    quantumBytes
      [(a.toNat * 65536 + b.toNat * 256) / 262144 % 64,
       (a.toNat * 65536 + b.toNat * 256) / 4096 % 64,
       (a.toNat * 65536 + b.toNat * 256) / 64 % 64] = [a, b] := by
  have ha := uint8_toNat_lt a
  have hb := uint8_toNat_lt b
  simp only [quantumBytes, List.getD_cons_zero, List.getD_cons_succ, List.length_cons,
    List.length_nil, List.getD_nil]
  have e2 : ((a.toNat * 65536 + b.toNat * 256) / 262144 % 64 * 262144 +
      (a.toNat * 65536 + b.toNat * 256) / 4096 % 64 * 4096 +
      (a.toNat * 65536 + b.toNat * 256) / 64 % 64 * 64 + 0) / 65536 % 256 = a.toNat := by omega
  have e3 : ((a.toNat * 65536 + b.toNat * 256) / 262144 % 64 * 262144 +
      (a.toNat * 65536 + b.toNat * 256) / 4096 % 64 * 4096 +
      (a.toNat * 65536 + b.toNat * 256) / 64 % 64 * 64 + 0) / 256 % 256 = b.toNat := by omega
  rw [e2, e3]
  simp [uint8_ofNat_toNat]

theorem decodeLoop_value (c : UInt8) (v : Nat) (hc : decodeMap c = some v) (src : Bytes)
    (si : Nat) (dbuf : List Nat) (dst : Bytes) :
    decodeLoop (c :: src) si dbuf dst =
      if dbuf.length = 3 then decodeLoop src (si + 1) [] (dst ++ quantumBytes (dbuf ++ [v]))
      else decodeLoop src (si + 1) (dbuf ++ [v]) dst := by
  rw [decodeLoop, hc]

theorem decodeLoop_quantum (v0 v1 v2 v3 : Nat) (h0 : v0 < 64) (h1 : v1 < 64) (h2 : v2 < 64)
    (h3 : v3 < 64) (src : Bytes) (si : Nat) (dst : Bytes) :
    decodeLoop (encodeChar v0 :: encodeChar v1 :: encodeChar v2 :: encodeChar v3 :: src)
        si [] dst =
      decodeLoop src (si + 4) [] (dst ++ quantumBytes [v0, v1, v2, v3]) := by
  rw [decodeLoop_value _ v0 (decodeMap_encodeChar v0 h0),
    if_neg (by simp), decodeLoop_value _ v1 (decodeMap_encodeChar v1 h1),
    if_neg (by simp), decodeLoop_value _ v2 (decodeMap_encodeChar v2 h2),
    if_neg (by simp), decodeLoop_value _ v3 (decodeMap_encodeChar v3 h3),
    if_pos (by simp)]
  rfl

theorem decodeLoop_pad2 (v0 v1 : Nat) (h0 : v0 < 64) (h1 : v1 < 64) (si : Nat) (dst : Bytes) :
    decodeLoop [encodeChar v0, encodeChar v1, padChar, padChar] si [] dst =
      (dst ++ quantumBytes [v0, v1], none) := by
  rw [decodeLoop_value _ v0 (decodeMap_encodeChar v0 h0),
    if_neg (by simp), decodeLoop_value _ v1 (decodeMap_encodeChar v1 h1),
    if_neg (by simp)]
  have h61 : decodeMap 61 = none := by decide
  simp [decodeLoop, h61, isNewline, padChar, decodeAfterPadding]

theorem decodeLoop_pad1 (v0 v1 v2 : Nat) (h0 : v0 < 64) (h1 : v1 < 64) (h2 : v2 < 64)
    (si : Nat) (dst : Bytes) :
    decodeLoop [encodeChar v0, encodeChar v1, encodeChar v2, padChar] si [] dst =
      (dst ++ quantumBytes [v0, v1, v2], none) := by
  rw [decodeLoop_value _ v0 (decodeMap_encodeChar v0 h0),
    if_neg (by simp), decodeLoop_value _ v1 (decodeMap_encodeChar v1 h1),
    if_neg (by simp), decodeLoop_value _ v2 (decodeMap_encodeChar v2 h2),
    if_neg (by simp)]
  have h61 : decodeMap 61 = none := by decide
  simp [decodeLoop, h61, isNewline, padChar, decodeAfterPadding]

theorem decodeLoop_encode (data : Bytes) (si : Nat) (dst : Bytes) :
    decodeLoop (EncodeToString data) si [] dst = (dst ++ data, none) := by
  induction data using EncodeToString.induct generalizing si dst with
  | case1 => simp [EncodeToString, decodeLoop]
  | case2 a =>
    simp only [EncodeToString]
    rw [decodeLoop_pad2 _ _ (Nat.mod_lt _ (by norm_num)) (Nat.mod_lt _ (by norm_num)),
      quantumBytes_two]
  | case3 a b =>
    simp only [EncodeToString]
    rw [decodeLoop_pad1 _ _ _ (Nat.mod_lt _ (by norm_num)) (Nat.mod_lt _ (by norm_num))
      (Nat.mod_lt _ (by norm_num)), quantumBytes_three]
  | case4 a b c rest ih =>
    simp only [EncodeToString]
    rw [decodeLoop_quantum _ _ _ _ (Nat.mod_lt _ (by norm_num)) (Nat.mod_lt _ (by norm_num))
      (Nat.mod_lt _ (by norm_num)) (Nat.mod_lt _ (by norm_num)), quantumBytes_four, ih]
    simp

/-- Decoding the standard encoding of `data` gives `data` back, without error. -/
theorem DecodeString_EncodeToString (data : Bytes) :
    DecodeString (EncodeToString data) = (data, none) := by
  simpa [DecodeString] using decodeLoop_encode data 0 []

/-! ## `mustReadFileFromZIP` -/

theorem readLoop_returned_iff (filename : Bytes) (files : List File) (data : Bytes) :
    readLoop filename files = .returned data ↔
      ∃ f, files.find? (fun f => f.Name = filename) = some f ∧ f.body = .data data := by
  induction files with
  | nil => simp [readLoop]
  | cons g gs ih =>
    unfold readLoop
    by_cases hg : g.Name = filename
    · rw [if_pos hg]
      simp only [List.find?_cons, hg, decide_True, Option.some.injEq, exists_eq_left']
      cases hb : g.body <;> simp
    · rw [if_neg hg]
      simp only [List.find?_cons, hg, decide_False]
      exact ih

theorem readLoop_panicked_iff (filename : Bytes) (files : List File) :
    (∃ msg cause, readLoop filename files = .panicked msg cause) ↔
      (∀ f ∈ files, f.Name ≠ filename) ∨
      ∃ f, files.find? (fun f => f.Name = filename) = some f ∧ ∀ data, f.body ≠ .data data := by
  induction files with
  | nil => simp [readLoop]
  | cons g gs ih =>
    unfold readLoop
    by_cases hg : g.Name = filename
    · rw [if_pos hg]
      simp only [List.find?_cons, hg, decide_True, Option.some.injEq, exists_eq_left',
        List.mem_cons, forall_eq_or_imp, not_true_eq_false, false_and, false_or]
      cases hb : g.body <;> simp
    · rw [if_neg hg]
      simp only [List.find?_cons, hg, decide_False, List.mem_cons, forall_eq_or_imp,
        ne_eq, not_false_eq_true, true_and]
      exact ih

theorem mustReadFileFromZIP_returned_iff (zip : ZipLib) (signedXPI filename data : Bytes) :
    mustReadFileFromZIP zip signedXPI filename = .returned data ↔
      ∃ files f, zip.NewReader signedXPI = .ok files ∧
        files.find? (fun f => f.Name = filename) = some f ∧ f.body = .data data := by
  unfold mustReadFileFromZIP
  cases hr : zip.NewReader signedXPI with
  | error e => simp
  | ok files =>
    simp only [Except.ok.injEq, exists_and_left, exists_eq_left']
    exact readLoop_returned_iff filename files data

theorem mustReadFileFromZIP_panicked_iff (zip : ZipLib) (signedXPI filename : Bytes) :
    (∃ msg cause, mustReadFileFromZIP zip signedXPI filename = .panicked msg cause) ↔
      (∃ err, zip.NewReader signedXPI = .error err) ∨
      ∃ files, zip.NewReader signedXPI = .ok files ∧
        ((∀ f ∈ files, f.Name ≠ filename) ∨
          ∃ f, files.find? (fun f => f.Name = filename) = some f ∧
            ∀ data, f.body ≠ .data data) := by
  unfold mustReadFileFromZIP
  cases hr : zip.NewReader signedXPI with
  | error e => simp
  | ok files =>
    simp only [Except.ok.injEq, exists_eq_left', exists_false, false_or, reduceCtorEq]
    exact readLoop_panicked_iff filename files

/-- C7: for every archive bytes and filename, `mustReadFileFromZIP` looks the
entry up by exact name (equality of the whole byte strings): it returns `data`
iff the archive parses and `data` is the complete decompressed content of the
first entry in archive order whose name equals `filename`; and it fails (a panic,
which carries no data) iff the archive cannot be parsed, or no entry has that
exact name, or the first entry of that name cannot be opened and fully read. -/
theorem mustReadFileFromZIP_exact (zip : ZipLib) (signedXPI filename : Bytes) :
    (∀ data, mustReadFileFromZIP zip signedXPI filename = .returned data ↔
      ∃ files f, zip.NewReader signedXPI = .ok files ∧
        files.find? (fun f => f.Name = filename) = some f ∧ f.body = .data data) ∧
    ((∃ msg cause, mustReadFileFromZIP zip signedXPI filename = .panicked msg cause) ↔
      (∃ err, zip.NewReader signedXPI = .error err) ∨
      ∃ files, zip.NewReader signedXPI = .ok files ∧
        ((∀ f ∈ files, f.Name ≠ filename) ∨
          ∃ f, files.find? (fun f => f.Name = filename) = some f ∧
            ∀ data, f.body ≠ .data data)) :=
  ⟨fun data => mustReadFileFromZIP_returned_iff zip signedXPI filename data,
    mustReadFileFromZIP_panicked_iff zip signedXPI filename⟩
/-! ## `Marshal`, `Unmarshal`, `VerifySignedFile` -/

theorem Unmarshal_ok {P7 Pool : Type} (pk : PKCS7Lib P7 Pool) (s c : Bytes) (sig : Signature P7)
    (h : Unmarshal pk s c = (sig, none)) :
    ∃ p7, DecodeString s = (sig.Data, none) ∧ pk.Parse sig.Data = .ok p7 ∧
      sig.p7 = some (pk.setContent p7 c) ∧ sig.Finished = true := by
  unfold Unmarshal at h
  rcases hd : DecodeString s with ⟨data, _ | e⟩
  · rw [hd] at h
    simp only at h
    cases hp : pk.Parse data with
    | error e => rw [hp] at h; simp at h
    | ok p7 =>
      rw [hp] at h
      simp only [Prod.mk.injEq, and_true] at h
      subst h
      exact ⟨p7, rfl, hp, rfl, rfl⟩
  · rw [hd] at h; simp at h

theorem verifyPKCS7SignatureRoundTrip_returns {P7 Pool : Type} (zip : ZipLib)
    (pk : PKCS7Lib P7 Pool) (signedFile rsa sf : Bytes)
    (hrsa : mustReadFileFromZIP zip signedFile (lit "META-INF/mozilla.rsa") = .returned rsa)
    (hsf : mustReadFileFromZIP zip signedFile (lit "META-INF/mozilla.sf") = .returned sf) :
    ∃ r, verifyPKCS7SignatureRoundTrip zip pk signedFile = .returned r := by
  unfold verifyPKCS7SignatureRoundTrip
  rw [hrsa, hsf]
  simp only [Outcome.andThen]
  rcases hu : Unmarshal pk (EncodeToString rsa) sf with ⟨sig, _ | e⟩
  · obtain ⟨p7, _, _, hp7, hfin⟩ := Unmarshal_ok pk _ _ sig hu
    have hv : sig.VerifyWithChain pk none = .returned (pk.VerifyWithChain (pk.setContent p7 sf) none) := by
      simp [Signature.VerifyWithChain, hfin, hp7]
    simp only [hv]
    cases pk.VerifyWithChain (pk.setContent p7 sf) none with
    | some e => exact ⟨_, rfl⟩
    | none =>
      simp only
      cases sig.Marshal with
      | error e => exact ⟨_, rfl⟩
      | ok s2 =>
        simp only
        split
        · exact ⟨_, rfl⟩
        · exact ⟨_, rfl⟩
  · exact ⟨_, rfl⟩

/-- C8 (as the claim states it, refuted): on bytes that are not a ZIP archive,
and on an archive without `META-INF/mozilla.rsa`, `VerifySignedFile` panics (the
panics of `mustReadFileFromZIP`) instead of returning an error. -/
theorem VerifySignedFile_panic_counterexample :
    VerifySignedFile (exampleZip [sampleFiles]) examplePKCS7 [] =
      .panicked "Error reading ZIP %s" (some (.lib "zip: not a valid zip file")) ∧
    VerifySignedFile (exampleZip [sampleFiles]) examplePKCS7 [0] =
      .panicked "failed to find %s in ZIP" none := by
  refine ⟨by rfl, by rfl⟩

/-- C8 (amended): for every byte string passed as the signed file,
`VerifySignedFile` returns (nil or an error value) iff the bytes parse as an
archive whose first entry named `META-INF/mozilla.rsa` and first entry named
`META-INF/mozilla.sf` both exist and can be read; in every other case (bytes
that are not a ZIP archive, one of the two entries missing or unreadable) it
panics. -/
theorem VerifySignedFile_returns_iff {P7 Pool : Type} (zip : ZipLib) (pk : PKCS7Lib P7 Pool)
    (signedFile : Bytes) :
    ((∃ r, VerifySignedFile zip pk signedFile = .returned r) ↔
      ∃ files frsa fsf rsa sf, zip.NewReader signedFile = .ok files ∧
        files.find? (fun f => f.Name = lit "META-INF/mozilla.rsa") = some frsa ∧
        frsa.body = .data rsa ∧
        files.find? (fun f => f.Name = lit "META-INF/mozilla.sf") = some fsf ∧
        fsf.body = .data sf) ∧
    ((∃ msg cause, VerifySignedFile zip pk signedFile = .panicked msg cause) ↔
      ¬ ∃ files frsa fsf rsa sf, zip.NewReader signedFile = .ok files ∧
        files.find? (fun f => f.Name = lit "META-INF/mozilla.rsa") = some frsa ∧
        frsa.body = .data rsa ∧
        files.find? (fun f => f.Name = lit "META-INF/mozilla.sf") = some fsf ∧
        fsf.body = .data sf) := by
  have key : (∃ r, VerifySignedFile zip pk signedFile = .returned r) ↔
      ∃ files frsa fsf rsa sf, zip.NewReader signedFile = .ok files ∧
        files.find? (fun f => f.Name = lit "META-INF/mozilla.rsa") = some frsa ∧
        frsa.body = .data rsa ∧
        files.find? (fun f => f.Name = lit "META-INF/mozilla.sf") = some fsf ∧
        fsf.body = .data sf := by
    constructor
    · rintro ⟨r, hr⟩
      unfold VerifySignedFile verifyPKCS7SignatureRoundTrip at hr
      cases hrsa : mustReadFileFromZIP zip signedFile (lit "META-INF/mozilla.rsa") with
      | panicked m c => rw [hrsa] at hr; simp [Outcome.andThen] at hr
      | returned rsa =>
        cases hsf : mustReadFileFromZIP zip signedFile (lit "META-INF/mozilla.sf") with
        | panicked m c => rw [hrsa, hsf] at hr; simp [Outcome.andThen] at hr
        | returned sf =>
          obtain ⟨files, frsa, h1, h2, h3⟩ :=
            (mustReadFileFromZIP_returned_iff zip signedFile _ rsa).1 hrsa
          obtain ⟨files', fsf, h1', h2', h3'⟩ :=
            (mustReadFileFromZIP_returned_iff zip signedFile _ sf).1 hsf
          rw [h1] at h1'
          cases h1'
          exact ⟨files, frsa, fsf, rsa, sf, h1, h2, h3, h2', h3'⟩
    · rintro ⟨files, frsa, fsf, rsa, sf, h1, h2, h3, h4, h5⟩
      have hrsa := (mustReadFileFromZIP_returned_iff zip signedFile _ rsa).2
        ⟨files, frsa, h1, h2, h3⟩
      have hsf := (mustReadFileFromZIP_returned_iff zip signedFile _ sf).2
        ⟨files, fsf, h1, h4, h5⟩
      obtain ⟨r, hr⟩ := verifyPKCS7SignatureRoundTrip_returns zip pk signedFile rsa sf hrsa hsf
      unfold VerifySignedFile
      rw [hr]
      cases r <;> exact ⟨_, rfl⟩
  refine ⟨key, ?_⟩
  rw [← key]
  cases VerifySignedFile zip pk signedFile <;> simp

theorem Marshal_finished {P7 : Type} (sig : Signature P7) (hfin : sig.Finished = true)
    (hd : sig.Data ≠ []) : sig.Marshal = .ok (EncodeToString sig.Data) := by
  simp [Signature.Marshal, hfin, hd]

theorem Marshal_empty {P7 : Type} (sig : Signature P7) (hfin : sig.Finished = true)
    (hd : sig.Data = []) :
    sig.Marshal = .error (.new "xpi: cannot marshal empty signature data") := by
  simp [Signature.Marshal, hfin, hd]

/-- C9: for every Signature value, `Marshal` returns an error iff `Finished` is
false or `Data` is empty; the error is the unfinished one whenever `Finished` is
false (also when `Data` is empty too), the empty-data one when only `Data` is
empty; otherwise it returns the standard base64 encoding of `Data` and no error. -/
theorem Marshal_error_iff {P7 : Type} (sig : Signature P7) :
    ((∃ err, sig.Marshal = .error err) ↔ (sig.Finished = false ∨ sig.Data = [])) ∧
    (sig.Finished = false →
      sig.Marshal = .error (.new "xpi: cannot marshal unfinished signature")) ∧
    (sig.Finished = true → sig.Data = [] →
      sig.Marshal = .error (.new "xpi: cannot marshal empty signature data")) ∧
    (sig.Finished = true → sig.Data ≠ [] → sig.Marshal = .ok (EncodeToString sig.Data)) := by
  unfold Signature.Marshal
  cases hf : sig.Finished <;> by_cases hd : sig.Data = [] <;> simp [hd]

/-- C10 (as the claim states it, refuted): the transport string
`MCcGCSqGSIb3DQEHAqAaMBgCAQExADALBgkqhkiG9w0BBwGgAKEAMQA=\n` decodes (base64
decoding ignores the new line) to the DER bytes of an empty PKCS7 SignedData, so
`Unmarshal` succeeds on it with every pkcs7 package that parses these bytes, and
`Marshal` of the returned signature succeeds with the same text without the new
line, which is not the string given. -/
theorem Unmarshal_Marshal_counterexample :
    DecodeString (lit "MCcGCSqGSIb3DQEHAqAaMBgCAQExADALBgkqhkiG9w0BBwGgAKEAMQA=\n") =
      (emptySignedData, none) ∧
    (Unmarshal examplePKCS7 (lit "MCcGCSqGSIb3DQEHAqAaMBgCAQExADALBgkqhkiG9w0BBwGgAKEAMQA=\n")
      (lit "s")).2 = none ∧
    (Unmarshal examplePKCS7 (lit "MCcGCSqGSIb3DQEHAqAaMBgCAQExADALBgkqhkiG9w0BBwGgAKEAMQA=\n")
      (lit "s")).1.Marshal =
      .ok (lit "MCcGCSqGSIb3DQEHAqAaMBgCAQExADALBgkqhkiG9w0BBwGgAKEAMQA=") ∧
    lit "MCcGCSqGSIb3DQEHAqAaMBgCAQExADALBgkqhkiG9w0BBwGgAKEAMQA=" ≠
      lit "MCcGCSqGSIb3DQEHAqAaMBgCAQExADALBgkqhkiG9w0BBwGgAKEAMQA=\n" ∧
    (∀ (P7 Pool : Type) (pk : PKCS7Lib P7 Pool) (p7 : P7) (c : Bytes),
      pk.Parse emptySignedData = .ok p7 →
      Unmarshal pk (lit "MCcGCSqGSIb3DQEHAqAaMBgCAQExADALBgkqhkiG9w0BBwGgAKEAMQA=\n") c =
        (⟨some (pk.setContent p7 c), emptySignedData, true⟩, none) ∧
      (Unmarshal pk (lit "MCcGCSqGSIb3DQEHAqAaMBgCAQExADALBgkqhkiG9w0BBwGgAKEAMQA=\n")
        c).1.Marshal =
        .ok (lit "MCcGCSqGSIb3DQEHAqAaMBgCAQExADALBgkqhkiG9w0BBwGgAKEAMQA=")) := by
  have hdec : DecodeString
      (lit "MCcGCSqGSIb3DQEHAqAaMBgCAQExADALBgkqhkiG9w0BBwGgAKEAMQA=\n") =
      (emptySignedData, none) := by decide
  refine ⟨hdec, by rfl, by rfl, by decide, ?_⟩
  intro P7 Pool pk p7 c hp
  have hu : Unmarshal pk
      (lit "MCcGCSqGSIb3DQEHAqAaMBgCAQExADALBgkqhkiG9w0BBwGgAKEAMQA=\n") c =
      (⟨some (pk.setContent p7 c), emptySignedData, true⟩, none) := by
    unfold Unmarshal
    rw [hdec]
    simp only [hp]
  refine ⟨hu, ?_⟩
  rw [hu]
  rfl

/-- C10 (amended): for every transport string `s` and content `c` such that
`Unmarshal(s, c)` succeeds, `Marshal` of the returned signature returns the
standard base64 encoding of the decoded bytes when these are not empty; it
returns a string byte-identical to `s` iff moreover `s` is that encoding; in
particular it returns `s` whenever `s` is the standard encoding of some
non-empty data, as `Marshal` produces it. -/
theorem Unmarshal_Marshal_canonical {P7 Pool : Type} (pk : PKCS7Lib P7 Pool) (s c : Bytes)
    (sig : Signature P7) (h : Unmarshal pk s c = (sig, none)) :
    (sig.Data ≠ [] → sig.Marshal = .ok (EncodeToString sig.Data)) ∧
    (sig.Marshal = .ok s ↔ (sig.Data ≠ [] ∧ s = EncodeToString sig.Data)) ∧
    (∀ data, data ≠ [] → s = EncodeToString data → sig.Marshal = .ok s) := by
  obtain ⟨p7, hdec, _, _, hfin⟩ := Unmarshal_ok pk s c sig h
  have hm : sig.Data ≠ [] → sig.Marshal = .ok (EncodeToString sig.Data) :=
    Marshal_finished sig hfin
  refine ⟨hm, ?_, ?_⟩
  · constructor
    · intro hs
      by_cases hd : sig.Data = []
      · rw [Marshal_empty sig hfin hd] at hs
        simp at hs
      · rw [hm hd] at hs
        simp only [Except.ok.injEq] at hs
        exact ⟨hd, hs.symm⟩
    · rintro ⟨hd, hs⟩
      rw [hm hd, ← hs]
  · intro data hne hs
    rw [hs, DecodeString_EncodeToString] at hdec
    simp only [Prod.mk.injEq, and_true] at hdec
    rw [← hdec] at hm
    rw [hs]
    exact hm hne

/-- Witness of C10 (amended), at the standard encoding of the empty SignedData. -/
theorem Unmarshal_Marshal_canonical_witness :
    Unmarshal examplePKCS7 (lit "MCcGCSqGSIb3DQEHAqAaMBgCAQExADALBgkqhkiG9w0BBwGgAKEAMQA=")
        (lit "s") =
      (⟨some (emptySignedData, lit "s"), emptySignedData, true⟩, none) ∧
    ((emptySignedData ≠ [] →
      (⟨some (emptySignedData, lit "s"), emptySignedData, true⟩ :
          Signature (Bytes × Bytes)).Marshal =
        .ok (EncodeToString emptySignedData)) ∧
    ((⟨some (emptySignedData, lit "s"), emptySignedData, true⟩ :
          Signature (Bytes × Bytes)).Marshal =
        .ok (lit "MCcGCSqGSIb3DQEHAqAaMBgCAQExADALBgkqhkiG9w0BBwGgAKEAMQA=") ↔
      (emptySignedData ≠ [] ∧
        lit "MCcGCSqGSIb3DQEHAqAaMBgCAQExADALBgkqhkiG9w0BBwGgAKEAMQA=" =
          EncodeToString emptySignedData)) ∧
    (∀ data, data ≠ [] →
      lit "MCcGCSqGSIb3DQEHAqAaMBgCAQExADALBgkqhkiG9w0BBwGgAKEAMQA=" = EncodeToString data →
      (⟨some (emptySignedData, lit "s"), emptySignedData, true⟩ :
          Signature (Bytes × Bytes)).Marshal =
        .ok (lit "MCcGCSqGSIb3DQEHAqAaMBgCAQExADALBgkqhkiG9w0BBwGgAKEAMQA="))) :=
  ⟨by rfl, Unmarshal_Marshal_canonical examplePKCS7
    (lit "MCcGCSqGSIb3DQEHAqAaMBgCAQExADALBgkqhkiG9w0BBwGgAKEAMQA=") (lit "s")
    ⟨some (emptySignedData, lit "s"), emptySignedData, true⟩ (by rfl)⟩

/-- On the signed sample archive both entries are found, the signature parses,
verifies and keeps its transport form: `VerifySignedFile` returns nil. -/
theorem VerifySignedFile_sample :
    VerifySignedFile (exampleZip [sampleSigned]) examplePKCS7 [0] = .returned none := by
  rfl

/-! ## `Finished` -/

/-- C11 (as the claim states it, refuted): for the signature with `Finished`
false and data `ABC`, `String` returns the PEM block of the signature data. -/
theorem String_unfinished_counterexample :
    (⟨none, lit "ABC", false⟩ : Signature Unit).Finished = false ∧
    (⟨none, lit "ABC", false⟩ : Signature Unit).String =
      lit "-----BEGIN PKCS7-----\nQUJD\n-----END PKCS7-----\n" := by
  refine ⟨rfl, by decide⟩

/-- C11 (amended): for every Signature with `Finished` false, `Marshal` returns
an error (the unfinished one) and `VerifyWithChain` returns an error, for every
trust store; `String` has no such requirement: for every Signature, finished or
not, it returns the PEM block of type `PKCS7` of the signature data. -/
theorem unfinished_signature {P7 : Type} (sig : Signature P7) :
    (sig.Finished = false →
      sig.Marshal = .error (.new "xpi: cannot marshal unfinished signature") ∧
      (∀ (Pool : Type) (pk : PKCS7Lib P7 Pool) (truststore : Option Pool),
        sig.VerifyWithChain pk truststore =
          .returned
            (some (.new "xpi.VerifyWithChain: cannot verify unfinished signature")))) ∧
    sig.String =
      lit "-----BEGIN PKCS7-----\n" ++ breakLines (EncodeToString sig.Data) 0 ++
        lit "-----END PKCS7-----\n" := by
  refine ⟨fun h => ⟨?_, ?_⟩, ?_⟩
  · simp [Signature.Marshal, h]
  · intro Pool pk truststore
    simp [Signature.VerifyWithChain, h]
  · simp only [Signature.String, pemEncode]
    rw [List.append_assoc _ (lit "-----END ")]
    rfl

/-- Witness of C11 (amended), at the unfinished signature with data `ABC`. -/
theorem unfinished_signature_witness :
    (⟨none, lit "ABC", false⟩ : Signature Unit).Marshal =
      .error (.new "xpi: cannot marshal unfinished signature") ∧
    (∀ (Pool : Type) (pk : PKCS7Lib Unit Pool) (truststore : Option Pool),
      (⟨none, lit "ABC", false⟩ : Signature Unit).VerifyWithChain pk truststore =
        .returned (some (.new "xpi.VerifyWithChain: cannot verify unfinished signature"))) ∧
    (⟨none, lit "ABC", false⟩ : Signature Unit).String =
      lit "-----BEGIN PKCS7-----\n" ++ breakLines (EncodeToString (lit "ABC")) 0 ++
        lit "-----END PKCS7-----\n" :=
  ⟨((unfinished_signature ⟨none, lit "ABC", false⟩).1 rfl).1,
   ((unfinished_signature ⟨none, lit "ABC", false⟩).1 rfl).2,
   (unfinished_signature ⟨none, lit "ABC", false⟩).2⟩

theorem Unmarshal_cases {P7 Pool : Type} (pk : PKCS7Lib P7 Pool) (s c : Bytes) :
    (∃ data err, Unmarshal pk s c = (⟨none, data, false⟩, some err)) ∨
    (∃ data p7, DecodeString s = (data, none) ∧ pk.Parse data = .ok p7 ∧
      Unmarshal pk s c = (⟨some (pk.setContent p7 c), data, true⟩, none)) := by
  unfold Unmarshal
  rcases hd : DecodeString s with ⟨data, _ | e⟩
  · simp only
    cases hp : pk.Parse data with
    | error e => exact Or.inl ⟨data, _, rfl⟩
    | ok p7 => exact Or.inr ⟨data, p7, rfl, hp, rfl⟩
  · exact Or.inl ⟨data, _, rfl⟩

/-- C12 (as the claim states it, refuted): the signature `SignData` returns
right after raw signing has `Finished` true although nothing was parsed: its
`p7` is not set. -/
theorem SignData_finished_counterexample :
    (sampleSigner.SignData exampleJSON exampleSign (lit "sigfile") (some (lit "id")) :
        Except Error (Signature Unit)) =
      .ok ⟨none, lit "sigfileid", true⟩ := by
  rfl

/-- C12 (amended): a signature returned by `Unmarshal` has `Finished` true iff
`Unmarshal` returns no error, and then its raw bytes are the decoded transport
string, they have been parsed, and `p7` is the parsed signature with the content
attached; a signature returned by a failing `Unmarshal` has `Finished` false and
no `p7`. A signature returned by `SignData` has `Finished` true, the raw
signature bytes of `signData` as its data, and no `p7`. -/
theorem Finished_after_Unmarshal_and_SignData {P7 : Type} :
    (∀ (Pool : Type) (pk : PKCS7Lib P7 Pool) (s c : Bytes),
      ((Unmarshal pk s c).1.Finished = true ↔ (Unmarshal pk s c).2 = none) ∧
      ((Unmarshal pk s c).1.Finished = true →
        ∃ p7, DecodeString s = ((Unmarshal pk s c).1.Data, none) ∧
          pk.Parse (Unmarshal pk s c).1.Data = .ok p7 ∧
          (Unmarshal pk s c).1.p7 = some (pk.setContent p7 c)) ∧
      ((Unmarshal pk s c).2 ≠ none →
        (Unmarshal pk s c).1.Finished = false ∧ (Unmarshal pk s c).1.p7 = none)) ∧
    (∀ (K SD I : Type) (js : JSONLib I) (sl : SignLib K SD) (signer : PKCS7Signer K)
      (sigfile : Bytes) (options : I) (sig : Signature P7),
      signer.SignData js sl sigfile options = .ok sig →
        sig.Finished = true ∧ sig.p7 = none ∧
        (signer.signData js sl sigfile options).1 = .ok sig.Data) := by
  constructor
  · intro Pool pk s c
    rcases Unmarshal_cases pk s c with ⟨data, err, h⟩ | ⟨data, p7, hd, hp, h⟩
    · rw [h]; simp
    · rw [h]
      simp only [true_iff, ne_eq, not_true_eq_false, false_implies, and_true, true_and,
        forall_const]
      exact ⟨p7, hd, hp, rfl⟩
  · intro K SD I js sl signer sigfile options sig h
    unfold PKCS7Signer.SignData at h
    cases hs : (signer.signData js sl sigfile options).1 with
    | error e => rw [hs] at h; simp at h
    | ok p7sig =>
      rw [hs] at h
      simp only [Except.ok.injEq] at h
      subst h
      exact ⟨rfl, rfl, rfl⟩

/-! ## `signData` -/

/-- C13: for every signer and every options value, the common name `signData`
passes to end-entity certificate issuance (`s.MakeEndEntity`) is the signer's
`EndEntityCN` when that is non-empty and the options' id (the ID of the options
`GetOptions` decodes) otherwise. With `cn` that name: `signData` returns
signature bytes exactly when the options decode, `cn` is not empty,
`s.MakeEndEntity(cn)` returns a certificate and a key, and the signed data made
from the signature file, with that certificate and key added under the issuer
certificate, finishes to these bytes; an error of `s.MakeEndEntity(cn)` is the
error returned; the result depends on `s.MakeEndEntity` only through its answer
for `cn`; every name recorded as passed is `cn`, and when the options decode it
is passed, once, if it is not empty; when both names are empty `signData`
returns the missing common name error, whatever the signing packages would
answer, without a call of `s.MakeEndEntity` and without signature bytes. -/
theorem signData_common_name {K SD I : Type} (js : JSONLib I) (sl : SignLib K SD)
    (s : PKCS7Signer K) (sigfile : Bytes) (options : I) :
    (∀ sig, (s.signData js sl sigfile options).1 = .ok sig ↔
      ((GetOptions js options).2 = none ∧
        (if s.EndEntityCN ≠ [] then s.EndEntityCN else (GetOptions js options).1.ID) ≠ [] ∧
        ∃ eeCert eeKey sd sd2,
          sl.MakeEndEntity s
              (if s.EndEntityCN ≠ [] then s.EndEntityCN else (GetOptions js options).1.ID) =
            .ok (eeCert, eeKey) ∧
          sl.NewSignedData sigfile = .ok sd ∧
          sl.AddSignerChain (sl.SetDigestAlgorithm sd OIDDigestAlgorithmSHA1) eeCert eeKey
            [s.issuerCert] = .ok sd2 ∧
          sl.Finish (sl.Detach sd2) = .ok sig)) ∧
    ((GetOptions js options).2 = none →
      (if s.EndEntityCN ≠ [] then s.EndEntityCN else (GetOptions js options).1.ID) ≠ [] →
      ∀ err,
        sl.MakeEndEntity s
            (if s.EndEntityCN ≠ [] then s.EndEntityCN else (GetOptions js options).1.ID) =
          .error err →
        (s.signData js sl sigfile options).1 = .error err) ∧
    s.signData js
        { sl with
          MakeEndEntity := fun _ _ =>
            sl.MakeEndEntity s
              (if s.EndEntityCN ≠ [] then s.EndEntityCN else (GetOptions js options).1.ID) }
        sigfile options =
      s.signData js sl sigfile options ∧
    (∀ cn ∈ (s.signData js sl sigfile options).2,
      cn = if s.EndEntityCN ≠ [] then s.EndEntityCN else (GetOptions js options).1.ID) ∧
    ((GetOptions js options).2 = none →
      ((if s.EndEntityCN ≠ [] then s.EndEntityCN else (GetOptions js options).1.ID) ≠ [] →
        (s.signData js sl sigfile options).2 =
          [if s.EndEntityCN ≠ [] then s.EndEntityCN else (GetOptions js options).1.ID]) ∧
      (s.EndEntityCN = [] → (GetOptions js options).1.ID = [] →
        s.signData js sl sigfile options =
          (.error (.new "xpi: missing common name"), []))) := by
  unfold PKCS7Signer.signData
  rcases hopt : GetOptions js options with ⟨opt, _ | e⟩
  swap
  · simp
  have h3 : s.EndEntityCN = [] → opt.ID = [] →
      (if s.EndEntityCN ≠ [] then s.EndEntityCN else opt.ID) = [] := by
    intro h1 h2; simp [h1, h2]
  simp only [forall_const, true_and]
  generalize (if s.EndEntityCN ≠ [] then s.EndEntityCN else opt.ID) = cn0 at h3 ⊢
  by_cases hc : cn0 = []
  · simp [hc]
  · have h4 : ¬ (s.EndEntityCN = [] ∧ opt.ID = []) := fun h => hc (h3 h.1 h.2)
    simp only [if_neg hc]
    cases hm : sl.MakeEndEntity s cn0 with
    | error e => simp [hc]; exact fun h1 h2 => absurd ⟨h1, h2⟩ h4
    | ok r =>
      obtain ⟨eeCert, eeKey⟩ := r
      simp only
      cases hn : sl.NewSignedData sigfile with
      | error e => simp [hc]; exact fun h1 h2 => absurd ⟨h1, h2⟩ h4
      | ok sd =>
        simp only
        cases ha : sl.AddSignerChain (sl.SetDigestAlgorithm sd OIDDigestAlgorithmSHA1) eeCert
            eeKey [s.issuerCert] with
        | error e => simp [hc, ha]; exact fun h1 h2 => absurd ⟨h1, h2⟩ h4
        | ok sd2 =>
          simp only
          cases hf : sl.Finish (sl.Detach sd2) with
          | error e => simp [hc, ha, hf]; exact fun h1 h2 => absurd ⟨h1, h2⟩ h4
          | ok sig =>
            simp [hc, ha, hf]
            refine ⟨?_, fun h1 h2 => h4 ⟨h1, h2⟩⟩
            intro sig1
            constructor
            · rintro rfl
              exact ⟨_, _, ⟨rfl, rfl⟩, sd2, ha, hf⟩
            · rintro ⟨c1, k1, ⟨rfl, rfl⟩, x, hx, hfx⟩
              rw [ha] at hx
              cases hx
              rw [hf] at hfx
              cases hfx
              rfl

/-- Witness of C13: the sample signer (no fixed common name) issues for the id
`id` of the options, the hotfix signer issues for its fixed common name whatever
the id (the key of the example packages is the common name, and ends the
signature), and without an id the sample signer issues nothing. -/
theorem signData_common_name_witness :
    (sampleSigner.signData exampleJSON exampleSign (lit "sigfile") (some (lit "id"))).1 =
      .ok (lit "sigfileid") ∧
    (sampleHotfixSigner.signData exampleJSON exampleSign (lit "sigfile") (some (lit "id"))).1 =
      .ok (lit "sigfilefirefox-hotfix@mozilla.org") ∧
    (sampleSigner.signData exampleJSON exampleSign (lit "sigfile") (some (lit "id"))).2 =
      [lit "id"] ∧
    sampleSigner.signData exampleJSON exampleSign (lit "sigfile") (some []) =
      (.error (.new "xpi: missing common name"), []) :=
  ⟨((signData_common_name exampleJSON exampleSign sampleSigner (lit "sigfile")
      (some (lit "id"))).1 (lit "sigfileid")).2
      ⟨by rfl, by decide, ⟨lit "id", false, 0, 0, 0, []⟩, lit "id", lit "sigfile",
        lit "sigfileid", by rfl, by rfl, by rfl, by rfl⟩,
   ((signData_common_name exampleJSON exampleSign sampleHotfixSigner (lit "sigfile")
      (some (lit "id"))).1 (lit "sigfilefirefox-hotfix@mozilla.org")).2
      ⟨by rfl, by decide, ⟨lit "firefox-hotfix@mozilla.org", false, 0, 0, 0, []⟩,
        lit "firefox-hotfix@mozilla.org", lit "sigfile",
        lit "sigfilefirefox-hotfix@mozilla.org", by rfl, by rfl, by rfl, by rfl⟩,
   ((signData_common_name exampleJSON exampleSign sampleSigner (lit "sigfile")
      (some (lit "id"))).2.2.2.2 (by rfl)).1 (by decide),
   ((signData_common_name exampleJSON exampleSign sampleSigner (lit "sigfile")
      (some [])).2.2.2.2 (by rfl)).2 (by rfl) (by rfl)⟩

/-! ## `New` -/

theorem and_certSign_eq_zero_iff (n : Nat) :
    n &&& KeyUsageCertSign = 0 ↔ n.testBit 5 = false := by
  have h32 : KeyUsageCertSign = 2 ^ 5 := rfl
  rw [h32]
  constructor
  · intro h
    have := Nat.testBit_and n (2 ^ 5) 5
    rw [h, Nat.testBit_two_pow_self] at this
    simpa using this.symm
  · intro h
    apply Nat.eq_of_testBit_eq
    intro i
    rw [Nat.testBit_and, Nat.zero_testBit]
    by_cases hi : 5 = i
    · subst hi; simp [h]
    · simp [Nat.testBit_two_pow_of_ne hi]

theorem setMode_ok_iff {K : Type} (s : PKCS7Signer K) (mode : Bytes) :
    (∃ s', setMode s mode = .ok s') ↔
      (mode = lit "add-on" ∨ mode = lit "extension" ∨ mode = lit "system add-on" ∨
        mode = lit "hotfix") := by
  unfold setMode
  by_cases h1 : mode = ModeAddOn
  · simp only [h1, if_true]
    exact ⟨fun _ => Or.inl rfl, fun _ => ⟨_, rfl⟩⟩
  · by_cases h2 : mode = ModeExtension
    · simp only [h1, h2, if_true, if_false]
      exact ⟨fun _ => Or.inr (Or.inl rfl), fun _ => ⟨_, rfl⟩⟩
    · by_cases h3 : mode = ModeSystemAddOn
      · simp only [h1, h2, h3, if_true, if_false]
        exact ⟨fun _ => Or.inr (Or.inr (Or.inl rfl)), fun _ => ⟨_, rfl⟩⟩
      · by_cases h4 : mode = ModeHotFix
        · simp only [h1, h2, h3, h4, if_true, if_false]
          exact ⟨fun _ => Or.inr (Or.inr (Or.inr rfl)), fun _ => ⟨_, rfl⟩⟩
        · simp only [h1, h2, h3, h4, if_false]
          constructor
          · rintro ⟨s', hs⟩; simp at hs
          · rintro (h | h | h | h)
            · exact absurd h h1
            · exact absurd h h2
            · exact absurd h h3
            · exact absurd h h4

theorem setMode_fields {K : Type} (s s' : PKCS7Signer K) (mode : Bytes)
    (h : setMode s mode = .ok s') :
    s'.toConfiguration = s.toConfiguration ∧ s'.issuerKey = s.issuerKey ∧
    s'.issuerCert = s.issuerCert ∧ s'.rsaCache = s.rsaCache ∧
    s'.OU = (if mode = lit "add-on" then lit "Production"
      else if mode = lit "extension" then lit "Mozilla Extensions"
      else if mode = lit "system add-on" then lit "Mozilla Components"
      else lit "Production") ∧
    s'.EndEntityCN = (if mode = lit "add-on" ∨ mode = lit "extension" ∨
        mode = lit "system add-on" then s.EndEntityCN
      else lit "firefox-hotfix@mozilla.org") := by
  unfold setMode at h
  have e1 : ModeAddOn = lit "add-on" := rfl
  have e2 : ModeExtension = lit "extension" := rfl
  have e3 : ModeSystemAddOn = lit "system add-on" := rfl
  have e4 : ModeHotFix = lit "hotfix" := rfl
  rw [e1, e2, e3, e4] at h
  by_cases h1 : mode = lit "add-on"
  · rw [if_pos h1] at h
    simp only [Except.ok.injEq] at h
    subst h
    refine ⟨rfl, rfl, rfl, rfl, ?_, ?_⟩
    · rw [if_pos h1]
    · rw [if_pos (Or.inl h1)]
  · rw [if_neg h1] at h
    by_cases h2 : mode = lit "extension"
    · rw [if_pos h2] at h
      simp only [Except.ok.injEq] at h
      subst h
      refine ⟨rfl, rfl, rfl, rfl, ?_, ?_⟩
      · rw [if_neg h1, if_pos h2]
      · rw [if_pos (Or.inr (Or.inl h2))]
    · rw [if_neg h2] at h
      by_cases h3 : mode = lit "system add-on"
      · rw [if_pos h3] at h
        simp only [Except.ok.injEq] at h
        subst h
        refine ⟨rfl, rfl, rfl, rfl, ?_, ?_⟩
        · rw [if_neg h1, if_neg h2, if_pos h3]
        · rw [if_pos (Or.inr (Or.inr h3))]
      · rw [if_neg h3] at h
        by_cases h4 : mode = lit "hotfix"
        · rw [if_pos h4] at h
          simp only [Except.ok.injEq] at h
          subst h
          refine ⟨rfl, rfl, rfl, rfl, ?_, ?_⟩
          · rw [if_neg h1, if_neg h2, if_neg h3]
          · rw [if_neg (by simp [h1, h2, h3])]
        · rw [if_neg h4] at h
          simp at h

/-- What a successful `New` has checked and what it returns, for the two
readings `now₁`, `now₂` of the clock. -/
theorem New_ok {K : Type} (kl : KeyLib K) (x : X509Lib) (now₁ now₂ : Int)
    (conf : Configuration) (s : PKCS7Signer K) (h : New kl x now₁ now₂ conf = .ok s) :
    ∃ key block cert s₁,
      conf.Type' = lit "xpi" ∧ conf.ID ≠ [] ∧ conf.PrivateKey ≠ [] ∧
      kl.ParsePrivateKey conf.PrivateKey = .ok key ∧
      kl.pemDecode conf.Certificate = some block ∧ x.ParseCertificate block = .ok cert ∧
      cert.IsCA = true ∧ cert.NotBefore ≤ now₁ ∧ now₂ ≤ cert.NotAfter ∧
      cert.KeyUsage.testBit 5 = true ∧ ExtKeyUsageCodeSigning ∈ cert.ExtKeyUsage ∧
      setMode { PKCS7Signer.zero K with
          Type' := conf.Type', ID := conf.ID, PrivateKey := conf.PrivateKey,
          issuerKey := some key, issuerCert := some cert } conf.Mode = .ok s₁ ∧
      s = { s₁ with Mode := conf.Mode,
                    rsaCache := match kl.rsaBitLen key with
                      | some _ => some 100
                      | none => s₁.rsaCache } := by
  unfold New at h
  simp only at h
  split at h
  · simp at h
  rename_i hty
  split at h
  · simp at h
  rename_i hid
  split at h
  · simp at h
  rename_i hpk
  split at h
  · simp at h
  rename_i key hkey
  split at h
  · simp at h
  rename_i block hblock
  split at h
  · simp at h
  rename_i cert hcert
  split at h
  · simp at h
  rename_i hca
  split at h
  · simp at h
  rename_i htime
  split at h
  · simp at h
  rename_i hku
  split at h
  · simp at h
  rename_i heku
  split at h
  · simp at h
  rename_i s₁ hs₁
  refine ⟨key, block, cert, s₁, ?_, hid, hpk, hkey, hblock, hcert, ?_, ?_, ?_, ?_, ?_, hs₁, ?_⟩
  · simpa [Type'] using hty
  · simpa using hca
  · simp only [Bool.or_eq_true, decide_eq_true_eq, not_or, not_lt] at htime
    exact htime.1
  · simp only [Bool.or_eq_true, decide_eq_true_eq, not_or, not_lt] at htime
    exact htime.2
  · have := (and_certSign_eq_zero_iff cert.KeyUsage).not.1 hku
    simpa using this
  · simpa using heku
  · split at h <;> simp only [Except.ok.injEq] at h <;> rw [← h]
theorem New_accepts {K : Type} (kl : KeyLib K) (x : X509Lib) (now₁ now₂ : Int)
    (conf : Configuration) (key : K) (block : Bytes) (cert : Certificate)
    (hty : conf.Type' = lit "xpi") (hid : conf.ID ≠ []) (hpk : conf.PrivateKey ≠ [])
    (hkey : kl.ParsePrivateKey conf.PrivateKey = .ok key)
    (hblock : kl.pemDecode conf.Certificate = some block)
    (hcert : x.ParseCertificate block = .ok cert) (hca : cert.IsCA = true)
    (hnb : cert.NotBefore ≤ now₁) (hna : now₂ ≤ cert.NotAfter)
    (hku : cert.KeyUsage.testBit 5 = true) (heku : ExtKeyUsageCodeSigning ∈ cert.ExtKeyUsage)
    (hmode : conf.Mode = lit "add-on" ∨ conf.Mode = lit "extension" ∨
      conf.Mode = lit "system add-on" ∨ conf.Mode = lit "hotfix") :
    ∃ s, New kl x now₁ now₂ conf = .ok s := by
  have hty' : conf.Type' = Type' := hty
  have hku' : ¬ cert.KeyUsage &&& KeyUsageCertSign = 0 := by
    rw [and_certSign_eq_zero_iff]; simp [hku]
  have htime : (decide (now₁ < cert.NotBefore) || decide (now₂ > cert.NotAfter)) = false := by
    simp only [Bool.or_eq_false_iff, decide_eq_false_iff_not, not_lt, gt_iff_lt]
    exact ⟨hnb, hna⟩
  have heku' : (cert.ExtKeyUsage.any fun eku => decide (eku = ExtKeyUsageCodeSigning)) = true := by
    simpa using heku
  unfold New
  simp only [hty', ne_eq, not_true_eq_false, if_false, hid, hpk, hkey, hblock, hcert, hca,
    Bool.not_true, Bool.false_eq_true, htime, hku', heku']
  split
  · rename_i err herr
    obtain ⟨s₁, hs₁⟩ := (setMode_ok_iff _ conf.Mode).2 hmode
    rw [hs₁] at herr
    simp at herr
  · cases kl.rsaBitLen key <;> exact ⟨_, rfl⟩

theorem New_error_iff {K : Type} (kl : KeyLib K) (x : X509Lib) (now₁ now₂ : Int)
    (conf : Configuration) :
    (∃ err, New kl x now₁ now₂ conf = .error err) ↔ ¬ ∃ s, New kl x now₁ now₂ conf = .ok s := by
  cases New kl x now₁ now₂ conf <;> simp

/-- C14: construction fails closed. For every configuration and current time,
`New` returns a signer and no error iff the type is `xpi`, the ID is not empty,
the private key is not empty and parses, the certificate PEM decodes and parses
as X.509, the certificate has IsCA set, the current time is within
`[NotBefore, NotAfter]`, the key usage includes CertSign, the extended key usages
include CodeSigning and the mode is one of the four; in every other case it
returns an error and no signer. The errors for IsCA false, for a time outside
the validity window and for a missing CodeSigning usage are pairwise distinct. -/
theorem New_fails_closed {K : Type} (kl : KeyLib K) (x : X509Lib) (now : Int)
    (conf : Configuration) :
    ((∃ s, New kl x now now conf = .ok s) ↔ validConfiguration kl x now conf) ∧
    ((∃ err, New kl x now now conf = .error err) ↔ ¬ validConfiguration kl x now conf) ∧
    (∀ key block cert, conf.Type' = lit "xpi" → conf.ID ≠ [] → conf.PrivateKey ≠ [] →
      kl.ParsePrivateKey conf.PrivateKey = .ok key →
      kl.pemDecode conf.Certificate = some block → x.ParseCertificate block = .ok cert →
      (cert.IsCA = false → New kl x now now conf =
        .error (.new "xpi: signer certificate must have CA constraint set to true")) ∧
      (cert.IsCA = true → (now < cert.NotBefore ∨ cert.NotAfter < now) →
        New kl x now now conf = .error (.new "xpi: signer certificate is not currently valid")) ∧
      (cert.IsCA = true → cert.NotBefore ≤ now → now ≤ cert.NotAfter →
        cert.KeyUsage.testBit 5 = true → ExtKeyUsageCodeSigning ∉ cert.ExtKeyUsage →
        New kl x now now conf =
          .error (.new "xpi: signer certificate does not have code signing EKU"))) ∧
    (Error.new "xpi: signer certificate must have CA constraint set to true" ≠
        Error.new "xpi: signer certificate is not currently valid" ∧
      Error.new "xpi: signer certificate must have CA constraint set to true" ≠
        Error.new "xpi: signer certificate does not have code signing EKU" ∧
      Error.new "xpi: signer certificate is not currently valid" ≠
        Error.new "xpi: signer certificate does not have code signing EKU") := by
  have key : (∃ s, New kl x now now conf = .ok s) ↔ validConfiguration kl x now conf := by
    constructor
    · rintro ⟨s, hs⟩
      obtain ⟨key, block, cert, s₁, h1, h2, h3, h4, h5, h6, h7, h8, h9, h10, h11, h12, _⟩ :=
        New_ok kl x now now conf s hs
      exact ⟨h1, h2, h3, ⟨key, h4⟩, ⟨block, cert, h5, h6, h7, h8, h9, h10, h11⟩,
        (setMode_ok_iff _ _).1 ⟨s₁, h12⟩⟩
    · rintro ⟨h1, h2, h3, ⟨key, h4⟩, ⟨block, cert, h5, h6, h7, h8, h9, h10, h11⟩, h12⟩
      exact New_accepts kl x now now conf key block cert h1 h2 h3 h4 h5 h6 h7 h8 h9 h10 h11 h12
  refine ⟨key, ?_, ?_, by decide, by decide, by decide⟩
  · rw [New_error_iff, key]
  · intro k block cert hty hid hpk hkey hblock hcert
    have hty' : conf.Type' = Type' := hty
    refine ⟨?_, ?_, ?_⟩
    · intro hca
      unfold New
      simp [hty', hid, hpk, hkey, hblock, hcert, hca]
    · intro hca ht
      have htime : (decide (now < cert.NotBefore) || decide (now > cert.NotAfter)) = true := by
        simpa using ht
      unfold New
      simp only [hty', ne_eq, not_true_eq_false, if_false, hid, hpk, hkey, hblock, hcert, hca,
        Bool.not_true, Bool.false_eq_true, htime, if_true]
    · intro hca hnb hna hku heku
      have hku' : ¬ cert.KeyUsage &&& KeyUsageCertSign = 0 := by
        rw [and_certSign_eq_zero_iff]; simp [hku]
      have htime : (decide (now < cert.NotBefore) || decide (now > cert.NotAfter)) = false := by
        simp only [Bool.or_eq_false_iff, decide_eq_false_iff_not, not_lt, gt_iff_lt]
        exact ⟨hnb, hna⟩
      have heku' : (cert.ExtKeyUsage.any fun eku => decide (eku = ExtKeyUsageCodeSigning)) =
          false := by
        simp only [List.any_eq_false, decide_eq_true_eq]
        intro e he hee
        exact heku (hee ▸ he)
      unfold New
      simp only [hty', ne_eq, not_true_eq_false, if_false, hid, hpk, hkey, hblock, hcert, hca,
        Bool.not_true, Bool.false_eq_true, htime, hku', heku', Bool.not_false, if_true]

/-- C15: for every configuration accepted by `New`, the two derived fields of
the signer are determined by the mode alone: OU is `Production` for add-on,
`Mozilla Extensions` for extension, `Mozilla Components` for system add-on and
`Production` for hotfix; EndEntityCN is `firefox-hotfix@mozilla.org` for hotfix
and empty for the three other modes. -/
theorem New_mode_fields {K : Type} (kl : KeyLib K) (x : X509Lib) (now₁ now₂ : Int)
    (conf : Configuration) (s : PKCS7Signer K) (h : New kl x now₁ now₂ conf = .ok s) :
    (conf.Mode = lit "add-on" → s.OU = lit "Production" ∧ s.EndEntityCN = []) ∧
    (conf.Mode = lit "extension" → s.OU = lit "Mozilla Extensions" ∧ s.EndEntityCN = []) ∧
    (conf.Mode = lit "system add-on" →
      s.OU = lit "Mozilla Components" ∧ s.EndEntityCN = []) ∧
    (conf.Mode = lit "hotfix" →
      s.OU = lit "Production" ∧ s.EndEntityCN = lit "firefox-hotfix@mozilla.org") ∧
    (conf.Mode = lit "add-on" ∨ conf.Mode = lit "extension" ∨
      conf.Mode = lit "system add-on" ∨ conf.Mode = lit "hotfix") := by
  obtain ⟨key, block, cert, s₁, _, _, _, _, _, _, _, _, _, _, _, hs₁, hs⟩ :=
    New_ok kl x now₁ now₂ conf s h
  obtain ⟨_, _, _, _, hou, hcn⟩ := setMode_fields _ s₁ conf.Mode hs₁
  have hou' : s.OU = s₁.OU := by rw [hs]
  have hcn' : s.EndEntityCN = s₁.EndEntityCN := by rw [hs]
  rw [← hou'] at hou
  rw [← hcn'] at hcn
  have d12 : lit "extension" ≠ lit "add-on" := by decide
  have d13 : lit "system add-on" ≠ lit "add-on" := by decide
  have d14 : lit "hotfix" ≠ lit "add-on" := by decide
  have d23 : lit "system add-on" ≠ lit "extension" := by decide
  have d24 : lit "hotfix" ≠ lit "extension" := by decide
  have d34 : lit "hotfix" ≠ lit "system add-on" := by decide
  refine ⟨?_, ?_, ?_, ?_, (setMode_ok_iff _ _).1 ⟨s₁, hs₁⟩⟩
  · intro hm
    rw [hm] at hou hcn
    exact ⟨by simpa using hou, by simpa [PKCS7Signer.zero] using hcn⟩
  · intro hm
    rw [hm] at hou hcn
    exact ⟨by simpa [d12] using hou, by simpa [PKCS7Signer.zero] using hcn⟩
  · intro hm
    rw [hm] at hou hcn
    exact ⟨by simpa [d13, d23] using hou, by simpa [PKCS7Signer.zero] using hcn⟩
  · intro hm
    rw [hm] at hou hcn
    exact ⟨by simpa [d14, d24, d34] using hou, by simpa [d14, d24, d34] using hcn⟩

/-- Witness of C15, at the sample configuration (mode add-on) and the time 50. -/
theorem New_mode_fields_witness :
    New exampleKeys exampleX509 50 50 sampleConf = .ok sampleBuilt ∧
    ((sampleConf.Mode = lit "add-on" →
      sampleBuilt.OU = lit "Production" ∧ sampleBuilt.EndEntityCN = []) ∧
    (sampleConf.Mode = lit "extension" →
      sampleBuilt.OU = lit "Mozilla Extensions" ∧ sampleBuilt.EndEntityCN = []) ∧
    (sampleConf.Mode = lit "system add-on" →
      sampleBuilt.OU = lit "Mozilla Components" ∧ sampleBuilt.EndEntityCN = []) ∧
    (sampleConf.Mode = lit "hotfix" →
      sampleBuilt.OU = lit "Production" ∧
      sampleBuilt.EndEntityCN = lit "firefox-hotfix@mozilla.org") ∧
    (sampleConf.Mode = lit "add-on" ∨ sampleConf.Mode = lit "extension" ∨
      sampleConf.Mode = lit "system add-on" ∨ sampleConf.Mode = lit "hotfix")) :=
  ⟨by rfl, New_mode_fields exampleKeys exampleX509 50 50 sampleConf sampleBuilt (by rfl)⟩

/-! ## `Config` -/

/-- C16 (code bug): `New` copies the type, the ID, the private key and the mode
of the configuration into the signer but never the certificate, so for every
configuration `New` accepts, `Config` returns its ID, Type, Mode and PrivateKey
and an empty Certificate in place of the certificate of the configuration. -/
theorem Config_after_New {K : Type} (kl : KeyLib K) (x : X509Lib) (now₁ now₂ : Int)
    (conf : Configuration) (s : PKCS7Signer K) (h : New kl x now₁ now₂ conf = .ok s) :
    s.Config.ID = conf.ID ∧ s.Config.Type' = conf.Type' ∧ s.Config.Mode = conf.Mode ∧
    s.Config.PrivateKey = conf.PrivateKey ∧ s.Config.Certificate = [] := by
  obtain ⟨key, block, cert, s₁, _, _, _, _, _, _, _, _, _, _, _, hs₁, hs⟩ :=
    New_ok kl x now₁ now₂ conf s h
  obtain ⟨hc, _, _, _, _, _⟩ := setMode_fields _ s₁ conf.Mode hs₁
  have h1 : s.ID = s₁.ID := by rw [hs]
  have h2 : s.Type' = s₁.Type' := by rw [hs]
  have h3 : s.Mode = conf.Mode := by rw [hs]
  have h4 : s.PrivateKey = s₁.PrivateKey := by rw [hs]
  have h5 : s.Certificate = s₁.Certificate := by rw [hs]
  have g1 : s₁.ID = conf.ID := by
    have := congrArg Configuration.ID hc; simpa using this
  have g2 : s₁.Type' = conf.Type' := by
    have := congrArg Configuration.Type' hc; simpa using this
  have g4 : s₁.PrivateKey = conf.PrivateKey := by
    have := congrArg Configuration.PrivateKey hc; simpa using this
  have g5 : s₁.Certificate = [] := by
    have := congrArg Configuration.Certificate hc; simpa [PKCS7Signer.zero] using this
  simp only [PKCS7Signer.Config]
  exact ⟨h1.trans g1, h2.trans g2, h3, h4.trans g4, h5.trans g5⟩

/-- Witness of C16, the failing input: `New` accepts the sample configuration,
whose certificate is `ca-cert`, and `Config` of the signer it returns has the
empty certificate. -/
theorem Config_after_New_witness :
    New exampleKeys exampleX509 50 50 sampleConf = .ok sampleBuilt ∧
    sampleConf.Certificate = lit "ca-cert" ∧ sampleBuilt.Config.Certificate ≠ sampleConf.Certificate ∧
    (sampleBuilt.Config.ID = sampleConf.ID ∧ sampleBuilt.Config.Type' = sampleConf.Type' ∧
      sampleBuilt.Config.Mode = sampleConf.Mode ∧
      sampleBuilt.Config.PrivateKey = sampleConf.PrivateKey ∧
      sampleBuilt.Config.Certificate = []) :=
  ⟨by rfl, by rfl, by decide,
    Config_after_New exampleKeys exampleX509 50 50 sampleConf sampleBuilt (by rfl)⟩

/-! ## `isValidCOSESignature` -/

theorem HeaderMap.get_eq_none_iff (m : HeaderMap) (k : Value) :
    m.get k = none ↔ k ∉ m.keys := by
  unfold HeaderMap.get HeaderMap.keys
  simp only [Option.map_eq_none', List.find?_eq_none, decide_eq_true_eq, List.mem_map,
    not_exists, not_and]

theorem HeaderMap.mem_keys_of_get (m : HeaderMap) (k v : Value) (h : m.get k = some v) :
    k ∈ m.keys := by
  by_contra hk
  rw [(HeaderMap.get_eq_none_iff m k).2 hk] at h
  simp at h

theorem HeaderMap.two_keys (m : HeaderMap) (a b : Value) (hab : a ≠ b) (hlen : m.len = 2)
    (ha : a ∈ m.keys) (hb : b ∈ m.keys) : ∀ k, k ∈ m.keys ↔ (k = a ∨ k = b) := by
  obtain ⟨entries, nodup⟩ := m
  simp only [HeaderMap.len, HeaderMap.keys] at *
  match entries, hlen with
  | [e1, e2], _ =>
    simp only [List.map_cons, List.map_nil, List.mem_cons, List.mem_singleton,
      List.not_mem_nil, or_false, List.nodup_cons, List.nodup_nil, and_true,
      not_false_eq_true] at *
    intro k
    rcases ha with ha | ha <;> rcases hb with hb | hb
    · exact absurd (ha.trans hb.symm) hab
    · rw [← ha, ← hb]
    · rw [← ha, ← hb]; exact or_comm
    · exact absurd (ha.trans hb.symm) hab

theorem HeaderMap.one_key (m : HeaderMap) (a : Value) (hlen : m.len = 1) (ha : a ∈ m.keys) :
    ∀ k, k ∈ m.keys ↔ k = a := by
  obtain ⟨entries, nodup⟩ := m
  simp only [HeaderMap.len, HeaderMap.keys] at *
  match entries, hlen with
  | [e1], _ =>
    simp only [List.map_cons, List.map_nil, List.mem_singleton] at *
    intro k
    rw [ha]

theorem isSupportedCOSEAlgValue_iff (v : Value) :
    isSupportedCOSEAlgValue v = true ↔
      ∃ alg, v = .int alg ∧ (alg = cose.PS256.Value ∨ alg = cose.ES256.Value ∨
        alg = cose.ES384.Value ∨ alg = cose.ES512.Value) := by
  unfold isSupportedCOSEAlgValue
  simp only [Bool.or_eq_true, decide_eq_true_eq]
  constructor
  · rintro (((h | h) | h) | h)
    · exact ⟨_, h, Or.inl rfl⟩
    · exact ⟨_, h, Or.inr (Or.inl rfl)⟩
    · exact ⟨_, h, Or.inr (Or.inr (Or.inl rfl))⟩
    · exact ⟨_, h, Or.inr (Or.inr (Or.inr rfl))⟩
  · rintro ⟨alg, rfl, h | h | h | h⟩ <;> simp [h]

theorem isValidCOSESignature_ok (x : X509Lib) (sig : cose.Signature) (cert : Certificate) :
    isValidCOSESignature x sig = .ok cert ↔ signerRecordRule x sig cert := by
  unfold isValidCOSESignature signerRecordRule
  by_cases hu : sig.Headers.Unprotected.len = 0
  swap
  · simp [hu]
  by_cases hp : sig.Headers.Protected.len = 2
  swap
  · simp [hu, hp]
  simp only [hu, hp, ne_eq, not_true_eq_false, if_false, true_and]
  cases halg : sig.Headers.Protected.get (.int 1) with
  | none => simp
  | some algValue =>
    simp only
    by_cases hs : isSupportedCOSEAlgValue algValue = true
    swap
    · have hs' : ¬ ∃ alg, algValue = .int alg ∧ (alg = cose.PS256.Value ∨
          alg = cose.ES256.Value ∨ alg = cose.ES384.Value ∨ alg = cose.ES512.Value) :=
        fun h => hs ((isSupportedCOSEAlgValue_iff algValue).2 h)
      simp only [hs, Bool.not_false, if_true, reduceCtorEq, false_iff, not_and]
      intro _ h
      obtain ⟨alg, h1, h2⟩ := h
      simp only [Option.some.injEq] at h1
      exact absurd ⟨alg, h1, h2⟩ hs'
    have hs2 := (isSupportedCOSEAlgValue_iff algValue).1 hs
    simp only [hs, Bool.not_true, Bool.false_eq_true, if_false]
    cases hkid : sig.Headers.Protected.get (.int 4) with
    | none => simp
    | some kidValue =>
      have hkeys := HeaderMap.two_keys sig.Headers.Protected (.int 1) (.int 4) (by decide) hp
        (HeaderMap.mem_keys_of_get _ _ _ halg) (HeaderMap.mem_keys_of_get _ _ _ hkid)
      cases kidValue with
      | bytes kidBytes =>
        simp only
        cases hparse : x.ParseCertificate kidBytes with
        | error e => simp [hparse]
        | ok c =>
          simp only [Except.ok.injEq, Option.some.injEq, Value.bytes.injEq, exists_eq_left']
          constructor
          · rintro rfl
            refine ⟨hkeys, ?_, hparse⟩
            obtain ⟨alg, h1, h2⟩ := hs2
            exact ⟨alg, by rw [h1], h2⟩
          · rintro ⟨_, _, h⟩
            rw [hparse] at h
            simpa using h
      | int n => simp
      | array items => simp
      | other d => simp

/-- C17: for every COSE signer record, `isValidCOSESignature` returns a
certificate and no error iff the unprotected header map is empty, the protected
header map has exactly two keys, which are alg (key 1) and kid (key 4), the alg
value is one of the values of PS256, ES256, ES384 or ES512, and the kid value is
a byte blob that decodes as a well-formed X.509 certificate; the certificate
returned is the decoding of that kid value; in every other case an error is
returned. -/
theorem isValidCOSESignature_iff (x : X509Lib) (sig : cose.Signature) :
    (∀ cert, isValidCOSESignature x sig = .ok cert ↔
      (sig.Headers.Unprotected.len = 0 ∧ sig.Headers.Protected.len = 2 ∧
        (∀ k, k ∈ sig.Headers.Protected.keys ↔ (k = .int 1 ∨ k = .int 4)) ∧
        (∃ alg, sig.Headers.Protected.get (.int 1) = some (.int alg) ∧
          (alg = cose.PS256.Value ∨ alg = cose.ES256.Value ∨ alg = cose.ES384.Value ∨
            alg = cose.ES512.Value)) ∧
        ∃ kid, sig.Headers.Protected.get (.int 4) = some (.bytes kid) ∧
          x.ParseCertificate kid = .ok cert)) ∧
    ((∃ err, isValidCOSESignature x sig = .error err) ↔
      ¬ ∃ cert, signerRecordRule x sig cert) := by
  refine ⟨fun cert => isValidCOSESignature_ok x sig cert, ?_⟩
  simp only [← isValidCOSESignature_ok]
  cases isValidCOSESignature x sig <;> simp

/-! ## `isValidCOSEMessage` -/

theorem forall₂_exists_iff {α β : Type} (R : α → β → Prop) (l : List α) :
    (∃ l', List.Forall₂ R l l') ↔ ∀ a ∈ l, ∃ b, R a b := by
  induction l with
  | nil => simp
  | cons a l ih =>
    constructor
    · rintro ⟨l', h⟩
      cases h with
      | cons hab ht =>
        intro a' ha'
        rcases List.mem_cons.1 ha' with rfl | hmem
        · exact ⟨_, hab⟩
        · exact (ih.1 ⟨_, ht⟩) a' hmem
    · intro h
      obtain ⟨b, hb⟩ := h a (List.mem_cons_self _ _)
      obtain ⟨l', hl'⟩ := ih.2 fun a' ha' => h a' (List.mem_cons_of_mem _ ha')
      exact ⟨b :: l', List.Forall₂.cons hb hl'⟩

theorem kidLoop_ok (x : X509Lib) (items : List Item) (i : Nat) (certs out : List Certificate) :
    kidLoop x items i certs = (out, none) ↔
      ∃ new, out = certs ++ new ∧
        List.Forall₂ (fun item cert => ∃ b, item = .bytes b ∧ x.ParseCertificate b = .ok cert)
          items new := by
  induction items generalizing i certs with
  | nil =>
    simp only [kidLoop, Prod.mk.injEq, and_true, List.forall₂_nil_left_iff, exists_eq_right,
      List.append_nil]
    exact eq_comm
  | cons item rest ih =>
    cases item with
    | other d => simp [kidLoop, List.forall₂_cons_left_iff]
    | bytes b =>
      unfold kidLoop
      cases hp : x.ParseCertificate b with
      | error e =>
        simp only [Prod.mk.injEq, reduceCtorEq, and_false, false_iff, not_exists, not_and]
        intro new _ h
        cases h with
        | cons hab _ =>
          obtain ⟨b', hb', hparse⟩ := hab
          cases hb'
          rw [hp] at hparse
          simp at hparse
      | ok c =>
        simp only
        rw [ih]
        constructor
        · rintro ⟨new, hout, h⟩
          exact ⟨c :: new, by simp [hout], List.Forall₂.cons ⟨b, rfl, hp⟩ h⟩
        · rintro ⟨new, hout, h⟩
          cases h with
          | cons hab ht =>
            obtain ⟨b', hb', hparse⟩ := hab
            cases hb'
            rw [hp] at hparse
            cases hparse
            exact ⟨_, by simp [hout], ht⟩

theorem signatureLoop_ok (x : X509Lib) (sigs : List cose.Signature) (i : Nat)
    (certs out : List Certificate) :
    signatureLoop x sigs i certs = (out, none) ↔
      ∃ new, out = certs ++ new ∧
        List.Forall₂ (fun sig cert => isValidCOSESignature x sig = .ok cert) sigs new := by
  induction sigs generalizing i certs with
  | nil =>
    simp only [signatureLoop, Prod.mk.injEq, and_true, List.forall₂_nil_left_iff,
      exists_eq_right, List.append_nil]
    exact eq_comm
  | cons sig rest ih =>
    unfold signatureLoop
    cases hp : isValidCOSESignature x sig with
    | error e =>
      simp only [Prod.mk.injEq, reduceCtorEq, and_false, false_iff, not_exists, not_and]
      intro new _ h
      cases h with
      | cons hab _ =>
        rw [hp] at hab
        simp at hab
    | ok c =>
      simp only
      rw [ih]
      constructor
      · rintro ⟨new, hout, h⟩
        exact ⟨c :: new, by simp [hout], List.Forall₂.cons hp h⟩
      · rintro ⟨new, hout, h⟩
        cases h with
        | cons hab ht =>
          rw [hp] at hab
          cases hab
          exact ⟨_, by simp [hout], ht⟩

theorem isValidCOSEMessage_ok (x : X509Lib) (msg : cose.SignMessage)
    (intermediateCerts eeCerts : List Certificate) :
    isValidCOSEMessage x msg = (intermediateCerts, eeCerts, none) ↔
      (msg.Payload = none ∧ msg.Headers.Unprotected.len = 0 ∧ msg.Headers.Protected.len = 1 ∧
        ∃ kidArray, msg.Headers.Protected.get (.int 4) = some (.array kidArray) ∧
          List.Forall₂
            (fun item cert => ∃ b, item = .bytes b ∧ x.ParseCertificate b = .ok cert)
            kidArray intermediateCerts ∧
          List.Forall₂ (fun sig cert => isValidCOSESignature x sig = .ok cert)
            msg.Signatures eeCerts) := by
  unfold isValidCOSEMessage
  cases hpay : msg.Payload with
  | some p => simp
  | none =>
    by_cases hu : msg.Headers.Unprotected.len = 0
    swap
    · simp [hu]
    by_cases hp : msg.Headers.Protected.len = 1
    swap
    · simp [hu, hp]
    simp only [hu, hp, ne_eq, not_true_eq_false, if_false, true_and]
    cases hkid : msg.Headers.Protected.get (.int 4) with
    | none => simp
    | some kidValue =>
      cases kidValue with
      | int n => simp
      | bytes b => simp
      | other d => simp
      | array kidArray =>
        simp only [Option.some.injEq, Value.array.injEq, exists_eq_left']
        rcases hk : kidLoop x kidArray 0 [] with ⟨ic, _ | e⟩
        · have hk' := (kidLoop_ok x kidArray 0 [] ic).1 hk
          simp only [List.nil_append, exists_eq_left'] at hk'
          rcases hs : signatureLoop x msg.Signatures 0 [] with ⟨ec, _ | e⟩
          · have hs' := (signatureLoop_ok x msg.Signatures 0 [] ec).1 hs
            simp only [List.nil_append, exists_eq_left'] at hs'
            simp only [Prod.mk.injEq, and_true]
            constructor
            · rintro ⟨rfl, rfl⟩; exact ⟨hk', hs'⟩
            · rintro ⟨h1, h2⟩
              have e1 := (kidLoop_ok x kidArray 0 [] intermediateCerts).2 ⟨_, by simp, h1⟩
              have e2 := (signatureLoop_ok x msg.Signatures 0 [] eeCerts).2 ⟨_, by simp, h2⟩
              rw [hk] at e1
              rw [hs] at e2
              simp only [Prod.mk.injEq, and_true] at e1 e2
              exact ⟨e1, e2⟩
          · simp only [Prod.mk.injEq, reduceCtorEq, and_false, false_iff, not_and]
            intro _ h2
            have e2 := (signatureLoop_ok x msg.Signatures 0 [] eeCerts).2 ⟨_, by simp, h2⟩
            rw [hs] at e2
            simp at e2
        · simp only [Prod.mk.injEq, reduceCtorEq, and_false, false_iff, not_and]
          intro h1
          have e1 := (kidLoop_ok x kidArray 0 [] intermediateCerts).2 ⟨_, by simp, h1⟩
          rw [hk] at e1
          simp at e1

theorem isValidCOSEMessage_error_eq_none (x : X509Lib) (msg : cose.SignMessage) :
    (isValidCOSEMessage x msg).2.2 = none ↔
      ∃ intermediateCerts eeCerts,
        isValidCOSEMessage x msg = (intermediateCerts, eeCerts, none) := by
  constructor
  · intro h
    exact ⟨(isValidCOSEMessage x msg).1, (isValidCOSEMessage x msg).2.1, by
      rw [← h]⟩
  · rintro ⟨a, b, h⟩
    rw [h]

/-- C18: for every COSE SignMessage, `isValidCOSEMessage` returns no error iff
the payload is nil, the outer unprotected header map is empty, the outer
protected header map has exactly one key, which is kid (key 4), holding an array
whose every element is a byte blob that decodes as a well-formed X.509
certificate, and every signer record passes `isValidCOSESignature`; it returns
without error the lists `intermediateCerts` and `eeCerts` iff moreover the
intermediate certificates are the decodings of the kid array elements, in
order, and the end entity certificates are those of the signer records, one
for each, in signer order. -/
theorem isValidCOSEMessage_iff (x : X509Lib) (msg : cose.SignMessage) :
    ((isValidCOSEMessage x msg).2.2 = none ↔
      (msg.Payload = none ∧ msg.Headers.Unprotected.len = 0 ∧
        msg.Headers.Protected.len = 1 ∧
        (∀ k, k ∈ msg.Headers.Protected.keys ↔ k = .int 4) ∧
        ∃ kidArray, msg.Headers.Protected.get (.int 4) = some (.array kidArray) ∧
          (∀ item ∈ kidArray, ∃ cert b, item = .bytes b ∧ x.ParseCertificate b = .ok cert) ∧
          ∀ sig ∈ msg.Signatures, ∃ cert, isValidCOSESignature x sig = .ok cert)) ∧
    (∀ intermediateCerts eeCerts,
      isValidCOSEMessage x msg = (intermediateCerts, eeCerts, none) ↔
        (msg.Payload = none ∧ msg.Headers.Unprotected.len = 0 ∧
          msg.Headers.Protected.len = 1 ∧
          (∀ k, k ∈ msg.Headers.Protected.keys ↔ k = .int 4) ∧
          ∃ kidArray, msg.Headers.Protected.get (.int 4) = some (.array kidArray) ∧
            List.Forall₂
              (fun item cert => ∃ b, item = .bytes b ∧ x.ParseCertificate b = .ok cert)
              kidArray intermediateCerts ∧
            List.Forall₂ (fun sig cert => isValidCOSESignature x sig = .ok cert)
              msg.Signatures eeCerts ∧
            eeCerts.length = msg.Signatures.length)) := by
  have main : ∀ intermediateCerts eeCerts,
      isValidCOSEMessage x msg = (intermediateCerts, eeCerts, none) ↔
        (msg.Payload = none ∧ msg.Headers.Unprotected.len = 0 ∧
          msg.Headers.Protected.len = 1 ∧
          (∀ k, k ∈ msg.Headers.Protected.keys ↔ k = .int 4) ∧
          ∃ kidArray, msg.Headers.Protected.get (.int 4) = some (.array kidArray) ∧
            List.Forall₂
              (fun item cert => ∃ b, item = .bytes b ∧ x.ParseCertificate b = .ok cert)
              kidArray intermediateCerts ∧
            List.Forall₂ (fun sig cert => isValidCOSESignature x sig = .ok cert)
              msg.Signatures eeCerts ∧
            eeCerts.length = msg.Signatures.length) := by
    intro ic ec
    rw [isValidCOSEMessage_ok]
    constructor
    · rintro ⟨h1, h2, h3, kidArray, h4, h5, h6⟩
      exact ⟨h1, h2, h3,
        HeaderMap.one_key _ _ h3 (HeaderMap.mem_keys_of_get _ _ _ h4),
        kidArray, h4, h5, h6, h6.length_eq.symm⟩
    · rintro ⟨h1, h2, h3, _, kidArray, h4, h5, h6, _⟩
      exact ⟨h1, h2, h3, kidArray, h4, h5, h6⟩
  refine ⟨?_, main⟩
  rw [isValidCOSEMessage_error_eq_none]
  constructor
  · rintro ⟨ic, ec, h⟩
    obtain ⟨h1, h2, h3, hk, kidArray, h4, h5, h6, _⟩ := (main ic ec).1 h
    refine ⟨h1, h2, h3, hk, kidArray, h4, ?_, ?_⟩
    · intro item hitem
      obtain ⟨cert, b, hb⟩ := (forall₂_exists_iff _ kidArray).1 ⟨ic, h5⟩ item hitem |>.imp
        fun cert h => h
      exact ⟨cert, b, hb⟩
    · exact (forall₂_exists_iff _ msg.Signatures).1 ⟨ec, h6⟩
  · rintro ⟨h1, h2, h3, hk, kidArray, h4, h5, h6⟩
    obtain ⟨ic, hic⟩ := (forall₂_exists_iff
      (fun item cert => ∃ b, item = Item.bytes b ∧ x.ParseCertificate b = .ok cert) kidArray).2
      (fun item hitem => by
        obtain ⟨cert, b, hb⟩ := h5 item hitem
        exact ⟨cert, b, hb⟩)
    obtain ⟨ec, hec⟩ := (forall₂_exists_iff _ msg.Signatures).2 h6
    exact ⟨ic, ec, (main ic ec).2 ⟨h1, h2, h3, hk, kidArray, h4, hic, hec, hec.length_eq.symm⟩⟩

/-! ## `verifyCOSESignatures` -/

theorem contains_iff (s substr : Bytes) :
    Contains s substr = true ↔ ∃ a b, s = a ++ substr ++ b := by
  induction s with
  | nil =>
    simp only [Contains, hasPrefix_iff]
    constructor
    · rintro ⟨t, ht⟩
      exact ⟨[], t, by simpa using ht⟩
    · rintro ⟨a, b, h⟩
      have h' := h.symm
      simp only [List.append_eq_nil] at h'
      exact ⟨[], by simp [h'.1.2]⟩
  | cons c s ih =>
    simp only [Contains, Bool.or_eq_true, hasPrefix_iff, ih]
    constructor
    · rintro (⟨t, ht⟩ | ⟨a, b, h⟩)
      · exact ⟨[], t, by simpa using ht⟩
      · exact ⟨c :: a, b, by simp [h]⟩
    · rintro ⟨a, b, h⟩
      cases a with
      | nil => exact Or.inl ⟨b, by simpa using h⟩
      | cons a0 a' =>
        simp only [List.cons_append, List.cons.injEq] at h
        exact Or.inr ⟨a', b, h.2⟩

theorem verifyCOSESignatures_after_reads (zip : ZipLib) (cl : COSELib) (x : X509Lib)
    (signedFile : Bytes) (signOptions : Options) (coseManifest coseMsgBytes pkcs7Manifest : Bytes)
    (h1 : mustReadFileFromZIP zip signedFile (lit "META-INF/cose.manifest") =
      .returned coseManifest)
    (h2 : mustReadFileFromZIP zip signedFile (lit "META-INF/cose.sig") = .returned coseMsgBytes)
    (h3 : mustReadFileFromZIP zip signedFile (lit "META-INF/manifest.mf") =
      .returned pkcs7Manifest) :
    verifyCOSESignatures zip cl x signedFile signOptions =
      if !Contains pkcs7Manifest (lit "cose") then
        .returned (some (.formatted "pkcs7 manifest does not contain cose files: %s"
          [.bytes pkcs7Manifest]))
      else if Contains coseManifest (lit "cose") then
        .returned (some (.formatted "cose manifest contains cose files: %s"
          [.bytes coseManifest]))
      else
        match cl.Unmarshal coseMsgBytes with
        | .error err => .returned (some (.wrap err "error unmarshaling cose.sig"))
        | .ok (.other _) => .returned (some (.formatted "cose.sig not a SignMessage" []))
        | .ok (.signMessage coseMsg) =>
          if coseMsg.Signatures.length ≠ signOptions.COSEAlgorithms.length then
            .returned (some (.formatted "cose.sig contains %d signatures, but expected %d"
              [.int coseMsg.Signatures.length, .int signOptions.COSEAlgorithms.length]))
          else
            match (isValidCOSEMessage x coseMsg).2.2 with
            | some err =>
              .returned (some (.wrap err "cose.sig is not a valid COSE SignMessage"))
            | none => .returned none := by
  unfold verifyCOSESignatures
  rw [h1, h2, h3]
  rfl

/-- C19 (as the claim states it, refuted): the outer header of the bad message
has a non-empty unprotected header map and a protected header map of the wrong
size, and `isValidCOSEMessage` reports neither of the two: the message has a
payload, which is checked first. -/
theorem isValidCOSEMessage_payload_first_counterexample :
    badMessage.Headers.Unprotected.len ≠ 0 ∧ badMessage.Headers.Protected.len ≠ 1 ∧
    isValidCOSEMessage exampleX509 badMessage =
      ([], [], some (.formatted "Expected SignMessage payload to be nil, but got %+v"
        [.bytes (lit "x")])) := by
  refine ⟨by decide, by decide, by rfl⟩

/-- C19 (amended): the first failing gate decides the error. A signer record
with a non-empty unprotected header map gets the unprotected header error of
`isValidCOSESignature`, whatever its protected header map; a message without
payload and with a non-empty outer unprotected header map gets the unprotected
header error of `isValidCOSEMessage`, whatever its protected header map; a
message with a payload gets the payload error of `isValidCOSEMessage`, whatever
its two header maps (the payload is checked before both). In
`verifyCOSESignatures`, once the three artifacts are read and the two manifests
pass the cross-reference gate: an envelope that does not parse, or is no
SignMessage, gets the parse error; one whose number of signer records differs
from the number of requested algorithms gets the signature count error, whatever
structural rule it violates; and the structural error of `isValidCOSEMessage` is
reported only when the counts agree. -/
theorem gate_order :
    (∀ (x : X509Lib) (sig : cose.Signature), sig.Headers.Unprotected.len ≠ 0 →
      isValidCOSESignature x sig =
        .error (.formatted "XPI COSE Signature must have an empty Unprotected Header" [])) ∧
    (∀ (x : X509Lib) (msg : cose.SignMessage), msg.Payload = none →
      msg.Headers.Unprotected.len ≠ 0 →
      isValidCOSEMessage x msg =
        ([], [], some (.formatted
          "Expected SignMessage Unprotected headers to be empty, but got %+v"
          [.headers msg.Headers.Unprotected.entries]))) ∧
    (∀ (x : X509Lib) (msg : cose.SignMessage) (payload : Bytes), msg.Payload = some payload →
      isValidCOSEMessage x msg =
        ([], [], some (.formatted "Expected SignMessage payload to be nil, but got %+v"
          [.bytes payload]))) ∧
    (∀ (zip : ZipLib) (cl : COSELib) (x : X509Lib) (signedFile : Bytes) (signOptions : Options)
      (coseManifest coseMsgBytes pkcs7Manifest : Bytes),
      mustReadFileFromZIP zip signedFile (lit "META-INF/cose.manifest") =
        .returned coseManifest →
      mustReadFileFromZIP zip signedFile (lit "META-INF/cose.sig") = .returned coseMsgBytes →
      mustReadFileFromZIP zip signedFile (lit "META-INF/manifest.mf") =
        .returned pkcs7Manifest →
      Contains pkcs7Manifest (lit "cose") = true → Contains coseManifest (lit "cose") = false →
      (∀ err, cl.Unmarshal coseMsgBytes = .error err →
        verifyCOSESignatures zip cl x signedFile signOptions =
          .returned (some (.wrap err "error unmarshaling cose.sig"))) ∧
      (∀ desc, cl.Unmarshal coseMsgBytes = .ok (.other desc) →
        verifyCOSESignatures zip cl x signedFile signOptions =
          .returned (some (.formatted "cose.sig not a SignMessage" []))) ∧
      (∀ coseMsg, cl.Unmarshal coseMsgBytes = .ok (.signMessage coseMsg) →
        (coseMsg.Signatures.length ≠ signOptions.COSEAlgorithms.length →
          verifyCOSESignatures zip cl x signedFile signOptions =
            .returned (some (.formatted "cose.sig contains %d signatures, but expected %d"
              [.int coseMsg.Signatures.length, .int signOptions.COSEAlgorithms.length]))) ∧
        (coseMsg.Signatures.length = signOptions.COSEAlgorithms.length →
          ∀ err, (isValidCOSEMessage x coseMsg).2.2 = some err →
          verifyCOSESignatures zip cl x signedFile signOptions =
            .returned (some (.wrap err "cose.sig is not a valid COSE SignMessage"))) ∧
        (coseMsg.Signatures.length = signOptions.COSEAlgorithms.length →
          (isValidCOSEMessage x coseMsg).2.2 = none →
          verifyCOSESignatures zip cl x signedFile signOptions = .returned none))) := by
  refine ⟨?_, ?_, ?_, ?_⟩
  · intro x sig h
    simp [isValidCOSESignature, h]
  · intro x msg hp h
    simp [isValidCOSEMessage, hp, h]
  · intro x msg payload hp
    simp [isValidCOSEMessage, hp]
  · intro zip cl x signedFile signOptions cm cb pm h1 h2 h3 hpm hcm
    rw [verifyCOSESignatures_after_reads zip cl x signedFile signOptions cm cb pm h1 h2 h3]
    simp only [hpm, hcm, Bool.not_true, Bool.false_eq_true, if_false]
    refine ⟨?_, ?_, ?_⟩
    · intro err he; rw [he]
    · intro desc he; rw [he]
    · intro coseMsg he
      rw [he]
      refine ⟨?_, ?_, ?_⟩
      · intro hne; simp [hne]
      · intro heq err herr; simp [heq, herr]
      · intro heq herr; simp [heq, herr]

/-- Witness of C19 (amended), at archive number 3: its envelope is the bad
message, which has no signer record while one algorithm is requested, and the
signature count error is reported; the bad message itself, which has a payload,
gets the payload error. -/
theorem gate_order_witness :
    verifyCOSESignatures (exampleZip coseArchives) exampleCOSE exampleX509 [3]
        ⟨lit "id", [lit "ES256"]⟩ =
      .returned (some (.formatted "cose.sig contains %d signatures, but expected %d"
        [.int 0, .int 1])) ∧
    isValidCOSEMessage exampleX509 badMessage =
      ([], [], some (.formatted "Expected SignMessage payload to be nil, but got %+v"
        [.bytes (lit "x")])) :=
  ⟨(((gate_order.2.2.2 (exampleZip coseArchives) exampleCOSE exampleX509 [3]
    ⟨lit "id", [lit "ES256"]⟩ (lit "Name: a.txt\n") (lit "bad")
    (lit "Name: a.txt\nName: META-INF/cose.manifest\nName: META-INF/cose.sig\n")
    (by rfl) (by rfl) (by rfl) (by decide) (by decide)).2.2 badMessage (by rfl)).1 (by decide)),
   gate_order.2.2.1 exampleX509 badMessage (lit "x") (by rfl)⟩

/-- C20 (as the claim states it, refuted): in archive number 1 the PKCS7
manifest lists only `glucose.txt`; it references neither COSE artifact by name,
yet it passes the cross-reference gate (the verification succeeds). In archive
number 2 the COSE manifest lists `glucose.txt` and no COSE artifact, yet the
verification fails with the self-reference error. -/
theorem cross_reference_counterexample :
    referencesCOSEArtifacts (lit "Name: glucose.txt\n") = false ∧
    verifyCOSESignatures (exampleZip coseArchives) exampleCOSE exampleX509 [1]
        ⟨lit "id", [lit "ES256"]⟩ = .returned none ∧
    verifyCOSESignatures (exampleZip coseArchives) exampleCOSE exampleX509 [2]
        ⟨lit "id", [lit "ES256"]⟩ =
      .returned (some (.formatted "cose manifest contains cose files: %s"
        [.bytes (lit "Name: glucose.txt\n")])) := by
  refine ⟨by decide, by rfl, by rfl⟩

/-- C20 (amended): for every signed archive in which the three artifacts
`META-INF/cose.manifest`, `META-INF/cose.sig` and `META-INF/manifest.mf` are
present, `verifyCOSESignatures` fails with the inconsistent references error
iff the text `cose` occurs nowhere in the PKCS7 manifest, and otherwise fails
with the self-reference error iff the text `cose` occurs somewhere in the COSE
manifest. -/
theorem cross_reference_gate (zip : ZipLib) (cl : COSELib) (x : X509Lib)
    (signedFile : Bytes) (signOptions : Options) (coseManifest coseMsgBytes pkcs7Manifest : Bytes)
    (h1 : mustReadFileFromZIP zip signedFile (lit "META-INF/cose.manifest") =
      .returned coseManifest)
    (h2 : mustReadFileFromZIP zip signedFile (lit "META-INF/cose.sig") = .returned coseMsgBytes)
    (h3 : mustReadFileFromZIP zip signedFile (lit "META-INF/manifest.mf") =
      .returned pkcs7Manifest) :
    (verifyCOSESignatures zip cl x signedFile signOptions =
        .returned (some (.formatted "pkcs7 manifest does not contain cose files: %s"
          [.bytes pkcs7Manifest])) ↔
      ¬ ∃ a b, pkcs7Manifest = a ++ lit "cose" ++ b) ∧
    ((∃ a b, pkcs7Manifest = a ++ lit "cose" ++ b) →
      (verifyCOSESignatures zip cl x signedFile signOptions =
          .returned (some (.formatted "cose manifest contains cose files: %s"
            [.bytes coseManifest])) ↔
        ∃ a b, coseManifest = a ++ lit "cose" ++ b)) := by
  rw [verifyCOSESignatures_after_reads zip cl x signedFile signOptions _ _ _ h1 h2 h3]
  simp only [← contains_iff]
  have hd1 : ("cose manifest contains cose files: %s" : String) ≠
      "pkcs7 manifest does not contain cose files: %s" := by decide
  have hd2 : ("cose.sig not a SignMessage" : String) ≠
      "pkcs7 manifest does not contain cose files: %s" := by decide
  have hd3 : ("cose.sig contains %d signatures, but expected %d" : String) ≠
      "pkcs7 manifest does not contain cose files: %s" := by decide
  have hd4 : ("cose.sig not a SignMessage" : String) ≠
      "cose manifest contains cose files: %s" := by decide
  have hd5 : ("cose.sig contains %d signatures, but expected %d" : String) ≠
      "cose manifest contains cose files: %s" := by decide
  constructor
  · by_cases hpm : Contains pkcs7Manifest (lit "cose") = true
    · simp only [hpm, Bool.not_true, Bool.false_eq_true, if_false, not_true_eq_false,
        iff_false]
      split
      · simp [hd1]
      · split
        · simp
        · simp [hd2]
        · split
          · simp [hd3]
          · split <;> simp
    · simp [hpm]
  · intro hpm
    simp only [hpm, Bool.not_true, Bool.false_eq_true, if_false]
    by_cases hcm : Contains coseManifest (lit "cose") = true
    · simp [hcm]
    · simp only [hcm, Bool.false_eq_true, if_false, iff_false]
      split
      · simp
      · simp [hd4]
      · split
        · simp [hd5]
        · split <;> simp

/-- Witness of C20 (amended), at archive number 0. -/
theorem cross_reference_gate_witness :
    (verifyCOSESignatures (exampleZip coseArchives) exampleCOSE exampleX509 [0]
        ⟨lit "id", [lit "ES256"]⟩ =
        .returned (some (.formatted "pkcs7 manifest does not contain cose files: %s"
          [.bytes (lit
            "Name: a.txt\nName: META-INF/cose.manifest\nName: META-INF/cose.sig\n")])) ↔
      ¬ ∃ a b, lit "Name: a.txt\nName: META-INF/cose.manifest\nName: META-INF/cose.sig\n" =
        a ++ lit "cose" ++ b) ∧
    ((∃ a b, lit "Name: a.txt\nName: META-INF/cose.manifest\nName: META-INF/cose.sig\n" =
        a ++ lit "cose" ++ b) →
      (verifyCOSESignatures (exampleZip coseArchives) exampleCOSE exampleX509 [0]
          ⟨lit "id", [lit "ES256"]⟩ =
          .returned (some (.formatted "cose manifest contains cose files: %s"
            [.bytes (lit "Name: a.txt\n")])) ↔
        ∃ a b, lit "Name: a.txt\n" = a ++ lit "cose" ++ b)) :=
  cross_reference_gate (exampleZip coseArchives) exampleCOSE exampleX509 [0]
    ⟨lit "id", [lit "ES256"]⟩ (lit "Name: a.txt\n") (lit "msg1")
    (lit "Name: a.txt\nName: META-INF/cose.manifest\nName: META-INF/cose.sig\n")
    (by rfl) (by rfl) (by rfl)

/-! ## `SignFile` -/

theorem makeJARSignature_no_error (h : HashLib) (manifest : Bytes) :
    (makeJARSignature h manifest).2 = none := rfl

theorem makeJARManifests_ok (zip : ZipLib) (h : HashLib) (input M S : Bytes) :
    makeJARManifests zip h input = (M, S, none) ↔
      makeJARManifest zip h input = (M, none) ∧ makeJARSignature h M = (S, none) := by
  have hsig : ∀ m, makeJARSignature h m = ((makeJARSignature h m).1, none) := fun _ => rfl
  unfold makeJARManifests makeJARManifestAndSignature
  rcases hm : makeJARManifest zip h input with ⟨manifest, _ | e⟩
  · simp only
    rw [hsig manifest]
    simp only [Prod.mk.injEq, and_true]
    constructor
    · rintro ⟨h1, h2⟩
      subst h1
      exact ⟨rfl, by rw [hsig manifest, h2]⟩
    · rintro ⟨h1, h2⟩
      subst h1
      exact ⟨rfl, congrArg Prod.fst h2⟩
  · simp

theorem makeJARManifests_error (zip : ZipLib) (h : HashLib) (input : Bytes) (err : Error) :
    (makeJARManifests zip h input).2.2 = some err ↔
      (makeJARManifest zip h input).2 = some err := by
  have hsig : ∀ m, makeJARSignature h m = ((makeJARSignature h m).1, none) := fun _ => rfl
  unfold makeJARManifests makeJARManifestAndSignature
  rcases hm : makeJARManifest zip h input with ⟨manifest, _ | e⟩
  · simp only
    rw [hsig manifest]
  · simp

/-- C21: for every input archive and options, `SignFile` returns either a signed
archive and no error, or an error and no archive. It returns the archive `out`
iff the manifest `M` of the input is built without error, `S` is
`makeJARSignature(M)`, the detached signature `sig` is produced by `signData`
over `S` (the signature file, not the manifest), and `out` is
`repackJAR(input, M, S, sig)`; a failure of one of the three stages is returned
wrapped, as the error of `SignFile`. -/
theorem SignFile_stages {K SD I : Type} (zip : ZipLib) (h : HashLib) (js : JSONLib I)
    (sl : SignLib K SD) (s : PKCS7Signer K) (input : Bytes) (options : I) :
    (∀ out, s.SignFile zip h js sl input options = .ok out ↔
      ∃ M S sig, makeJARManifest zip h input = (M, none) ∧ makeJARSignature h M = (S, none) ∧
        (s.signData js sl S options).1 = .ok sig ∧ repackJAR zip input M S sig = .ok out) ∧
    ((∃ out, s.SignFile zip h js sl input options = .ok out) ∨
      (∃ err, s.SignFile zip h js sl input options = .error err)) ∧
    (∀ err, (makeJARManifest zip h input).2 = some err →
      s.SignFile zip h js sl input options =
        .error (.wrap err "xpi: cannot make JAR manifests from XPI")) ∧
    (∀ M S err, makeJARManifest zip h input = (M, none) → makeJARSignature h M = (S, none) →
      (s.signData js sl S options).1 = .error err →
      s.SignFile zip h js sl input options = .error (.wrap err "xpi: failed to sign XPI")) ∧
    (∀ M S sig err, makeJARManifest zip h input = (M, none) →
      makeJARSignature h M = (S, none) → (s.signData js sl S options).1 = .ok sig →
      repackJAR zip input M S sig = .error err →
      s.SignFile zip h js sl input options = .error (.wrap err "xpi: failed to repack XPI")) := by
  refine ⟨?_, ?_, ?_, ?_, ?_⟩
  · intro out
    unfold PKCS7Signer.SignFile
    rcases hm : makeJARManifests zip h input with ⟨M, S, _ | e⟩
    · obtain ⟨h1, h2⟩ := (makeJARManifests_ok zip h input M S).1 hm
      simp only
      constructor
      · intro hout
        cases hsig : (s.signData js sl S options).1 with
        | error e => rw [hsig] at hout; simp at hout
        | ok sig =>
          rw [hsig] at hout
          simp only at hout
          cases hrep : repackJAR zip input M S sig with
          | error e => rw [hrep] at hout; simp at hout
          | ok signedFile =>
            rw [hrep] at hout
            simp only [Except.ok.injEq] at hout
            exact ⟨M, S, sig, h1, h2, hsig, hout ▸ hrep⟩
      · rintro ⟨M', S', sig, h1', h2', hsig, hrep⟩
        rw [h1] at h1'
        simp only [Prod.mk.injEq, and_true] at h1'
        subst h1'
        rw [h2] at h2'
        simp only [Prod.mk.injEq, and_true] at h2'
        subst h2'
        rw [hsig]
        simp only
        rw [hrep]
    · simp only [reduceCtorEq, false_iff, not_exists, not_and]
      intro M' S' sig h1' _ _
      have := (makeJARManifests_error zip h input e).1 (by rw [hm])
      rw [h1'] at this
      simp at this
  · cases s.SignFile zip h js sl input options with
    | ok out => exact Or.inl ⟨out, rfl⟩
    | error err => exact Or.inr ⟨err, rfl⟩
  · intro err herr
    have := (makeJARManifests_error zip h input err).2 herr
    unfold PKCS7Signer.SignFile
    rcases hm : makeJARManifests zip h input with ⟨M, S, _ | e⟩
    · rw [hm] at this; simp at this
    · rw [hm] at this
      simp only [Option.some.injEq] at this
      rw [this]
  · intro M S err h1 h2 hsig
    have hm := (makeJARManifests_ok zip h input M S).2 ⟨h1, h2⟩
    unfold PKCS7Signer.SignFile
    rw [hm]
    simp only
    rw [hsig]
  · intro M S sig err h1 h2 hsig hrep
    have hm := (makeJARManifests_ok zip h input M S).2 ⟨h1, h2⟩
    unfold PKCS7Signer.SignFile
    rw [hm]
    simp only
    rw [hsig]
    simp only
    rw [hrep]

/-- C22: `isSignatureFile` never strips content outside the reserved area: for
every name it is true only if the name begins with the exact prefix `META-INF/`
and the remainder is `MANIFEST.MF` or `manifest.mf`, or ends with `.SF`, `.sf`,
`.RSA`, `.rsa`, `.DSA` or `.dsa`, or begins with `SIG-` or `sig-`; it is false for
every name that does not start with `META-INF/`, and for `META-INF/cose.manifest`
and `META-INF/cose.sig`. -/
theorem isSignatureFile_only_reserved :
    (∀ name, isSignatureFile name = true →
      ∃ rem, name = lit "META-INF/" ++ rem ∧
        (rem = lit "MANIFEST.MF" ∨ rem = lit "manifest.mf" ∨
          (∃ t, rem = t ++ lit ".SF") ∨ (∃ t, rem = t ++ lit ".sf") ∨
          (∃ t, rem = t ++ lit ".RSA") ∨ (∃ t, rem = t ++ lit ".rsa") ∨
          (∃ t, rem = t ++ lit ".DSA") ∨ (∃ t, rem = t ++ lit ".dsa") ∨
          (∃ t, rem = lit "SIG-" ++ t) ∨ (∃ t, rem = lit "sig-" ++ t))) ∧
    (∀ name, (¬ ∃ rem, name = lit "META-INF/" ++ rem) → isSignatureFile name = false) ∧
    isSignatureFile (lit "META-INF/cose.manifest") = false ∧
    isSignatureFile (lit "META-INF/cose.sig") = false := by
  refine ⟨?_, ?_, by decide, by decide⟩
  · intro name hname
    exact (isSignatureFile_iff name).1 hname
  · intro name hname
    cases hs : isSignatureFile name with
    | false => rfl
    | true =>
      obtain ⟨rem, hrem, _⟩ := (isSignatureFile_iff name).1 hs
      exact absurd ⟨rem, hrem⟩ hname

/-! ## Signing preserves the manifest -/

theorem manifestLoop_filter (h : HashLib) (files : List File) (mw : Bytes) :
    manifestLoop h (files.filter fun f => !isSignatureFile f.Name) mw =
      manifestLoop h files mw := by
  induction files generalizing mw with
  | nil => rfl
  | cons f fs ih =>
    by_cases hs : isSignatureFile f.Name = true
    · simp only [List.filter_cons, hs, Bool.not_true, Bool.false_eq_true, if_false]
      rw [ih]
      simp [manifestLoop, hs]
    · have hs' : isSignatureFile f.Name = false := by simpa using hs
      simp only [List.filter_cons, hs', Bool.not_false, if_true]
      unfold manifestLoop
      simp only [hs', Bool.false_eq_true, if_false]
      split
      · exact ih mw
      · split
        · rfl
        · rfl
        · exact ih _

theorem manifestLoop_append_signature_files (h : HashLib) (files metas : List File)
    (hmetas : ∀ f ∈ metas, isSignatureFile f.Name = true) (mw : Bytes) :
    manifestLoop h (files ++ metas) mw = manifestLoop h files mw := by
  induction files generalizing mw with
  | nil =>
    simp only [List.nil_append]
    induction metas generalizing mw with
    | nil => rfl
    | cons f fs ih =>
      unfold manifestLoop
      rw [if_pos (hmetas f (List.mem_cons_self _ _))]
      rw [ih fun f' hf' => hmetas f' (List.mem_cons_of_mem _ hf')]
      rfl
  | cons f fs ih =>
    simp only [List.cons_append]
    unfold manifestLoop
    split
    · exact ih mw
    · split
      · exact ih mw
      · split
        · rfl
        · rfl
        · exact ih _

theorem files_eq_of_maps (l₁ l₂ : List File)
    (h1 : l₁.map (fun f => (f.Name, f.body)) = l₂.map (fun f => (f.Name, f.body)))
    (h2 : l₁.map (fun f => f.IsDir) = l₂.map (fun f => f.IsDir)) : l₁ = l₂ := by
  induction l₁ generalizing l₂ with
  | nil =>
    cases l₂ with
    | nil => rfl
    | cons _ _ => simp at h1
  | cons a as ih =>
    cases l₂ with
    | nil => simp at h1
    | cons b bs =>
      simp only [List.map_cons, List.cons.injEq, Prod.mk.injEq] at h1 h2
      have hab : a = b := by
        cases a; cases b
        simp only [File.mk.injEq]
        exact ⟨h1.1.1, h2.1, h1.1.2⟩
      rw [hab, ih bs h1.2 h2.2]

/-- C23: signing preserves the manifest. For every input archive and every
manifest, signature file and signature bytes `m`, `s`, `sig` such that
`repackJAR(input, m, s, sig)` succeeds, when the repacked archive reads back
with the names and contents of the entries `w` written to it and the directory
flag of each copied entry (the first `w.length - 3` entries) is preserved,
the repacked archive is the archive of the entries `w` and `makeJARManifest` of
it equals `makeJARManifest(input)` byte for byte, error included. -/
theorem repackJAR_preserves_manifest (zip : ZipLib) (h : HashLib)
    (input m s sig output : Bytes) (files files' : List File) (w : List Metafile)
    (hin : zip.NewReader input = .ok files)
    (hrepack : repackJAR zip input m s sig = .ok output)
    (hw : repackEntries zip input (jarMetas m s sig) = .ok w)
    (hread : zip.NewReader output = .ok files')
    (hround : files'.map (fun f => (f.Name, f.body)) =
      w.map (fun e => (e.Name, FileBody.data e.Body)))
    (hdir : (files'.take (w.length - 3)).map (fun f => f.IsDir) =
      (files.filter fun f => !isSignatureFile f.Name).map (fun f => f.IsDir)) :
    output = zip.Archive w ∧
      makeJARManifest zip h output = makeJARManifest zip h input := by
  have hout : output = zip.Archive w := by
    obtain ⟨w', hw', hout⟩ := repackJARWithMetafiles_ok zip input _ output hrepack
    rw [hw] at hw'
    cases hw'
    exact hout
  refine ⟨hout, ?_⟩
  obtain ⟨files₀, copied, hr, hwc, hc⟩ := repackEntries_ok zip input _ w hw
  rw [hin] at hr
  cases hr
  have hlen : w.length - 3 = copied.length := by
    rw [hwc]; simp [jarMetas]
  rw [hlen] at hdir
  have hsplit : files' = files'.take copied.length ++ files'.drop copied.length :=
    (List.take_append_drop _ _).symm
  have htake : (files'.take copied.length).map (fun f => (f.Name, f.body)) =
      (files.filter fun f => !isSignatureFile f.Name).map (fun f => (f.Name, f.body)) := by
    rw [List.map_take, hround, hwc, List.map_append, ← hc]
    have : (List.map (fun m => (m.Name, FileBody.data m.Body)) copied).length = copied.length :=
      List.length_map _ _
    rw [← this, List.take_left]
  have hdrop : (files'.drop copied.length).map (fun f => (f.Name, f.body)) =
      (jarMetas m s sig).map (fun e => (e.Name, FileBody.data e.Body)) := by
    rw [List.map_drop, hround, hwc, List.map_append]
    have : (List.map (fun m => (m.Name, FileBody.data m.Body)) copied).length = copied.length :=
      List.length_map _ _
    rw [← this, List.drop_left]
  have hcopied : files'.take copied.length = files.filter fun f => !isSignatureFile f.Name :=
    files_eq_of_maps _ _ htake hdir
  have hmetas : ∀ f ∈ files'.drop copied.length, isSignatureFile f.Name = true := by
    intro f hf
    have hmem : (f.Name, f.body) ∈ (files'.drop copied.length).map (fun f => (f.Name, f.body)) :=
      List.mem_map.2 ⟨f, hf, rfl⟩
    rw [hdrop] at hmem
    simp only [jarMetas, List.map_cons, List.map_nil, List.mem_cons, Prod.mk.injEq,
      List.mem_singleton, List.not_mem_nil, or_false] at hmem
    rcases hmem with ⟨hn, _⟩ | ⟨hn, _⟩ | ⟨hn, _⟩ <;> rw [hn] <;> decide
  have hloop : ∀ mw, manifestLoop h files' mw = manifestLoop h files mw := by
    intro mw
    rw [hsplit, manifestLoop_append_signature_files h _ _ hmetas, hcopied, manifestLoop_filter]
  simp only [makeJARManifest, hread, hin, hloop]

/-- Witness of C23, at the sample archive: the manifest of the repacked archive
is the manifest of the sample archive. -/
theorem repackJAR_preserves_manifest_witness :
    [1] = readBackZip.Archive
      [⟨lit "a.txt", lit "hello"⟩, ⟨lit "dir/", []⟩, ⟨lit "META-INF/manifest.mf", lit "m"⟩,
       ⟨lit "META-INF/mozilla.sf", lit "s"⟩, ⟨lit "META-INF/mozilla.rsa", lit "r"⟩] ∧
      makeJARManifest readBackZip exampleHash [1] =
        makeJARManifest readBackZip exampleHash [0] :=
  repackJAR_preserves_manifest readBackZip exampleHash [0] (lit "m") (lit "s") (lit "r") [1]
    sampleFiles sampleRepacked
    [⟨lit "a.txt", lit "hello"⟩, ⟨lit "dir/", []⟩, ⟨lit "META-INF/manifest.mf", lit "m"⟩,
     ⟨lit "META-INF/mozilla.sf", lit "s"⟩, ⟨lit "META-INF/mozilla.rsa", lit "r"⟩]
    (by rfl) (by rfl) (by rfl) (by rfl) (by decide) (by decide)

/-- Witness of C21, at the sample archive and the sample signer: `SignFile`
returns the archive `repackJAR` makes of the input, its manifest, the signature
file of the manifest and the signature over the signature file. -/
theorem SignFile_stages_witness :
    ∃ out, sampleSigner.SignFile (exampleZip [sampleFiles]) exampleHash exampleJSON exampleSign
        [0] (some (lit "id")) = .ok out ∧
      repackJAR (exampleZip [sampleFiles]) [0]
        (makeJARManifest (exampleZip [sampleFiles]) exampleHash [0]).1
        (makeJARSignature exampleHash
          (makeJARManifest (exampleZip [sampleFiles]) exampleHash [0]).1).1
        ((makeJARSignature exampleHash
          (makeJARManifest (exampleZip [sampleFiles]) exampleHash [0]).1).1 ++ lit "id") =
        .ok out :=
  ⟨_, ((SignFile_stages (exampleZip [sampleFiles]) exampleHash exampleJSON exampleSign
      sampleSigner [0] (some (lit "id"))).1 _).2
      ⟨(makeJARManifest (exampleZip [sampleFiles]) exampleHash [0]).1,
       (makeJARSignature exampleHash
          (makeJARManifest (exampleZip [sampleFiles]) exampleHash [0]).1).1,
       (makeJARSignature exampleHash
          (makeJARManifest (exampleZip [sampleFiles]) exampleHash [0]).1).1 ++ lit "id",
       by rfl, by rfl, by rfl, by rfl⟩, by rfl⟩

end Xpi
